import Mathlib

/-!
# Two-view geometry of the boxes library

A shallow embedding of `src/lib/feature_matcher.cc` and `src/lib/camera_matrix.cc`:
matching with the ratio test, robust fundamental-matrix estimation with pruning,
pose disambiguation and iterative linear triangulation; of the image list of
`src/lib/boxes.cc`; and of the keypoint cache and the JFIF header reader of
`src/lib/image.cc`.

Conventions of the embedding.

* `float` and `double` values are rational numbers; arithmetic is exact, so rounding is
  not represented, except for the conversion to `float` that a call of `fabsf` on a
  `double` makes, which is `to_float`.  The IEEE special values the control flow depends
  on are represented explicitly: the `0/0` of `percentage_of_points_in_front_of_camera` on an empty cloud
  (`none`) and the division by a zero singular value in
  `calculate_possible_camera_matrices`.
* `int` indices are integers; `std::vector::at` is `vector_at`, which fails on a negative
  or too large index just as the conversion to `size_t` makes `at` throw.
* A member function that mutates `this` takes the object and returns the new object.
  An exception or a failed `assert` is a `Failure`.
* OpenCV routines the code calls but does not define are the fields of `OpenCV`; every
  general theorem holds for all of them.
* Values of `constants.h` and the preprocessor switches of `feature_matcher.h` are the
  fields of `Constants`.
* `unsigned int` values are natural numbers reduced modulo `2 ^ 32` where the code computes
  them; a byte of the header buffer is a natural number, and a read past the buffer is the
  failure `undefined_behaviour`.
* A loop without a bound of its own takes the number of rounds it may run; the result
  `none` means that this number was reached.
-/

namespace Boxes

/-! ## Data model -/

/-- A `cv::Point2f`. -/
structure Point2f where
  x : ℚ
  y : ℚ
deriving DecidableEq

/-- A `cv::Point3d`. -/
structure Point3d where
  x : ℚ
  y : ℚ
  z : ℚ
deriving DecidableEq

/-- A `cv::KeyPoint`. -/
structure KeyPoint where
  pt : Point2f
  size : ℚ
  angle : ℚ
  response : ℚ
  octave : Int
  class_id : Int
deriving DecidableEq

/-- A `cv::DMatch`. -/
structure DMatch where
  queryIdx : Int
  trainIdx : Int
  imgIdx : Int
  distance : ℚ
deriving DecidableEq

/-- The `MatchPoint` of `structs.h`; `_match` reads only `query_index`. -/
structure MatchPoint where
  query_index : Int
deriving DecidableEq

/-- The `CloudPoint` of `cloud_point.h`, with the three members `triangulate_points` writes. -/
structure CloudPoint where
  pt : Point3d
  keypoint : KeyPoint
  reprojection_error : ℚ
deriving DecidableEq

abbrev Matx33d := Matrix (Fin 3) (Fin 3) ℚ
abbrev Matx34d := Matrix (Fin 3) (Fin 4) ℚ
abbrev Matx43d := Matrix (Fin 4) (Fin 3) ℚ

/-- The `PointCloud` of `point_cloud.cc`: the vector `points`. -/
structure PointCloud where
  points : List CloudPoint
deriving DecidableEq

/-- The `CameraMatrix` of `camera_matrix.cc`. -/
structure CameraMatrix where
  matrix : Matx34d
  reprojection_error : ℚ
  point_cloud : PointCloud
deriving DecidableEq

/-- A descriptor matrix: one row per keypoint. -/
abbrev Descriptors := List (List ℚ)

/-- What `FeatureMatcher` reads of an `Image`. -/
structure Image where
  guess_camera_matrix : Matx33d
  descriptors : Descriptors
deriving DecidableEq

/-- The members of `FeatureMatcher`; `matches_` is the member `matches`. -/
structure FeatureMatcher where
  image1 : Image
  image2 : Image
  keypoints1 : List KeyPoint
  keypoints2 : List KeyPoint
  matches_ : List DMatch
deriving DecidableEq

/-- How a call ends when it does not return normally. -/
inductive Failure where
  | assertion_failed
  | out_of_range
  | undefined_behaviour
deriving DecidableEq

deriving instance DecidableEq for Except

/-- How `_match` ends. -/
inductive Outcome where
  | returned
  | failed (f : Failure)
deriving DecidableEq

/-- The values of `constants.h` and the switches of `feature_matcher.h`. -/
structure Constants where
  MATCH_TYPE_NORMAL : Int
  MATCH_TYPE_RADIUS : Int
  OF_RADIUS_MATCH : ℚ
  MATCH_VALID_RATIO : ℚ
  FEATURE_MATCHER_USE_SINGLE_MATCHES : Bool
  FEATURE_MATCHER_USE_DOUBLE_MATCHES : Bool
  TRIANGULATION_MAX_ITERATIONS : Nat
  TRIANGULATION_EPSILON : ℚ

/-- The arguments of one `cv::findFundamentalMat` call. -/
structure FundamentalCall where
  points1 : List Point2f
  points2 : List Point2f
  param1 : ℚ
  param2 : ℚ
deriving DecidableEq

/-- The OpenCV routines called by the code. -/
structure OpenCV where
  knnMatch : Int → Descriptors → Descriptors → Nat → List (List DMatch)
  radiusMatch : Int → Descriptors → Descriptors → ℚ → List (List DMatch)
  findFundamentalMat : FundamentalCall → Matx33d × List Nat
  solve : Matx43d → (Fin 4 → ℚ) → (Fin 3 → ℚ)
  norm : Point2f → ℚ

/-- The checked element access `std::vector::at`. -/
def vector_at {α : Type} (v : List α) (i : Int) : Option α :=
  if 0 ≤ i then v[i.toNat]? else none

/-! ## FeatureMatcher::_match -/

/-- The `switch (size)` of `_match`: the neighbour kept for one query, if any. -/
def select_neighbour (c : Constants) : List DMatch → Option DMatch
  | [match1] => if c.FEATURE_MATCHER_USE_SINGLE_MATCHES then some match1 else none
  | [match1, match2] =>
    if c.FEATURE_MATCHER_USE_DOUBLE_MATCHES then
      if match1.distance > match2.distance * c.MATCH_VALID_RATIO then none else some match1
    else none
  | _ => none

/-- The re-indexing of `queryIdx` through `match_points`, when a table is given. -/
def reindex (match_points : Option (List MatchPoint)) (match1 : DMatch) : Option DMatch :=
  match match_points with
  | none => some match1
  | some table =>
    match vector_at table match1.queryIdx with
    | none => none
    | some p => some { match1 with queryIdx := p.query_index }

/-- The loop of `_match` over `nearest_neighbours`, started with the matches so far. -/
def match_loop (c : Constants) (match_points : Option (List MatchPoint)) :
    List (List DMatch) → List DMatch → List DMatch × Outcome
  | [], matches_ => (matches_, Outcome.returned)
  | n :: rest, matches_ =>
    match select_neighbour c n with
    | none => match_loop c match_points rest matches_
    | some match1 =>
      match reindex match_points match1 with
      | none => (matches_, Outcome.failed Failure.out_of_range)
      | some m => match_loop c match_points rest (matches_ ++ [m])

/-- The loop of `_match` followed by its closing `assert`. -/
def match_filter (c : Constants) (match_points : Option (List MatchPoint))
    (nearest_neighbours : List (List DMatch)) : List DMatch × Outcome :=
  match match_loop c match_points nearest_neighbours [] with
  | (matches_, Outcome.returned) =>
    if matches_.length > 0 then (matches_, Outcome.returned)
    else (matches_, Outcome.failed Failure.assertion_failed)
  | r => r

/-- The function `FeatureMatcher::_match`. -/
def FeatureMatcher._match (cv : OpenCV) (c : Constants) (self : FeatureMatcher)
    (descriptors1 descriptors2 : Descriptors) (match_points : Option (List MatchPoint))
    (match_type norm_type : Int) : FeatureMatcher × Outcome :=
  if match_type = c.MATCH_TYPE_NORMAL then
    let r := match_filter c match_points (cv.knnMatch norm_type descriptors1 descriptors2 2)
    ({ self with matches_ := r.1 }, r.2)
  else if match_type = c.MATCH_TYPE_RADIUS then
    let r := match_filter c match_points
      (cv.radiusMatch norm_type descriptors1 descriptors2 c.OF_RADIUS_MATCH)
    ({ self with matches_ := r.1 }, r.2)
  else
    ({ self with matches_ := [] }, Outcome.returned)

/-! ## FeatureMatcher::calculate_fundamental_matrix -/

/-- The first loop of `calculate_fundamental_matrix`: the matched points of both images. -/
def collect_match_points (keypoints1 keypoints2 : List KeyPoint) :
    List DMatch → Except Failure (List Point2f × List Point2f)
  | [] => Except.ok ([], [])
  | i :: rest =>
    match vector_at keypoints1 i.queryIdx, vector_at keypoints2 i.trainIdx with
    | some k1, some k2 =>
      match collect_match_points keypoints1 keypoints2 rest with
      | Except.ok (l1, l2) => Except.ok (k1.pt :: l1, k2.pt :: l2)
      | Except.error f => Except.error f
    | _, _ => Except.error Failure.out_of_range

/-- The channel values `cv::minMaxIdx` ranges over for a vector of points. -/
def coordinates (pts : List Point2f) : List ℚ :=
  pts.flatMap fun p => [p.x, p.y]

/-- The call `cv::minMaxIdx(pts, &val_min, &val_max)` on `val_min = val_max = 0.0`. -/
def minMaxIdx (pts : List Point2f) : ℚ × ℚ :=
  match coordinates pts with
  | [] => (0, 0)
  | v :: vs => (vs.foldl min v, vs.foldl max v)

/-- The arguments `calculate_fundamental_matrix` hands to `cv::findFundamentalMat`. -/
def FeatureMatcher.fundamental_call (self : FeatureMatcher) : Except Failure FundamentalCall :=
  match collect_match_points self.keypoints1 self.keypoints2 self.matches_ with
  | Except.error f => Except.error f
  | Except.ok (match_points1, match_points2) =>
    let val_max := (minMaxIdx match_points1).2
    let epipolar_distance := 0.006 * val_max
    Except.ok ⟨match_points1, match_points2, epipolar_distance, 0.99⟩

/-- The pruning loop: `i` runs over `status`, `matches[i]` is pushed when `status[i] == 1`. -/
def best_matches_loop (matches_ : List DMatch) :
    List Nat → Nat → List DMatch → Except Failure (List DMatch)
  | [], _, best_matches => Except.ok best_matches
  | s :: rest, i, best_matches =>
    if s = 1 then
      match matches_[i]? with
      | none => Except.error Failure.undefined_behaviour
      | some m => best_matches_loop matches_ rest (i + 1) (best_matches ++ [m])
    else best_matches_loop matches_ rest (i + 1) best_matches

/-- The function `FeatureMatcher::calculate_fundamental_matrix`. -/
def FeatureMatcher.calculate_fundamental_matrix (cv : OpenCV) (self : FeatureMatcher) :
    Except Failure (Matx33d × FeatureMatcher) :=
  match self.fundamental_call with
  | Except.error f => Except.error f
  | Except.ok call =>
    let r := cv.findFundamentalMat call
    match best_matches_loop self.matches_ r.2 0 [] with
    | Except.error f => Except.error f
    | Except.ok best_matches => Except.ok (r.1, { self with matches_ := best_matches })

/-! ## The routine fabsf on a double -/

/-- The number of times a natural number can be halved before it is below 2, which is the
position of its leading binary digit; the first argument bounds the recursion. -/
def halvings : Nat → Nat → Nat
  | 0, _ => 0
  | fuel + 1, n => if n ≥ 2 then halvings fuel (n / 2) + 1 else 0

/-- The conversion of a non-negative `double` to `float`: the nearest number with 24 binary
digits and an exponent of at least -126, the even one of two that are equally near; `none`
is the infinity that a value beyond the range of `float` becomes. -/
def to_float (x : ℚ) : Option ℚ :=
  if x = 0 then some 0
  else
    let e0 : Int := (halvings x.num.toNat x.num.toNat : Int) - (halvings x.den x.den : Int)
    let e : Int := if (2 : ℚ) ^ e0 ≤ x then e0 else e0 - 1
    let quantum : ℚ := (2 : ℚ) ^ (max e (-126) - 23)
    let scaled : ℚ := x / quantum
    let below : Int := ⌊scaled⌋
    let rest : ℚ := scaled - below
    let nearest : Int :=
      if rest < 1 / 2 then below
      else if rest > 1 / 2 then below + 1
      else if below % 2 = 0 then below else below + 1
    let rounded : ℚ := nearest * quantum
    if rounded < 2 ^ 128 then some rounded else none

/-- The routine `fabsf` of the C library called on a `double`: the argument is converted to
`float` and the result is its absolute value. -/
def fabsf (x : ℚ) : Option ℚ :=
  to_float |x|

/-- The comparison `a <= b` of a value of `fabsf` with a `double`; an infinity is not below
any number. -/
def float_le (a : Option ℚ) (b : ℚ) : Bool :=
  match a with
  | none => false
  | some a => decide (a ≤ b)

/-! ## CameraMatrix -/

/-- The value `cv::determinant` of a 3x3 matrix. -/
def determinant (m : Matx33d) : ℚ :=
  m 0 0 * (m 1 1 * m 2 2 - m 1 2 * m 2 1) - m 0 1 * (m 1 0 * m 2 2 - m 1 2 * m 2 0)
    + m 0 2 * (m 1 0 * m 2 1 - m 1 1 * m 2 0)

/-- The block `cv::Mat(matrix).colRange(0, 3)`. -/
def CameraMatrix.rotation (self : CameraMatrix) : Matx33d :=
  Matrix.of fun i j => self.matrix i j.castSucc

/-- The function `CameraMatrix::rotation_is_coherent`; the caller skips a candidate on `true`.
An infinite value of `fabsf` is still infinite after the subtraction. -/
def CameraMatrix.rotation_is_coherent (self : CameraMatrix) : Bool :=
  match fabsf (determinant self.rotation) with
  | none => true
  | some magnitude =>
    let determinant := magnitude - 1.0
    decide (determinant > 1e-07)

/-- The function `CameraMatrix::percentage_of_points_in_front_of_camera`; `none` is the NaN
of `0.0 / 0.0`. -/
def CameraMatrix.percentage_of_points_in_front_of_camera (self : CameraMatrix) : Option ℚ :=
  let points_in_front := (self.point_cloud.points.filter fun cp => cp.pt.z > 0).length
  if self.point_cloud.points.length = 0 then none
  else some ((points_in_front : ℚ) / (self.point_cloud.points.length : ℚ))

/-- The comparison `a > b` of two doubles either of which may be NaN. -/
def double_gt : Option ℚ → Option ℚ → Bool
  | some a, some b => decide (a > b)
  | _, _ => false

/-! ## Triangulation -/

/-- The function `FeatureMatcher::_triangulate_one_point`. -/
def FeatureMatcher._triangulate_one_point (cv : OpenCV) (p1 : Point3d) (c1 : Matx34d)
    (p2 : Point3d) (c2 : Matx34d) (weight1 weight2 : ℚ) : Fin 4 → ℚ :=
  let A : Matx43d := !![
    (p1.x * c1 2 0 - c1 0 0) / weight1, (p1.x * c1 2 1 - c1 0 1) / weight1, (p1.x * c1 2 2 - c1 0 2) / weight1;
    (p1.y * c1 2 0 - c1 1 0) / weight1, (p1.y * c1 2 1 - c1 1 1) / weight1, (p1.y * c1 2 2 - c1 1 2) / weight1;
    (p2.x * c2 2 0 - c2 0 0) / weight2, (p2.x * c2 2 1 - c2 0 1) / weight2, (p2.x * c2 2 2 - c2 0 2) / weight2;
    (p2.y * c2 2 0 - c2 1 0) / weight2, (p2.y * c2 2 1 - c2 1 1) / weight2, (p2.y * c2 2 2 - c2 1 2) / weight2]
  let B : Fin 4 → ℚ := ![
    -(p1.x * c1 2 3 - c1 0 3) / weight1,
    -(p1.y * c1 2 3 - c1 1 3) / weight1,
    -(p2.x * c2 2 3 - c2 0 3) / weight2,
    -(p2.y * c2 2 3 - c2 1 3) / weight2]
  let X := cv.solve A B
  ![X 0, X 1, X 2, 1.0]

/-- The product `cv::Mat_<double>(c).row(2) * X`. -/
def row2_times (c : Matx34d) (X : Fin 4 → ℚ) : ℚ :=
  c 2 0 * X 0 + c 2 1 * X 1 + c 2 2 * X 2 + c 2 3 * X 3

/-- The `for` loop of `triangulate_one_point` with the given number of rounds left. -/
def reweight_loop (cv : OpenCV) (c : Constants) (p1 : Point3d) (c1 : Matx34d)
    (p2 : Point3d) (c2 : Matx34d) : Nat → ℚ → ℚ → (Fin 4 → ℚ) → (Fin 4 → ℚ)
  | 0, _, _, X => X
  | n + 1, weight1, weight2, X =>
    let weight1_ := row2_times c1 X
    let weight2_ := row2_times c2 X
    if float_le (fabsf (weight1 - weight1_)) c.TRIANGULATION_EPSILON ∧
        float_le (fabsf (weight2 - weight2_)) c.TRIANGULATION_EPSILON then X
    else
      reweight_loop cv c p1 c1 p2 c2 n weight1_ weight2_
        (FeatureMatcher._triangulate_one_point cv p1 c1 p2 c2 weight1_ weight2_)

/-- The function `FeatureMatcher::triangulate_one_point`. -/
def FeatureMatcher.triangulate_one_point (cv : OpenCV) (c : Constants) (p1 : Point3d)
    (c1 : Matx34d) (p2 : Point3d) (c2 : Matx34d) : Fin 4 → ℚ :=
  reweight_loop cv c p1 c1 p2 c2 c.TRIANGULATION_MAX_ITERATIONS 1.0 1.0
    (FeatureMatcher._triangulate_one_point cv p1 c1 p2 c2 1.0 1.0)

/-- The result of `cv::Mat::inv()` on a 3x3 matrix: the inverse, or zero if singular. -/
def inv (m : Matx33d) : Matx33d :=
  let d := determinant m
  !![(m 1 1 * m 2 2 - m 1 2 * m 2 1) / d, (m 0 2 * m 2 1 - m 0 1 * m 2 2) / d, (m 0 1 * m 1 2 - m 0 2 * m 1 1) / d;
     (m 1 2 * m 2 0 - m 1 0 * m 2 2) / d, (m 0 0 * m 2 2 - m 0 2 * m 2 0) / d, (m 0 2 * m 1 0 - m 0 0 * m 1 2) / d;
     (m 1 0 * m 2 1 - m 1 1 * m 2 0) / d, (m 0 1 * m 2 0 - m 0 0 * m 2 1) / d, (m 0 0 * m 1 1 - m 0 1 * m 1 0) / d]

/-- A 3x3 matrix applied to the point `(x, y, z)`. -/
def apply33 (m : Matx33d) (p : Point3d) : Point3d :=
  ⟨m 0 0 * p.x + m 0 1 * p.y + m 0 2 * p.z,
   m 1 0 * p.x + m 1 1 * p.y + m 1 2 * p.z,
   m 2 0 * p.x + m 2 1 * p.y + m 2 2 * p.z⟩

/-- The product of a 3x4 matrix and a 4x1 column. -/
def apply34 (m : Matx34d) (X : Fin 4 → ℚ) : Fin 3 → ℚ :=
  fun i => m i 0 * X 0 + m i 1 * X 1 + m i 2 * X 2 + m i 3 * X 3

/-- The body of the loop of `triangulate_points` for one correspondence. -/
def FeatureMatcher.triangulate_match (cv : OpenCV) (c : Constants) (self : FeatureMatcher)
    (p1 p2 : Matx34d) (m : DMatch) : Except Failure CloudPoint :=
  let c1 := self.image1.guess_camera_matrix
  let c1_inv := inv c1
  let c2 := self.image2.guess_camera_matrix
  let c2_inv := inv c2
  let KP1 : Matx34d := c1 * p1
  match vector_at self.keypoints1 m.queryIdx, vector_at self.keypoints2 m.trainIdx with
  | some keypoint1, some keypoint2 =>
    let match_point1 := keypoint1.pt
    let match_point2 := keypoint2.pt
    let match_point_3d1 := apply33 c1_inv ⟨match_point1.x, match_point1.y, 1.0⟩
    let match_point_3d2 := apply33 c2_inv ⟨match_point2.x, match_point2.y, 1.0⟩
    let X := FeatureMatcher.triangulate_one_point cv c match_point_3d1 p1 match_point_3d2 p2
    let X_reproj := apply34 KP1 X
    let X_reproj_point : Point2f := ⟨X_reproj 0 / X_reproj 2, X_reproj 1 / X_reproj 2⟩
    Except.ok
      { pt := ⟨X 0, X 1, X 2⟩
        keypoint := keypoint1
        reprojection_error :=
          cv.norm ⟨X_reproj_point.x - match_point1.x, X_reproj_point.y - match_point1.y⟩ }
  | _, _ => Except.error Failure.out_of_range

/-- The loop of `triangulate_points` over the correspondences, in index order. -/
def FeatureMatcher.triangulate_loop (cv : OpenCV) (c : Constants) (self : FeatureMatcher)
    (p1 p2 : Matx34d) : List DMatch → PointCloud → Except Failure PointCloud
  | [], point_cloud => Except.ok point_cloud
  | m :: rest, point_cloud =>
    match self.triangulate_match cv c p1 p2 m with
    | Except.error f => Except.error f
    | Except.ok cloud_point =>
      FeatureMatcher.triangulate_loop cv c self p1 p2 rest ⟨point_cloud.points ++ [cloud_point]⟩

/-- The first channel of `cv::mean` of a vector of doubles: 0 on the empty vector. -/
def mean (v : List ℚ) : ℚ :=
  if v.length = 0 then 0 else v.sum / (v.length : ℚ)

/-- The vector `reproj_errors` of `triangulate_points` when the loop over the cloud is done:
`point_cloud->size()` zero-initialised entries followed by one pushed entry per point. -/
def reproj_errors (point_cloud : PointCloud) : List ℚ :=
  List.replicate point_cloud.points.length 0
    ++ point_cloud.points.map fun i => i.reprojection_error

/-- The function `FeatureMatcher::triangulate_points`: the returned mean and the cloud. -/
def FeatureMatcher.triangulate_points (cv : OpenCV) (c : Constants) (self : FeatureMatcher)
    (p1 p2 : Matx34d) (point_cloud : PointCloud) : Except Failure (ℚ × PointCloud) :=
  if self.keypoints1.length < self.matches_.length then Except.error Failure.assertion_failed
  else if self.keypoints2.length < self.matches_.length then
    Except.error Failure.assertion_failed
  else
    match self.triangulate_loop cv c p1 p2 self.matches_ point_cloud with
    | Except.error f => Except.error f
    | Except.ok cloud => Except.ok (mean (reproj_errors cloud), cloud)

/-! ## FeatureMatcher::find_best_camera_matrix -/

/-- The matrix `cv::Matx34d::eye()`. -/
def P0 : Matx34d :=
  !![1, 0, 0, 0;
     0, 1, 0, 0;
     0, 0, 1, 0]

/-- One round of the loop of `find_best_camera_matrix`, for the candidate at position `i`.
The state is the vector of candidates and the position `best_matrix` points to. -/
def FeatureMatcher.find_best_step (cv : OpenCV) (c : Constants) (self : FeatureMatcher)
    (state : List CameraMatrix × Option Nat) (i : Nat) :
    Except Failure (List CameraMatrix × Option Nat) :=
  match state.1[i]? with
  | none => Except.ok state
  | some camera_matrix =>
    if camera_matrix.rotation_is_coherent then Except.ok state
    else
      let best := state.2.getD i
      match self.triangulate_points cv c P0 camera_matrix.matrix camera_matrix.point_cloud with
      | Except.error f => Except.error f
      | Except.ok (error, cloud) =>
        let camera_matrix : CameraMatrix := ⟨camera_matrix.matrix, error, cloud⟩
        let camera_matrices := state.1.set i camera_matrix
        match camera_matrices[best]? with
        | none => Except.ok (camera_matrices, some best)
        | some best_matrix =>
          if double_gt camera_matrix.percentage_of_points_in_front_of_camera
              best_matrix.percentage_of_points_in_front_of_camera then
            Except.ok (camera_matrices, some i)
          else if camera_matrix.reprojection_error < best_matrix.reprojection_error then
            Except.ok (camera_matrices, some i)
          else Except.ok (camera_matrices, some best)

/-- The loop of `find_best_camera_matrix` over the given positions. -/
def FeatureMatcher.find_best_loop (cv : OpenCV) (c : Constants) (self : FeatureMatcher) :
    List Nat → List CameraMatrix × Option Nat → Except Failure (List CameraMatrix × Option Nat)
  | [], state => Except.ok state
  | i :: rest, state =>
    match self.find_best_step cv c state i with
    | Except.error f => Except.error f
    | Except.ok state => FeatureMatcher.find_best_loop cv c self rest state

/-- The function `FeatureMatcher::find_best_camera_matrix`: the candidates as the call leaves
them and the position of the returned one (`none` for `NULL`). -/
def FeatureMatcher.find_best_camera_matrix (cv : OpenCV) (c : Constants)
    (self : FeatureMatcher) (camera_matrices : List CameraMatrix) :
    Except Failure (List CameraMatrix × Option Nat) :=
  self.find_best_loop cv c (List.range camera_matrices.length) (camera_matrices, none)

/-! ## FeatureMatcher::calculate_essential_matrix and calculate_possible_camera_matrices -/

/-- The function `FeatureMatcher::calculate_essential_matrix`. -/
def FeatureMatcher.calculate_essential_matrix (self : FeatureMatcher)
    (fundamental_matrix : Matx33d) : Matx33d :=
  let camera_matrix := self.image1.guess_camera_matrix
  camera_matrix.transpose * fundamental_matrix * camera_matrix

/-- The members `u`, `w` and `vt` of a `cv::SVD`. -/
structure SVD where
  u : Matx33d
  w : Fin 3 → ℚ
  vt : Matx33d

/-- The test of `calculate_possible_camera_matrices` that decides whether "singular values
are too far apart" is printed, on the first two singular values. A division by zero gives
an infinity, whose reciprocal is 0, or for `0/0` a NaN, for which both comparisons fail;
a quotient beyond the range of `float` is made an infinity by `fabsf`. -/
def singular_values_too_far_apart (w0 w1 : ℚ) : Bool :=
  if w1 = 0 then decide (w0 ≠ 0)
  else
    match fabsf (w0 / w1) with
    | none => true
    | some singular_values_ratio =>
      let singular_values_ratio :=
        if singular_values_ratio > 1.0 then 1.0 / singular_values_ratio
        else singular_values_ratio
      decide (singular_values_ratio < 0.7)

/-- The constant `W` of `calculate_possible_camera_matrices`. -/
def W : Matx33d :=
  !![0, -1, 0;
     1, 0, 0;
     0, 0, 1]

/-- The constant `Wt` of `calculate_possible_camera_matrices`. -/
def Wt : Matx33d :=
  !![0, 1, 0;
     -1, 0, 0;
     0, 0, 1]

/-- The `cv::Matx34d` built in the inner loop from `rotation` and `translation`. -/
def pose_matrix (rotation : Matx33d) (translation : Fin 3 → ℚ) : Matx34d :=
  !![rotation 0 0, rotation 0 1, rotation 0 2, translation 0;
     rotation 1 0, rotation 1 1, rotation 1 2, translation 1;
     rotation 2 0, rotation 2 1, rotation 2 2, translation 2]

/-- Modelled from the spec: the constructor `CameraMatrix(matrix)` stores the matrix; the
initial values of the other members are declared in `camera_matrix.h`, which is not among
the sources. The spec gives the reprojection error 0 and an empty point cloud. -/
def CameraMatrix.new (matrix : Matx34d) : CameraMatrix :=
  ⟨matrix, 0, ⟨[]⟩⟩

/-- The inner loop `for (j = 0; j < 2; j++)`, with the number of rounds left, the matrix
`translation` points to and the vector `matrices`. -/
def translation_loop (rotation : Matx33d) (translation2 : Fin 3 → ℚ) :
    Nat → (Fin 3 → ℚ) → List CameraMatrix → List CameraMatrix
  | 0, _, matrices => matrices
  | j + 1, translation, matrices =>
    translation_loop rotation translation2 j translation2
      (matrices ++ [CameraMatrix.new (pose_matrix rotation translation)])

/-- The outer loop `for (i = 0; i < 2; i++)`, with the number of rounds left, the matrix
`rotation` points to and the vector `matrices`. -/
def rotation_loop (rotation2 : Matx33d) (translation1 translation2 : Fin 3 → ℚ) :
    Nat → Matx33d → List CameraMatrix → List CameraMatrix
  | 0, _, matrices => matrices
  | i + 1, rotation, matrices =>
    rotation_loop rotation2 translation1 translation2 i rotation2
      (translation_loop rotation translation2 2 translation1 matrices)

/-- The function `FeatureMatcher::calculate_possible_camera_matrices`, given the routine
`cv::SVD`: the candidates and the lines written to `std::cerr`. -/
def FeatureMatcher.calculate_possible_camera_matrices (svd : Matx33d → SVD)
    (essential_matrix : Matx33d) : List CameraMatrix × List String :=
  let svd := svd essential_matrix
  let cerr :=
    if singular_values_too_far_apart (svd.w 0) (svd.w 1) then
      ["singular values are too far apart"]
    else []
  let rotation1 : Matx33d := svd.u * W * svd.vt
  let rotation2 : Matx33d := svd.u * Wt * svd.vt
  let translation1 : Fin 3 → ℚ := fun i => svd.u i 2
  let translation2 : Fin 3 → ℚ := fun i => -translation1 i
  (rotation_loop rotation2 translation1 translation2 2 rotation1 [], cerr)

/-! ## FeatureMatcher::match and FeatureMatcher::run -/

/-- The default arguments of `_match`, declared in `feature_matcher.h`. -/
structure MatchDefaults where
  match_points : Option (List MatchPoint)
  match_type : Int
  norm_type : Int

/-- The function `FeatureMatcher::match`. -/
def FeatureMatcher.match_ (cv : OpenCV) (c : Constants) (d : MatchDefaults)
    (self : FeatureMatcher) : FeatureMatcher × Outcome :=
  let descriptors1 := self.image1.descriptors
  let descriptors2 := self.image2.descriptors
  self._match cv c descriptors1 descriptors2 d.match_points d.match_type d.norm_type

/-- The function `FeatureMatcher::run` up to the choice of the best camera matrix: the
feature matcher, the lines written to `std::cerr` and the returned camera matrix. The mesh
built from its cloud and written to a file is not represented; a `NULL` best matrix is
dereferenced there. -/
def FeatureMatcher.run (cv : OpenCV) (c : Constants) (d : MatchDefaults)
    (svd : Matx33d → SVD) (self : FeatureMatcher) :
    Except Failure (FeatureMatcher × List String × CameraMatrix) :=
  match self.match_ cv c d with
  | (_, Outcome.failed f) => Except.error f
  | (self, Outcome.returned) =>
    match self.calculate_fundamental_matrix cv with
    | Except.error f => Except.error f
    | Except.ok (fundamental_matrix, self) =>
      let essential_matrix := self.calculate_essential_matrix fundamental_matrix
      let camera_matrices :=
        FeatureMatcher.calculate_possible_camera_matrices svd essential_matrix
      match self.find_best_camera_matrix cv c camera_matrices.1 with
      | Except.error f => Except.error f
      | Except.ok (camera_matrices', best_camera_matrix) =>
        match best_camera_matrix with
        | none => Except.error Failure.undefined_behaviour
        | some best =>
          match camera_matrices'[best]? with
          | none => Except.error Failure.undefined_behaviour
          | some best_camera_matrix => Except.ok (self, camera_matrices.2, best_camera_matrix)

/-! ## Boxes::img_read and Boxes::img_get -/

/-- The function `Boxes::img_read` on the member `images`, given the constructor of
`BoxesImage`: the returned `unsigned int` and the new list. -/
def img_read {α : Type} (new_image : String → α) (images : List α)
    (filename : String) : Nat × List α :=
  let image := new_image filename
  let images := images ++ [image]
  ((images.length - 1) % 2 ^ 32, images)

/-- The function `Boxes::img_get` on the member `images`: `none` is `NULL`. The iterator `i`
is the position it points to; the iterator that `std::next(i, index)` returns is not
assigned to anything. -/
def img_get {α : Type} (images : List α) (index : Nat) : Option α :=
  if images.length ≤ index then none
  else
    let i := 0
    let _advanced := if index > 0 then i + index else i
    images[i]?

/-! ## Image::get_keypoints -/

/-- The pixel data `cv::Mat` of an image. -/
abbrev Mat := List (List Nat)

/-- The feature detectors of OpenCV as `compute_keypoints` uses them: `known` holds the values
of the `FEATURE_DETECTOR_*` constants the build compares `detector_type` with, and `detect`
is what the detector created for such a value finds in a picture. -/
structure Detectors where
  known : List String
  detect : String → Mat → List KeyPoint

/-- The members `mat` and `keypoints` of `Image`. The member `keypoints` is a `std::map` from
detector types to pointers; it is held as the list of its entries, and `none` is `NULL`. -/
structure KeypointCache where
  mat : Mat
  keypoints : List (String × Option (List KeyPoint))
  deriving DecidableEq

/-- The expression `map[key]` of `std::map` read as a value: the value stored under `key`, and
the map, which receives a `NULL` entry under `key` when it had none. -/
def map_index (map : List (String × Option (List KeyPoint))) (key : String) :
    Option (List KeyPoint) × List (String × Option (List KeyPoint)) :=
  match map.lookup key with
  | some value => (value, map)
  | none => (none, map ++ [(key, none)])

/-- The statement `map[key] = value` of `std::map`. -/
def map_assign (map : List (String × Option (List KeyPoint))) (key : String)
    (value : Option (List KeyPoint)) : List (String × Option (List KeyPoint)) :=
  match map.lookup key with
  | some _ => map.map fun entry => if entry.1 = key then (entry.1, value) else entry
  | none => map ++ [(key, value)]

/-- The function `Image::compute_keypoints`: the detector that belongs to `detector_type` is
run on the picture; `assert(detector)` fails when no branch created one. -/
def KeypointCache.compute_keypoints (cv : Detectors) (self : KeypointCache)
    (detector_type : String) : Except Failure (List KeyPoint) :=
  if detector_type ∈ cv.known then Except.ok (cv.detect detector_type self.mat)
  else Except.error Failure.assertion_failed

/-- The function `Image::get_keypoints`: the returned keypoints, the image after the call and
the detector types `compute_keypoints` was called with during the call. -/
def KeypointCache.get_keypoints (cv : Detectors) (self : KeypointCache)
    (detector_type : String) :
    Except Failure (List KeyPoint × KeypointCache × List String) :=
  match map_index self.keypoints detector_type with
  | (some keypoints, map) => Except.ok (keypoints, { self with keypoints := map }, [])
  | (none, map) =>
    match ({ self with keypoints := map } : KeypointCache).compute_keypoints cv
      detector_type with
    | Except.error failure => Except.error failure
    | Except.ok keypoints =>
      Except.ok (keypoints,
        { self with keypoints := map_assign map detector_type (some keypoints) },
        [detector_type])

/-! ## Image::decode_jfif_data -/

/-- The read `header[index]` of the array `unsigned char header[2048]`; reading past the
array is undefined behaviour. -/
def header_at (header : List Nat) (index : Nat) : Except Failure Nat :=
  if index < 2048 then Except.ok (header.getD index 0)
  else Except.error Failure.undefined_behaviour

/-- A chain `header[i] == v && header[j] == w && ...`, read from the left; `&&` stops at the
first comparison that is false. -/
def bytes_match (header : List Nat) : List (Nat × Nat) → Except Failure Bool
  | [] => Except.ok true
  | (index, value) :: rest =>
    match header_at header index with
    | Except.error failure => Except.error failure
    | Except.ok byte => if byte = value then bytes_match header rest else Except.ok false

/-- The loop `while (comment_pos < comment_length)` of `decode_jfif_data`, which copies the
comment byte by byte. The first number is `comment_length - comment_pos`, the rounds that
are left. -/
def copy_comment (header : List Nat) (pos : Nat) :
    Nat → Nat → List Nat → Except Failure (List Nat)
  | 0, _, comment => Except.ok comment
  | rounds + 1, comment_pos, comment =>
    match header_at header ((pos + comment_pos + 4) % 2 ^ 32) with
    | Except.error failure => Except.error failure
    | Except.ok byte =>
      copy_comment header pos rounds ((comment_pos + 1) % 2 ^ 32) (comment ++ [byte])

/-- The branch `if (header[pos+1] == 0xFE)` of `decode_jfif_data`: the member `distance`
after it. The regular expression search with the conversion of its match to an
`unsigned int` is `find_distance`. -/
def comment_block (find_distance : List Nat → Option Nat) (header : List Nat) (pos : Nat)
    (distance : Nat) : Except Failure Nat :=
  match header_at header (pos + 2), header_at header (pos + 3) with
  | Except.ok high, Except.ok low =>
    let comment_pos := 0
    let comment_length := ((high <<< 8) + low + 2 ^ 32 - 2) % 2 ^ 32
    match copy_comment header pos (comment_length - comment_pos) comment_pos [] with
    | Except.error failure => Except.error failure
    | Except.ok comment =>
      match find_distance comment with
      | some found => Except.ok found
      | none => Except.ok distance
  | Except.error failure, _ => Except.error failure
  | _, Except.error failure => Except.error failure

/-- The loop `while (pos < sizeof(header))` of `decode_jfif_data`: the member `distance`
after it. The first number bounds the rounds; `none` means that the bound was reached
before the loop was left. -/
def blocks_loop (find_distance : List Nat → Option Nat) (header : List Nat) :
    Nat → Nat → Nat → Nat → Option (Except Failure Nat)
  | 0, _, _, _ => none
  | rounds + 1, pos, block_length, distance =>
    if pos < 2048 then
      let pos := (pos + block_length) % 2 ^ 32
      if pos ≥ 2048 then some (Except.ok distance)
      else
        match header_at header (pos + 1) with
        | Except.error failure => some (Except.error failure)
        | Except.ok marker =>
          match (if marker = 0xFE then comment_block find_distance header pos distance
            else Except.ok distance) with
          | Except.error failure => some (Except.error failure)
          | Except.ok distance =>
            match header_at header (pos + 2), header_at header (pos + 3) with
            | Except.ok high, Except.ok low =>
              blocks_loop find_distance header rounds pos (((high <<< 8) + low + 2) % 2 ^ 32)
                distance
            | Except.error failure, _ => some (Except.error failure)
            | _, Except.error failure => some (Except.error failure)
    else some (Except.ok distance)

/-- The function `Image::decode_jfif_data`: the member `distance` after the call.
The number read from the distance file, if one could be read, is `distance_file`; `file` is
the content of `header` after `file.read`, or `none` when the file could not be opened;
`rounds` bounds the rounds of the block loop. -/
def decode_jfif_data (find_distance : List Nat → Option Nat) (distance_file : Option Int)
    (file : Option (List Nat)) (rounds : Nat) (distance : Nat) :
    Option (Except Failure Nat) :=
  match distance_file with
  | some dist => some (Except.ok (dist % 2 ^ 32).toNat)
  | none =>
    match file with
    | none => some (Except.ok distance)
    | some header =>
      let pos := 0
      match bytes_match header
        [(pos, 0xFF), (pos + 1, 0xD8), (pos + 2, 0xFF), (pos + 3, 0xE0)] with
      | Except.error failure => some (Except.error failure)
      | Except.ok false => some (Except.ok distance)
      | Except.ok true =>
        let pos := pos + 4
        match bytes_match header [(pos + 2, 74), (pos + 3, 70), (pos + 4, 73), (pos + 5, 70),
          (pos + 6, 0x00)] with
        | Except.error failure => some (Except.error failure)
        | Except.ok false => some (Except.ok distance)
        | Except.ok true =>
          match header_at header pos, header_at header (pos + 1) with
          | Except.ok high, Except.ok low =>
            blocks_loop find_distance header rounds pos ((high <<< 8) + low) distance
          | Except.error failure, _ => some (Except.error failure)
          | _, Except.error failure => some (Except.error failure)

/-! ## Properties the theorems are stated with -/

/-- The arithmetic mean of the per-point reprojection errors of a cloud, in the words of the
spec: (sum of the errors) / (number of points). -/
def arithmetic_mean_error (point_cloud : PointCloud) : ℚ :=
  (point_cloud.points.map fun p => p.reprojection_error).sum / (point_cloud.points.length : ℚ)

/-- The relation the loop of `find_best_camera_matrix` leaves between a candidate `cj` it has
compared and the best candidate `ck` it keeps: `cj` has no greater in-front fraction and no
smaller reprojection error. -/
def not_preferred (cj ck : CameraMatrix) : Prop :=
  double_gt cj.percentage_of_points_in_front_of_camera
      ck.percentage_of_points_in_front_of_camera = false
    ∧ ck.reprojection_error ≤ cj.reprojection_error

/-- The invariant of the loop of `find_best_camera_matrix` before position `i`: the best
candidate lies before `i`, was not skipped, and no candidate between it and `i` that was
not skipped is preferred to it. -/
def best_so_far (i : Nat) (state : List CameraMatrix × Option Nat) : Prop :=
  ∀ k, state.2 = some k →
    k < i ∧ (∃ ck, state.1[k]? = some ck ∧ ck.rotation_is_coherent = false) ∧
    ∀ j cj ck, k < j → j < i → state.1[j]? = some cj → state.1[k]? = some ck →
      cj.rotation_is_coherent = false → not_preferred cj ck

/-- The constants with the ratio threshold replaced by `r`. -/
def Constants.with_ratio (c : Constants) (r : ℚ) : Constants :=
  { c with MATCH_VALID_RATIO := r }

/-- Every match of every neighbour list satisfies `P`. -/
def all_neighbours (P : DMatch → Prop) (nearest_neighbours : List (List DMatch)) : Prop :=
  ∀ n ∈ nearest_neighbours, ∀ m ∈ n, P m

/-- The index `i` is a valid position of the vector `v`. -/
def index_in_range {α : Type} (v : List α) (i : Int) : Prop :=
  0 ≤ i ∧ i < (v.length : Int)

/-- The sub-sequence of the correspondences whose status flag equals 1, in their order. -/
def inliers (matches_ : List DMatch) (status : List Nat) : List DMatch :=
  ((matches_.zip status).filter fun p => p.2 = 1).map Prod.fst

/-- The inlier threshold in the words of the spec: 0.006 times the maximum coordinate
magnitude over the matched keypoint coordinates of both images. -/
def spec_epipolar_distance (call : FundamentalCall) : ℚ :=
  0.006 * ((coordinates (call.points1 ++ call.points2)).map fun v => |v|).foldl max 0

/-- What `find_best_camera_matrix` does to one candidate: a candidate its check skips is
left as it is; any other candidate receives the cloud and the scalar that
`triangulate_points` returns for its matrix and its cloud. -/
def triangulated_iff_passed (cv : OpenCV) (c : Constants) (self : FeatureMatcher)
    (before after : CameraMatrix) : Prop :=
  (before.rotation_is_coherent = true ∧ after = before)
  ∨ (before.rotation_is_coherent = false
    ∧ ∃ error cloud,
      self.triangulate_points cv c P0 before.matrix before.point_cloud
          = Except.ok (error, cloud)
        ∧ after = ⟨before.matrix, error, cloud⟩)
--@SPLIT

/-- The homogeneous column `(X, Y, Z, 1)` of a 3-D point. -/
def homogeneous (X : Fin 3 → ℚ) : Fin 4 → ℚ :=
  ![X 0, X 1, X 2, 1]

/-- The exact normalized projection of the 3-D point `X` through the camera matrix `c`: the
first two coordinates of `c * (X, 1)` divided by the third, the projective depth. -/
def normalized_projection (c : Matx34d) (X : Fin 3 → ℚ) : Point3d :=
  ⟨apply34 c (homogeneous X) 0 / apply34 c (homogeneous X) 2,
   apply34 c (homogeneous X) 1 / apply34 c (homogeneous X) 2, 1⟩

/-- The matrix `A` that `_triangulate_one_point` builds. -/
def system_matrix (p1 : Point3d) (c1 : Matx34d) (p2 : Point3d) (c2 : Matx34d)
    (weight1 weight2 : ℚ) : Matx43d :=
  !![(p1.x * c1 2 0 - c1 0 0) / weight1, (p1.x * c1 2 1 - c1 0 1) / weight1, (p1.x * c1 2 2 - c1 0 2) / weight1;
     (p1.y * c1 2 0 - c1 1 0) / weight1, (p1.y * c1 2 1 - c1 1 1) / weight1, (p1.y * c1 2 2 - c1 1 2) / weight1;
     (p2.x * c2 2 0 - c2 0 0) / weight2, (p2.x * c2 2 1 - c2 0 1) / weight2, (p2.x * c2 2 2 - c2 0 2) / weight2;
     (p2.y * c2 2 0 - c2 1 0) / weight2, (p2.y * c2 2 1 - c2 1 1) / weight2, (p2.y * c2 2 2 - c2 1 2) / weight2]

/-- The column `B` that `_triangulate_one_point` builds. -/
def system_vector (p1 : Point3d) (c1 : Matx34d) (p2 : Point3d) (c2 : Matx34d)
    (weight1 weight2 : ℚ) : Fin 4 → ℚ :=
  ![-(p1.x * c1 2 3 - c1 0 3) / weight1,
    -(p1.y * c1 2 3 - c1 1 3) / weight1,
    -(p2.x * c2 2 3 - c2 0 3) / weight2,
    -(p2.y * c2 2 3 - c2 1 3) / weight2]

/-- What `cv::solve(A, B, X, cv::DECOMP_SVD)` returns in exact arithmetic for a system that
has exactly one solution: that solution. -/
def solves_exactly (cv : OpenCV) : Prop :=
  ∀ (A : Matx43d) (B : Fin 4 → ℚ) (X : Fin 3 → ℚ),
    A.mulVec X = B → (∀ Y : Fin 3 → ℚ, A.mulVec Y = 0 → Y = 0) → cv.solve A B = X

/-- The homogeneous point `C` is the centre of the camera matrix `c`: the kernel of `c` is
the line spanned by `C`. -/
def camera_centre (c : Matx34d) (C : Fin 4 → ℚ) : Prop :=
  c.mulVec C = 0 ∧ ∀ V : Fin 4 → ℚ, c.mulVec V = 0 → ∃ ν : ℚ, V = ν • C

/-- The setting of noise-free triangulation: `C1` and `C2` are the centres of the camera
matrices `c1` and `c2` and are distinct points, the 3-D point `X` does not lie on the line
through them and has non-zero projective depth in both cameras, and `p1` and `p2` have the
coordinates of the exact normalized projections of `X`. -/
structure NoiseFree (p1 : Point3d) (c1 : Matx34d) (p2 : Point3d) (c2 : Matx34d)
    (X : Fin 3 → ℚ) (C1 C2 : Fin 4 → ℚ) : Prop where
  centre1 : camera_centre c1 C1
  centre2 : camera_centre c2 C2
  distinct : ∀ a b : ℚ, a • C1 + b • C2 = 0 → a = 0 ∧ b = 0
  off_baseline : ∀ a b : ℚ, homogeneous X ≠ a • C1 + b • C2
  depth1 : apply34 c1 (homogeneous X) 2 ≠ 0
  depth2 : apply34 c2 (homogeneous X) 2 ≠ 0
  x1 : p1.x = (normalized_projection c1 X).x
  y1 : p1.y = (normalized_projection c1 X).y
  x2 : p2.x = (normalized_projection c2 X).x
  y2 : p2.y = (normalized_projection c2 X).y

/-- A sequence of calls of `get_keypoints` on one image, one for each detector type of the
list: the image after the last call and the detector types `compute_keypoints` was called
with, in the order of the calls, when no call failed. -/
def get_keypoints_each (cv : Detectors) :
    KeypointCache → List String → Except Failure (KeypointCache × List String)
  | self, [] => Except.ok (self, [])
  | self, detector_type :: rest =>
    match self.get_keypoints cv detector_type with
    | Except.error failure => Except.error failure
    | Except.ok (_, next, computed) =>
      match get_keypoints_each cv next rest with
      | Except.error failure => Except.error failure
      | Except.ok (last, computed_later) => Except.ok (last, computed ++ computed_later)

/-- Rotation coherence in the words of the specification: the determinant of the rotation
block is +1 or -1 within the tolerance `1e-07`. -/
def coherent_by_determinant (cm : CameraMatrix) : Prop :=
  |(|determinant cm.rotation| - 1)| ≤ 1e-07

instance (cm : CameraMatrix) : Decidable (coherent_by_determinant cm) := by
  unfold coherent_by_determinant
  infer_instance

/-! ## Reference values for concrete runs -/

/-- Modelled from the spec: `constants.h` and `feature_matcher.h` are not among the sources.
The ratio threshold 0.8, the iteration cap 10 and the epsilon 1e-4 are the values the spec
gives; both neighbour counts are accepted; the two match-type codes are 0 and 1. -/
def spec_constants : Constants :=
  { MATCH_TYPE_NORMAL := 0
    MATCH_TYPE_RADIUS := 1
    OF_RADIUS_MATCH := 100
    MATCH_VALID_RATIO := 0.8
    FEATURE_MATCHER_USE_SINGLE_MATCHES := true
    FEATURE_MATCHER_USE_DOUBLE_MATCHES := true
    TRIANGULATION_MAX_ITERATIONS := 10
    TRIANGULATION_EPSILON := 0.0001 }

/-- The least-squares solution of `A x = B` by the normal equations, which is the value of
`cv::solve(A, B, X, cv::DECOMP_SVD)` whenever `A` has full column rank. -/
def least_squares (A : Matx43d) (B : Fin 4 → ℚ) : Fin 3 → ℚ :=
  let AtA : Matx33d := Matrix.of fun i j => A 0 i * A 0 j + A 1 i * A 1 j + A 2 i * A 2 j + A 3 i * A 3 j
  let AtB : Fin 3 → ℚ := fun i => A 0 i * B 0 + A 1 i * B 1 + A 2 i * B 2 + A 3 i * B 3
  let x := apply33 (inv AtA) ⟨AtB 0, AtB 1, AtB 2⟩
  ![x.x, x.y, x.z]

/-- The Euclidean norm of a point, exact whenever `x² + y²` is the square of a rational. -/
def euclidean_norm (p : Point2f) : ℚ :=
  let s := p.x * p.x + p.y * p.y
  (Nat.sqrt s.num.toNat : ℚ) / (Nat.sqrt s.den : ℚ)

/-- An OpenCV whose nearest-neighbour searches answer `nearest_neighbours`, whose robust
solver answers the zero matrix and `status`, and which solves and measures exactly. -/
def answering (nearest_neighbours : List (List DMatch)) (status : List Nat) : OpenCV :=
  { knnMatch := fun _ _ _ _ => nearest_neighbours
    radiusMatch := fun _ _ _ _ => nearest_neighbours
    findFundamentalMat := fun _ => (0, status)
    solve := least_squares
    norm := euclidean_norm }

/-- A keypoint at `(x, y)`. -/
def keypoint_at (x y : ℚ) : KeyPoint := ⟨⟨x, y⟩, 1, 0, 0, 0, 0⟩

/-- An image with identity intrinsics and the given descriptor rows. -/
def unit_image (descriptors : Descriptors) : Image := ⟨1, descriptors⟩

/-- Two views with one keypoint each, at `(0, 0)` and `(1, 0)`, matched to one another. -/
def one_match : FeatureMatcher :=
  { image1 := unit_image [[0]]
    image2 := unit_image [[0]]
    keypoints1 := [keypoint_at 0 0]
    keypoints2 := [keypoint_at 1 0]
    matches_ := [⟨0, 0, 0, 0⟩] }

/-- The candidate `[I | (1, 2, 0)]`, not yet triangulated. -/
def candidate_a : CameraMatrix :=
  ⟨!![1, 0, 0, 1; 0, 1, 0, 2; 0, 0, 1, 0], 0, ⟨[]⟩⟩

/-- The candidate `[I | (-1, 0, 0)]`, not yet triangulated. -/
def candidate_b : CameraMatrix :=
  ⟨!![1, 0, 0, -1; 0, 1, 0, 0; 0, 0, 1, 0], 0, ⟨[]⟩⟩

/-- The candidate `[I | (1, 4, 0)]`, not yet triangulated. -/
def candidate_c : CameraMatrix :=
  ⟨!![1, 0, 0, 1; 0, 1, 0, 4; 0, 0, 1, 0], 0, ⟨[]⟩⟩

/-- A candidate whose rotation block is `diag(1/2, 1, 1)`, of determinant 1/2. -/
def candidate_h : CameraMatrix :=
  ⟨!![1 / 2, 0, 0, 1; 0, 1, 0, 2; 0, 0, 1, 0], 0, ⟨[]⟩⟩

/-- The candidate `candidate_a` after `triangulate_points` on `one_match`: the point
`(0, -1, 1)` with reprojection error 1, and the returned scalar 1/2. -/
def triangulated_a : CameraMatrix :=
  ⟨candidate_a.matrix, 1 / 2, ⟨[⟨⟨0, -1, 1⟩, keypoint_at 0 0, 1⟩]⟩⟩

/-- The candidate `candidate_b` after `triangulate_points` on `one_match`: the point
`(0, 0, -1)` with reprojection error 0. -/
def triangulated_b : CameraMatrix :=
  ⟨candidate_b.matrix, 0, ⟨[⟨⟨0, 0, -1⟩, keypoint_at 0 0, 0⟩]⟩⟩

/-- The candidate `candidate_c` after `triangulate_points` on `one_match`: the point
`(0, -2, 1)` with reprojection error 2, and the returned scalar 1. -/
def triangulated_c : CameraMatrix :=
  ⟨candidate_c.matrix, 1, ⟨[⟨⟨0, -2, 1⟩, keypoint_at 0 0, 2⟩]⟩⟩

/-- Two views, one keypoint in the first and two in the second; the descriptor of the first
view is `[0]`, those of the second are `[4]` and `[5]`. Nothing is matched yet. -/
def two_train : FeatureMatcher :=
  { image1 := unit_image [[0]]
    image2 := unit_image [[4], [5]]
    keypoints1 := [keypoint_at 0 0]
    keypoints2 := [keypoint_at 1 0, keypoint_at 2 0]
    matches_ := [] }

/-- The two nearest neighbours of the descriptor `[0]` among `[4]` and `[5]` under the L1
norm: distances 4 and 5. -/
def neighbours_4_5 : List (List DMatch) :=
  [[⟨0, 0, 0, 4⟩, ⟨0, 1, 0, 5⟩]]

/-- Two views with two keypoints each; the descriptors of the first view are `[0]` and
`[6]`, those of the second `[3]` and `[5]`. Nothing is matched yet. -/
def two_by_two : FeatureMatcher :=
  { image1 := unit_image [[0], [6]]
    image2 := unit_image [[3], [5]]
    keypoints1 := [keypoint_at 0 0, keypoint_at 6 0]
    keypoints2 := [keypoint_at 3 0, keypoint_at 5 0]
    matches_ := [] }

/-- The two nearest neighbours of `[0]` and of `[6]` among `[3]` and `[5]` under the L1
norm: distances 3 and 5 for the first query, 1 and 3 for the second. -/
def neighbours_two_queries : List (List DMatch) :=
  [[⟨0, 0, 0, 3⟩, ⟨0, 1, 0, 5⟩], [⟨1, 1, 0, 1⟩, ⟨1, 0, 0, 3⟩]]

/-- The views `two_by_two` with both queries matched. -/
def two_by_two_matched : FeatureMatcher :=
  { two_by_two with matches_ := [⟨0, 0, 0, 3⟩, ⟨1, 1, 0, 1⟩] }

/-- Two views with one keypoint each, at `(1, 1)` and `(100, 100)`, matched to one another. -/
def far_apart : FeatureMatcher :=
  { image1 := unit_image [[0]]
    image2 := unit_image [[0]]
    keypoints1 := [keypoint_at 1 1]
    keypoints2 := [keypoint_at 100 100]
    matches_ := [⟨0, 0, 0, 0⟩] }

/-- An SVD routine that answers the factors `u`, `w` and `vt`. -/
def svd_answering (u : Matx33d) (w : Fin 3 → ℚ) (vt : Matx33d) : Matx33d → SVD :=
  fun _ => ⟨u, w, vt⟩

/-- The default arguments of `_match` used in concrete runs: no re-indexing table, the
nearest-two mode and the L1 norm. -/
def spec_defaults : MatchDefaults :=
  ⟨none, 0, 2⟩

/-- A candidate whose rotation block is `diag(2, 1, 1)`, of determinant 2. -/
def candidate_s : CameraMatrix :=
  ⟨!![2, 0, 0, 1; 0, 1, 0, 0; 0, 0, 1, 0], 0, ⟨[]⟩⟩

/-- Two views with identity intrinsics whose keypoints `(0, 0)` and `(-1/2, 0)` are the
projections of the point `(0, 0, 2)` through `[I | 0]` and `[I | (-1, 0, 0)]`. -/
def round_trip_views : FeatureMatcher :=
  { image1 := unit_image [[0]]
    image2 := unit_image [[0]]
    keypoints1 := [keypoint_at 0 0]
    keypoints2 := [keypoint_at (-1 / 2) 0]
    matches_ := [⟨0, 0, 0, 0⟩] }

/-- Two views with three keypoints in the first and two in the second; the descriptors of
the first view are `[1]`, `[2]` and `[3]`, those of the second `[0]` and `[100]`. -/
def three_to_two : FeatureMatcher :=
  { image1 := unit_image [[1], [2], [3]]
    image2 := unit_image [[0], [100]]
    keypoints1 := [keypoint_at 1 0, keypoint_at 2 0, keypoint_at 3 0]
    keypoints2 := [keypoint_at 0 0, keypoint_at 100 0]
    matches_ := [] }

/-- The two nearest neighbours of `[1]`, `[2]` and `[3]` among `[0]` and `[100]` under the
L1 norm: the nearest is `[0]` each time, at the distances 1, 2 and 3. -/
def neighbours_three_queries : List (List DMatch) :=
  [[⟨0, 0, 0, 1⟩, ⟨0, 1, 0, 99⟩], [⟨1, 0, 0, 2⟩, ⟨1, 1, 0, 98⟩], [⟨2, 0, 0, 3⟩, ⟨2, 1, 0, 97⟩]]

/-- Detectors for the types FAST and ORB: FAST finds one keypoint at the origin, ORB finds
one at (1, 1). -/
def two_detectors : Detectors :=
  { known := ["FAST", "ORB"]
    detect := fun detector_type _ =>
      if detector_type = "FAST" then [keypoint_at 0 0] else [keypoint_at 1 1] }

/-- An image of one pixel on which no keypoints have been computed. -/
def fresh_image : KeypointCache :=
  { mat := [[0]], keypoints := [] }

/-- A header of 2048 bytes: the magic number, then a JFIF block whose length field is 2043,
then zeros. The block ends at the last byte of the header. -/
def header_long_block : List Nat :=
  [0xFF, 0xD8, 0xFF, 0xE0, 0x07, 0xFB, 74, 70, 73, 70, 0] ++ List.replicate 2037 0

/-- A header of 2048 bytes: the magic number, a JFIF block of the usual length 16, then a
comment block whose length field is 4004, filled with the letter A. -/
def header_long_comment : List Nat :=
  [0xFF, 0xD8, 0xFF, 0xE0, 0, 16, 74, 70, 73, 70, 0, 1, 1, 0, 0, 1, 0, 1, 0, 0,
    0xFF, 0xFE, 0x0F, 0xA4] ++ List.replicate 2024 65

/-! ## Theorems -/

/-! ### triangulate_points: the returned scalar -/

theorem sum_reproj_errors (point_cloud : PointCloud) :
    (reproj_errors point_cloud).sum
      = (point_cloud.points.map fun p => p.reprojection_error).sum := by
  simp [reproj_errors, List.sum_replicate]

theorem length_reproj_errors (point_cloud : PointCloud) :
    (reproj_errors point_cloud).length = 2 * point_cloud.points.length := by
  simp [reproj_errors]; omega

theorem mean_reproj_errors (point_cloud : PointCloud) :
    mean (reproj_errors point_cloud) = arithmetic_mean_error point_cloud / 2 := by
  unfold mean arithmetic_mean_error
  rw [length_reproj_errors, sum_reproj_errors]
  by_cases h : point_cloud.points.length = 0
  · simp [h]
  · have h2 : 2 * point_cloud.points.length ≠ 0 := by omega
    rw [if_neg h2]
    push_cast
    field_simp
    left
    ring

theorem triangulate_points_value (cv : OpenCV) (c : Constants) (self : FeatureMatcher)
    (p1 p2 : Matx34d) (point_cloud : PointCloud) (r : ℚ × PointCloud)
    (h : self.triangulate_points cv c p1 p2 point_cloud = Except.ok r) :
    r.1 = mean (reproj_errors r.2) := by
  unfold FeatureMatcher.triangulate_points at h
  split_ifs at h
  split at h
  · cases h
  · cases h; rfl

/-- C1: whenever `triangulate_points` returns, the scalar it returns is half the arithmetic
mean of the per-point reprojection errors of the cloud: the sum of the errors divided by
twice the number of points, because `reproj_errors` holds one zero and one error per point. -/
theorem triangulate_points_returns_half_mean (cv : OpenCV) (c : Constants)
    (self : FeatureMatcher) (p1 p2 : Matx34d) (point_cloud : PointCloud) (r : ℚ × PointCloud)
    (h : self.triangulate_points cv c p1 p2 point_cloud = Except.ok r) :
    r.1 = arithmetic_mean_error r.2 / 2 := by
  rw [triangulate_points_value cv c self p1 p2 point_cloud r h, mean_reproj_errors]

/-- C1 at a concrete input: one correspondence, triangulated with reprojection error 1; the
mean of the errors is 1 and the call returns 1/2. -/
theorem triangulate_points_returns_half_mean_witness :
    one_match.triangulate_points (answering [] []) spec_constants P0 candidate_a.matrix ⟨[]⟩
        = Except.ok (1 / 2, ⟨[⟨⟨0, -1, 1⟩, keypoint_at 0 0, 1⟩]⟩)
      ∧ arithmetic_mean_error ⟨[⟨⟨0, -1, 1⟩, keypoint_at 0 0, 1⟩]⟩ = 1
      ∧ (1 / 2 : ℚ) = arithmetic_mean_error ⟨[⟨⟨0, -1, 1⟩, keypoint_at 0 0, 1⟩]⟩ / 2 :=
  ⟨by decide!, by decide!,
    triangulate_points_returns_half_mean (answering [] []) spec_constants one_match P0
      candidate_a.matrix ⟨[]⟩ (1 / 2, ⟨[⟨⟨0, -1, 1⟩, keypoint_at 0 0, 1⟩]⟩) (by decide!)⟩

/-! ### find_best_camera_matrix: which candidate is returned -/

theorem best_so_far_skip (i : Nat) (state : List CameraMatrix × Option Nat)
    (h : ∀ cm, state.1[i]? = some cm → cm.rotation_is_coherent = true)
    (inv : best_so_far i state) : best_so_far (i + 1) state := by
  intro k hk
  obtain ⟨hki, hex, hold⟩ := inv k hk
  refine ⟨by omega, hex, ?_⟩
  intro j cj ck hkj hji hj hck hcoh
  by_cases hj' : j < i
  · exact hold j cj ck hkj hj' hj hck hcoh
  · have hji' : j = i := by omega
    subst hji'
    rw [h cj hj] at hcoh
    cases hcoh

theorem find_best_step_invariant (cv : OpenCV) (c : Constants) (self : FeatureMatcher)
    (i : Nat) (state state' : List CameraMatrix × Option Nat)
    (h : self.find_best_step cv c state i = Except.ok state')
    (inv : best_so_far i state) : best_so_far (i + 1) state' := by
  obtain ⟨cams, best⟩ := state
  unfold FeatureMatcher.find_best_step at h
  simp only at h
  split at h
  · rename_i hnone
    cases h
    exact best_so_far_skip i _ (fun cm hcm => by simp_all) inv
  · rename_i cm hcm
    split_ifs at h with hskip
    · cases h
      refine best_so_far_skip i _ (fun cm' hcm' => ?_) inv
      simp only at hcm'
      rw [hcm] at hcm'
      cases hcm'
      exact hskip
    · split at h
      · cases h
      · rename_i error cloud htri
        have key : ∀ j, j ≠ i →
            (cams.set i ⟨cm.matrix, error, cloud⟩)[j]? = cams[j]? := by
          intro j hj
          rw [List.getElem?_set_ne (Ne.symm hj)]
        have hi : (cams.set i ⟨cm.matrix, error, cloud⟩)[i]?
            = some ⟨cm.matrix, error, cloud⟩ := by
          have hlt : i < cams.length := by
            rcases Nat.lt_or_ge i cams.length with hl | hl
            · exact hl
            · rw [List.getElem?_eq_none hl] at hcm; cases hcm
          simp [List.getElem?_set, hlt]
        have hcoh' : (CameraMatrix.mk cm.matrix error cloud).rotation_is_coherent = false := by
          have : (CameraMatrix.mk cm.matrix error cloud).rotation_is_coherent
              = cm.rotation_is_coherent := rfl
          rw [this]
          simpa using hskip
        generalize cams.set i ⟨cm.matrix, error, cloud⟩ = cams' at h key hi
        have new_i : best_so_far (i + 1) (cams', some i) := by
          intro k hk
          cases hk
          exact ⟨by omega, ⟨_, hi, hcoh'⟩, fun j _ _ h1 h2 => by omega⟩
        have keep : (∀ bm, cams'[best.getD i]? = some bm →
            not_preferred (CameraMatrix.mk cm.matrix error cloud) bm) →
            best_so_far (i + 1) (cams', some (best.getD i)) := by
          intro hP
          cases best with
          | none => exact new_i
          | some k =>
            intro k' hk'
            cases hk'
            obtain ⟨hki, ⟨ck0, hck0, hcoh0⟩, hold⟩ := inv k rfl
            simp only [Option.getD_some] at hP ⊢
            refine ⟨by omega, ⟨ck0, by rw [key k (by omega)]; exact hck0, hcoh0⟩, ?_⟩
            intro j cj ck hkj hji hj hck hcoh
            by_cases hj' : j < i
            · rw [key j (by omega)] at hj
              rw [key k (by omega)] at hck
              exact hold j cj ck hkj hj' hj hck hcoh
            · have hji' : j = i := by omega
              subst hji'
              rw [hi] at hj
              cases hj
              exact hP ck hck
        split at h
        · rename_i hnone
          cases h
          exact keep (fun bm hbm => by rw [hnone] at hbm; cases hbm)
        · rename_i bm hbm
          split_ifs at h with hgt hlt
          · cases h; exact new_i
          · cases h; exact new_i
          · cases h
            refine keep (fun bm' hbm' => ?_)
            rw [hbm] at hbm'
            cases hbm'
            exact ⟨by simpa using hgt, not_lt.mp hlt⟩

theorem find_best_loop_invariant (cv : OpenCV) (c : Constants) (self : FeatureMatcher) :
    ∀ (m i : Nat) (state state' : List CameraMatrix × Option Nat),
      self.find_best_loop cv c (List.range' i m) state = Except.ok state' →
      best_so_far i state → best_so_far (i + m) state' := by
  intro m
  induction m with
  | zero =>
    intro i state state' h inv
    simp only [List.range'_zero, FeatureMatcher.find_best_loop] at h
    cases h
    exact inv
  | succ m ih =>
    intro i state state' h inv
    rw [List.range'_succ] at h
    unfold FeatureMatcher.find_best_loop at h
    split at h
    · cases h
    · rename_i mid hmid
      have := ih (i + 1) mid state' h (find_best_step_invariant cv c self i state mid hmid inv)
      rw [show i + (m + 1) = i + 1 + m by omega]
      exact this

theorem find_best_step_length (cv : OpenCV) (c : Constants) (self : FeatureMatcher)
    (i : Nat) (state state' : List CameraMatrix × Option Nat)
    (h : self.find_best_step cv c state i = Except.ok state') :
    state'.1.length = state.1.length := by
  unfold FeatureMatcher.find_best_step at h
  split at h
  · cases h; rfl
  · split_ifs at h
    · cases h; rfl
    · split at h
      · cases h
      · simp only at h
        split at h
        · cases h; simp
        · split_ifs at h <;> cases h <;> simp

theorem find_best_loop_length (cv : OpenCV) (c : Constants) (self : FeatureMatcher) :
    ∀ (positions : List Nat) (state state' : List CameraMatrix × Option Nat),
      self.find_best_loop cv c positions state = Except.ok state' →
      state'.1.length = state.1.length := by
  intro positions
  induction positions with
  | nil =>
    intro state state' h
    simp only [FeatureMatcher.find_best_loop] at h
    cases h
    rfl
  | cons i rest ih =>
    intro state state' h
    unfold FeatureMatcher.find_best_loop at h
    split at h
    · cases h
    · rename_i mid hmid
      rw [ih mid state' h, find_best_step_length cv c self i state mid hmid]

/-- C2, as the code has it: when `find_best_camera_matrix` returns the candidate at position
`k`, that candidate passed the coherence check, and every candidate after it that passed the
check has neither a greater in-front fraction nor a smaller reprojection error. Nothing is
promised about earlier candidates: a later candidate whose fraction is not greater still
replaces the best one when its reprojection error is smaller. -/
theorem find_best_camera_matrix_not_preferred_later (cv : OpenCV) (c : Constants)
    (self : FeatureMatcher) (camera_matrices result : List CameraMatrix) (k : Nat)
    (h : self.find_best_camera_matrix cv c camera_matrices = Except.ok (result, some k)) :
    (∃ ck, result[k]? = some ck ∧ ck.rotation_is_coherent = false) ∧
    ∀ j cj ck, k < j → result[j]? = some cj → result[k]? = some ck →
      cj.rotation_is_coherent = false → not_preferred cj ck := by
  unfold FeatureMatcher.find_best_camera_matrix at h
  have hlen := find_best_loop_length cv c self _ _ _ h
  rw [List.range_eq_range'] at h
  have inv := find_best_loop_invariant cv c self camera_matrices.length 0
    (camera_matrices, none) (result, some k) h (fun k hk => by cases hk)
  obtain ⟨_, hex, hold⟩ := inv k rfl
  refine ⟨hex, ?_⟩
  intro j cj ck hkj hj hck hcoh
  by_cases hjn : j < 0 + camera_matrices.length
  · exact hold j cj ck hkj hjn hj hck hcoh
  · have hj' : result.length ≤ j := by
      simp only at hlen
      omega
    rw [List.getElem?_eq_none hj'] at hj
    cases hj

/-- C2 at a concrete input: of two candidates that both pass the check and are triangulated,
the second does not replace the first, having no greater fraction and no smaller error. -/
theorem find_best_camera_matrix_not_preferred_later_witness :
    one_match.find_best_camera_matrix (answering [] []) spec_constants
        [candidate_a, candidate_c] = Except.ok ([triangulated_a, triangulated_c], some 0)
      ∧ not_preferred triangulated_c triangulated_a :=
  ⟨by decide!,
    (find_best_camera_matrix_not_preferred_later (answering [] []) spec_constants one_match
      [candidate_a, candidate_c] [triangulated_a, triangulated_c] 0 (by decide!)).2
      1 triangulated_c triangulated_a (by decide) rfl rfl (by decide!)⟩

/-- C2 fails as stated: on the candidates `[I | (1, 2, 0)]` and `[I | (-1, 0, 0)]`, both of
which pass the coherence check and are triangulated, the second is returned although its
in-front fraction is 0 and the first one's is 1; its reprojection error is the smaller. -/
theorem find_best_camera_matrix_returns_lower_fraction :
    one_match.find_best_camera_matrix (answering [] []) spec_constants
        [candidate_a, candidate_b] = Except.ok ([triangulated_a, triangulated_b], some 1)
      ∧ triangulated_a.rotation_is_coherent = false
      ∧ triangulated_b.rotation_is_coherent = false
      ∧ triangulated_a.percentage_of_points_in_front_of_camera = some 1
      ∧ triangulated_b.percentage_of_points_in_front_of_camera = some 0
      ∧ double_gt triangulated_a.percentage_of_points_in_front_of_camera
        triangulated_b.percentage_of_points_in_front_of_camera = true
      ∧ triangulated_b.reprojection_error < triangulated_a.reprojection_error := by
  decide!

/-- C3 at the failing input: the only candidate has a rotation block of determinant 1/2, so
`| |d| - 1 | = 1/2` exceeds the tolerance, yet it is not skipped and is the one returned. -/
theorem find_best_camera_matrix_returns_determinant_half :
    (one_match.find_best_camera_matrix (answering [] []) spec_constants [candidate_h]).map
        Prod.snd = Except.ok (some 0)
      ∧ determinant candidate_h.rotation = 1 / 2
      ∧ ¬ (|(|determinant candidate_h.rotation| - 1)| ≤ (1e-07 : ℚ))
      ∧ candidate_h.rotation_is_coherent = false := by
  decide!

/-! ### _match: the ratio test -/

theorem select_neighbour_two (c : Constants)
    (h : c.FEATURE_MATCHER_USE_DOUBLE_MATCHES = true) (match1 match2 : DMatch) :
    select_neighbour c [match1, match2]
      = if match1.distance ≤ match2.distance * c.MATCH_VALID_RATIO then some match1
        else none := by
  simp only [select_neighbour, h, if_true]
  by_cases hd : match1.distance ≤ match2.distance * c.MATCH_VALID_RATIO
  · rw [if_pos hd, if_neg (not_lt.mpr hd)]
  · rw [if_neg hd, if_pos (not_le.mp hd)]

/-- C4, as the code has it: with double matches switched on, a query with exactly two
nearest neighbours is accepted by the loop of `_match` if and only if the best distance is
at most the second-best distance times `MATCH_VALID_RATIO`; equality is accepted. An
accepted match is re-indexed and appended, a rejected one leaves the matches as they are. -/
theorem match_loop_two_neighbours (c : Constants)
    (h : c.FEATURE_MATCHER_USE_DOUBLE_MATCHES = true)
    (match_points : Option (List MatchPoint)) (match1 match2 : DMatch)
    (rest : List (List DMatch)) (matches_ : List DMatch) :
    (select_neighbour c [match1, match2] = some match1
        ↔ match1.distance ≤ match2.distance * c.MATCH_VALID_RATIO)
    ∧ match_loop c match_points ([match1, match2] :: rest) matches_
      = if match1.distance ≤ match2.distance * c.MATCH_VALID_RATIO then
          match reindex match_points match1 with
          | none => (matches_, Outcome.failed Failure.out_of_range)
          | some m => match_loop c match_points rest (matches_ ++ [m])
        else match_loop c match_points rest matches_ := by
  constructor
  · rw [select_neighbour_two c h]
    by_cases hd : match1.distance ≤ match2.distance * c.MATCH_VALID_RATIO <;> simp [hd]
  · rw [match_loop, select_neighbour_two c h]
    by_cases hd : match1.distance ≤ match2.distance * c.MATCH_VALID_RATIO <;> simp [hd]

/-- C4 at a concrete input: distances 4 and 5 with the threshold 0.8. -/
theorem match_loop_two_neighbours_witness :
    spec_constants.FEATURE_MATCHER_USE_DOUBLE_MATCHES = true
      ∧ (select_neighbour spec_constants [⟨0, 0, 0, 4⟩, ⟨0, 1, 0, 5⟩] = some ⟨0, 0, 0, 4⟩
        ↔ (4 : ℚ) ≤ 5 * spec_constants.MATCH_VALID_RATIO) :=
  ⟨rfl, (match_loop_two_neighbours spec_constants rfl none ⟨0, 0, 0, 4⟩ ⟨0, 1, 0, 5⟩ [] []).1⟩

/-- C4 fails as stated: the best distance 4 equals 0.8 times the second-best distance 5, so
it is not strictly less, and `_match` still stores the match. -/
theorem _match_accepts_equal_to_threshold :
    (two_train._match (answering neighbours_4_5 []) spec_constants [[0]] [[4], [5]] none 0 2).1.matches_
        = [⟨0, 0, 0, 4⟩]
      ∧ (two_train._match (answering neighbours_4_5 []) spec_constants [[0]] [[4], [5]] none 0 2).2
        = Outcome.returned
      ∧ (4 : ℚ) = 5 * spec_constants.MATCH_VALID_RATIO
      ∧ ¬ ((4 : ℚ) < 5 * spec_constants.MATCH_VALID_RATIO) := by
  decide!

/-! ### _match: monotonicity in the ratio threshold -/

theorem select_neighbour_mono (c : Constants) (r1 r2 : ℚ) (hr : r1 ≤ r2) (n : List DMatch)
    (hn : ∀ m ∈ n, 0 ≤ m.distance) (m : DMatch)
    (h : select_neighbour (c.with_ratio r1) n = some m) :
    select_neighbour (c.with_ratio r2) n = some m := by
  match n, hn, h with
  | [], _, h => simp [select_neighbour] at h
  | [match1], _, h => simpa [select_neighbour, Constants.with_ratio] using h
  | [match1, match2], hn, h =>
    have h2 : 0 ≤ match2.distance := hn match2 (by simp)
    have hmul : match2.distance * r1 ≤ match2.distance * r2 :=
      mul_le_mul_of_nonneg_left hr h2
    simp only [select_neighbour, Constants.with_ratio] at h ⊢
    split_ifs at h with hflag hgt
    · split_ifs with hgt2
      · exact absurd (lt_of_le_of_lt hmul hgt2) hgt
      · exact h
  | _ :: _ :: _ :: _, _, h => simp [select_neighbour] at h

theorem match_loop_without_table (c : Constants) :
    ∀ (nearest_neighbours : List (List DMatch)) (matches_ : List DMatch),
      (match_loop c none nearest_neighbours matches_).2 = Outcome.returned := by
  intro nearest_neighbours
  induction nearest_neighbours with
  | nil => intro matches_; rfl
  | cons n rest ih =>
    intro matches_
    unfold match_loop
    cases select_neighbour c n with
    | none => exact ih matches_
    | some match1 => exact ih (matches_ ++ [match1])

theorem match_loop_mono (c : Constants) (r1 r2 : ℚ) (hr : r1 ≤ r2)
    (match_points : Option (List MatchPoint)) :
    ∀ (nearest_neighbours : List (List DMatch)) (acc1 acc2 : List DMatch),
      all_neighbours (fun m => 0 ≤ m.distance) nearest_neighbours →
      List.Sublist acc1 acc2 →
      (match_loop (c.with_ratio r2) match_points nearest_neighbours acc2).2
        ≠ Outcome.failed Failure.out_of_range →
      List.Sublist (match_loop (c.with_ratio r1) match_points nearest_neighbours acc1).1
        (match_loop (c.with_ratio r2) match_points nearest_neighbours acc2).1 := by
  intro nearest_neighbours
  induction nearest_neighbours with
  | nil =>
    intro acc1 acc2 _ hsub _
    exact hsub
  | cons n rest ih =>
    intro acc1 acc2 hnn hsub hthrow
    have hrest : all_neighbours (fun m => 0 ≤ m.distance) rest :=
      fun n' hn' => hnn n' (List.mem_cons_of_mem _ hn')
    have hn : ∀ m ∈ n, 0 ≤ m.distance := hnn n (List.mem_cons_self _ _)
    rw [match_loop] at hthrow
    rw [match_loop, match_loop]
    cases h1 : select_neighbour (c.with_ratio r1) n with
    | none =>
      cases h2 : select_neighbour (c.with_ratio r2) n with
      | none =>
        simp only [h2] at hthrow ⊢
        exact ih acc1 acc2 hrest hsub hthrow
      | some match1 =>
        cases h3 : reindex match_points match1 with
        | none => simp [h2, h3] at hthrow
        | some m =>
          simp only [h2, h3] at hthrow ⊢
          exact ih acc1 (acc2 ++ [m]) hrest
            (hsub.trans (List.sublist_append_left acc2 [m])) hthrow
    | some match1 =>
      have h2 := select_neighbour_mono c r1 r2 hr n hn match1 h1
      cases h3 : reindex match_points match1 with
      | none => simp [h2, h3] at hthrow
      | some m =>
        simp only [h2, h3] at hthrow ⊢
        exact ih (acc1 ++ [m]) (acc2 ++ [m]) hrest
          (List.Sublist.append hsub (List.Sublist.refl [m])) hthrow

theorem match_filter_matches (c : Constants) (match_points : Option (List MatchPoint))
    (nearest_neighbours : List (List DMatch)) :
    (match_filter c match_points nearest_neighbours).1
      = (match_loop c match_points nearest_neighbours []).1 := by
  unfold match_filter
  split
  · rename_i matches_ heq
    rw [heq]
    split_ifs <;> rfl
  · rfl

theorem match_filter_out_of_range (c : Constants) (match_points : Option (List MatchPoint))
    (nearest_neighbours : List (List DMatch))
    (h : (match_loop c match_points nearest_neighbours []).2
      = Outcome.failed Failure.out_of_range) :
    (match_filter c match_points nearest_neighbours).2
      = Outcome.failed Failure.out_of_range := by
  unfold match_filter
  split
  · rename_i matches_ heq
    rw [heq] at h
    cases h
  · exact h

theorem match_filter_mono (c : Constants) (r1 r2 : ℚ) (hr : r1 ≤ r2)
    (match_points : Option (List MatchPoint)) (nearest_neighbours : List (List DMatch))
    (hnn : all_neighbours (fun m => 0 ≤ m.distance) nearest_neighbours)
    (hthrow : match_points = none ∨
      (match_filter (c.with_ratio r2) match_points nearest_neighbours).2
        ≠ Outcome.failed Failure.out_of_range) :
    List.Sublist (match_filter (c.with_ratio r1) match_points nearest_neighbours).1
      (match_filter (c.with_ratio r2) match_points nearest_neighbours).1 := by
  rw [match_filter_matches, match_filter_matches]
  refine match_loop_mono c r1 r2 hr match_points nearest_neighbours [] []
    hnn (List.Sublist.refl []) ?_
  intro hloop
  rcases hthrow with hnone | hne
  · subst hnone
    rw [match_loop_without_table] at hloop
    cases hloop
  · exact hne (match_filter_out_of_range _ _ _ hloop)

/-- C5: the ratio test of `_match` is monotonic in the threshold. For thresholds `r1 ≤ r2`
and nearest-neighbour results with non-negative distances, the matches `_match` stores with
`r1` are a sub-sequence of those it stores with `r2`, and so no more numerous. With a
re-indexing table this holds whenever the run with `r2` does not throw on a table lookup. -/
theorem _match_monotonic_in_ratio (cv : OpenCV) (c : Constants) (self : FeatureMatcher)
    (descriptors1 descriptors2 : Descriptors) (match_points : Option (List MatchPoint))
    (match_type norm_type : Int) (r1 r2 : ℚ) (hr : r1 ≤ r2)
    (hknn : all_neighbours (fun m => 0 ≤ m.distance)
      (cv.knnMatch norm_type descriptors1 descriptors2 2))
    (hradius : all_neighbours (fun m => 0 ≤ m.distance)
      (cv.radiusMatch norm_type descriptors1 descriptors2 c.OF_RADIUS_MATCH))
    (hthrow : match_points = none ∨
      (self._match cv (c.with_ratio r2) descriptors1 descriptors2 match_points
        match_type norm_type).2 ≠ Outcome.failed Failure.out_of_range) :
    List.Sublist
        (self._match cv (c.with_ratio r1) descriptors1 descriptors2 match_points
          match_type norm_type).1.matches_
        (self._match cv (c.with_ratio r2) descriptors1 descriptors2 match_points
          match_type norm_type).1.matches_
      ∧ (self._match cv (c.with_ratio r1) descriptors1 descriptors2 match_points
          match_type norm_type).1.matches_.length
        ≤ (self._match cv (c.with_ratio r2) descriptors1 descriptors2 match_points
          match_type norm_type).1.matches_.length := by
  have key : List.Sublist
      (self._match cv (c.with_ratio r1) descriptors1 descriptors2 match_points
        match_type norm_type).1.matches_
      (self._match cv (c.with_ratio r2) descriptors1 descriptors2 match_points
        match_type norm_type).1.matches_ := by
    unfold FeatureMatcher._match at hthrow ⊢
    simp only [Constants.with_ratio] at hthrow ⊢
    split_ifs at hthrow ⊢ with hnormal hradius'
    · exact match_filter_mono c r1 r2 hr match_points _ hknn hthrow
    · exact match_filter_mono c r1 r2 hr match_points _ hradius hthrow
    · exact List.Sublist.refl []
  exact ⟨key, key.length_le⟩

/-- C5 at a concrete input: with the threshold 1/2 only the second query is matched, with
4/5 both are. -/
theorem _match_monotonic_in_ratio_witness :
    (two_by_two._match (answering neighbours_two_queries []) (spec_constants.with_ratio (1 / 2))
        [[0], [6]] [[3], [5]] none 0 2).1.matches_ = [⟨1, 1, 0, 1⟩]
      ∧ (two_by_two._match (answering neighbours_two_queries [])
        (spec_constants.with_ratio (4 / 5)) [[0], [6]] [[3], [5]] none 0 2).1.matches_
        = [⟨0, 0, 0, 3⟩, ⟨1, 1, 0, 1⟩]
      ∧ (List.Sublist
        (two_by_two._match (answering neighbours_two_queries [])
          (spec_constants.with_ratio (1 / 2)) [[0], [6]] [[3], [5]] none 0 2).1.matches_
        (two_by_two._match (answering neighbours_two_queries [])
          (spec_constants.with_ratio (4 / 5)) [[0], [6]] [[3], [5]] none 0 2).1.matches_
        ∧ (two_by_two._match (answering neighbours_two_queries [])
          (spec_constants.with_ratio (1 / 2)) [[0], [6]] [[3], [5]] none 0 2).1.matches_.length
          ≤ (two_by_two._match (answering neighbours_two_queries [])
          (spec_constants.with_ratio (4 / 5)) [[0], [6]] [[3], [5]] none 0 2).1.matches_.length) :=
  ⟨by decide!, by decide!,
    _match_monotonic_in_ratio (answering neighbours_two_queries []) spec_constants two_by_two
      [[0], [6]] [[3], [5]] none 0 2 (1 / 2) (4 / 5) (by norm_num)
      (by simp [all_neighbours, answering, neighbours_two_queries])
      (by simp [all_neighbours, answering, neighbours_two_queries])
      (Or.inl rfl)⟩

/-! ### _match: index bounds and the empty result -/

theorem vector_at_mem {α : Type} (v : List α) (i : Int) (x : α)
    (h : vector_at v i = some x) : x ∈ v := by
  unfold vector_at at h
  split_ifs at h
  exact List.getElem?_mem h

theorem vector_at_in_range {α : Type} (v : List α) (i : Int)
    (h : index_in_range v i) : ∃ x, vector_at v i = some x := by
  obtain ⟨h0, h1⟩ := h
  unfold vector_at
  rw [if_pos h0]
  have hlt : i.toNat < v.length := by omega
  exact ⟨v[i.toNat], List.getElem?_eq_getElem hlt⟩

theorem select_neighbour_mem (c : Constants) (n : List DMatch) (m : DMatch)
    (h : select_neighbour c n = some m) : m ∈ n := by
  match n, h with
  | [], h => simp [select_neighbour] at h
  | [match1], h =>
    simp only [select_neighbour] at h
    split_ifs at h
    cases h
    simp
  | [match1, match2], h =>
    simp only [select_neighbour] at h
    split_ifs at h
    cases h
    simp
  | _ :: _ :: _ :: _, h => simp [select_neighbour] at h

theorem reindex_in_range (keypoints1 keypoints2 : List KeyPoint)
    (match_points : Option (List MatchPoint)) (match1 m : DMatch)
    (htrain : index_in_range keypoints2 match1.trainIdx)
    (hquery : match_points = none → index_in_range keypoints1 match1.queryIdx)
    (htable : ∀ table, match_points = some table →
      ∀ p ∈ table, index_in_range keypoints1 p.query_index)
    (h : reindex match_points match1 = some m) :
    index_in_range keypoints1 m.queryIdx ∧ index_in_range keypoints2 m.trainIdx := by
  unfold reindex at h
  split at h
  · cases h
    exact ⟨hquery rfl, htrain⟩
  · rename_i table
    split at h
    · cases h
    · rename_i p hp
      cases h
      exact ⟨htable table rfl p (vector_at_mem _ _ _ hp), htrain⟩

theorem match_loop_in_range (c : Constants) (keypoints1 keypoints2 : List KeyPoint)
    (match_points : Option (List MatchPoint))
    (htable : ∀ table, match_points = some table →
      ∀ p ∈ table, index_in_range keypoints1 p.query_index) :
    ∀ (nearest_neighbours : List (List DMatch)) (matches_ : List DMatch),
      all_neighbours (fun m => index_in_range keypoints2 m.trainIdx) nearest_neighbours →
      (match_points = none →
        all_neighbours (fun m => index_in_range keypoints1 m.queryIdx) nearest_neighbours) →
      (∀ m ∈ matches_, index_in_range keypoints1 m.queryIdx
        ∧ index_in_range keypoints2 m.trainIdx) →
      ∀ m ∈ (match_loop c match_points nearest_neighbours matches_).1,
        index_in_range keypoints1 m.queryIdx ∧ index_in_range keypoints2 m.trainIdx := by
  intro nearest_neighbours
  induction nearest_neighbours with
  | nil =>
    intro matches_ _ _ hacc
    exact hacc
  | cons n rest ih =>
    intro matches_ htrain hquery hacc
    have htrain' : all_neighbours (fun m => index_in_range keypoints2 m.trainIdx) rest :=
      fun n' hn' => htrain n' (List.mem_cons_of_mem _ hn')
    have hquery' : match_points = none →
        all_neighbours (fun m => index_in_range keypoints1 m.queryIdx) rest :=
      fun hnone n' hn' => hquery hnone n' (List.mem_cons_of_mem _ hn')
    rw [match_loop]
    cases h1 : select_neighbour c n with
    | none => exact ih matches_ htrain' hquery' hacc
    | some match1 =>
      have hmem := select_neighbour_mem c n match1 h1
      cases h3 : reindex match_points match1 with
      | none =>
        simp only [h3]
        exact hacc
      | some m' =>
        simp only [h3]
        refine ih (matches_ ++ [m']) htrain' hquery' ?_
        intro m hm
        rcases List.mem_append.mp hm with hm | hm
        · exact hacc m hm
        · rw [List.mem_singleton] at hm
          subst hm
          exact reindex_in_range keypoints1 keypoints2 match_points match1 m
            (htrain n (List.mem_cons_self _ _) match1 hmem)
            (fun hnone => hquery hnone n (List.mem_cons_self _ _) match1 hmem) htable h3

theorem collect_match_points_ok (keypoints1 keypoints2 : List KeyPoint) :
    ∀ (matches_ : List DMatch),
      (∀ m ∈ matches_, index_in_range keypoints1 m.queryIdx
        ∧ index_in_range keypoints2 m.trainIdx) →
      ∃ r, collect_match_points keypoints1 keypoints2 matches_ = Except.ok r := by
  intro matches_
  induction matches_ with
  | nil => intro _; exact ⟨_, rfl⟩
  | cons i rest ih =>
    intro h
    obtain ⟨r, hr⟩ := ih (fun m hm => h m (List.mem_cons_of_mem _ hm))
    obtain ⟨k1, hk1⟩ := vector_at_in_range _ _ (h i (List.mem_cons_self _ _)).1
    obtain ⟨k2, hk2⟩ := vector_at_in_range _ _ (h i (List.mem_cons_self _ _)).2
    rw [collect_match_points, hk1, hk2, hr]
    exact ⟨_, rfl⟩

theorem fundamental_call_ok (self : FeatureMatcher)
    (h : ∀ m ∈ self.matches_, index_in_range self.keypoints1 m.queryIdx
      ∧ index_in_range self.keypoints2 m.trainIdx) :
    ∃ call, self.fundamental_call = Except.ok call := by
  obtain ⟨r, hr⟩ := collect_match_points_ok self.keypoints1 self.keypoints2 self.matches_ h
  unfold FeatureMatcher.fundamental_call
  rw [hr]
  exact ⟨_, rfl⟩

/-- C6, as the code has it: when the nearest-neighbour search returns train indices within
the image-2 keypoints and either no re-indexing table is given and the query indices lie
within the image-1 keypoints, or a table is given all of whose entries lie within the
image-1 keypoints, then every correspondence `_match` stores has both indices in range, and
the keypoint lookups of `calculate_fundamental_matrix` succeed. The entries of a table are
stored as they are, without a check. -/
theorem _match_indices_in_range (cv : OpenCV) (c : Constants) (self : FeatureMatcher)
    (descriptors1 descriptors2 : Descriptors) (match_points : Option (List MatchPoint))
    (match_type norm_type : Int)
    (htrain_knn : all_neighbours (fun m => index_in_range self.keypoints2 m.trainIdx)
      (cv.knnMatch norm_type descriptors1 descriptors2 2))
    (htrain_radius : all_neighbours (fun m => index_in_range self.keypoints2 m.trainIdx)
      (cv.radiusMatch norm_type descriptors1 descriptors2 c.OF_RADIUS_MATCH))
    (hquery : match_points = none →
      all_neighbours (fun m => index_in_range self.keypoints1 m.queryIdx)
        (cv.knnMatch norm_type descriptors1 descriptors2 2)
      ∧ all_neighbours (fun m => index_in_range self.keypoints1 m.queryIdx)
        (cv.radiusMatch norm_type descriptors1 descriptors2 c.OF_RADIUS_MATCH))
    (htable : ∀ table, match_points = some table →
      ∀ p ∈ table, index_in_range self.keypoints1 p.query_index) :
    (∀ m ∈ (self._match cv c descriptors1 descriptors2 match_points
        match_type norm_type).1.matches_,
      index_in_range self.keypoints1 m.queryIdx ∧ index_in_range self.keypoints2 m.trainIdx)
    ∧ ∃ call, (self._match cv c descriptors1 descriptors2 match_points
        match_type norm_type).1.fundamental_call = Except.ok call := by
  have key : ∀ m ∈ (self._match cv c descriptors1 descriptors2 match_points
        match_type norm_type).1.matches_,
      index_in_range self.keypoints1 m.queryIdx
        ∧ index_in_range self.keypoints2 m.trainIdx := by
    unfold FeatureMatcher._match
    split_ifs
    · simp only [match_filter_matches]
      exact match_loop_in_range c _ _ match_points htable _ [] htrain_knn
        (fun hnone => (hquery hnone).1) (fun m hm => by cases hm)
    · simp only [match_filter_matches]
      exact match_loop_in_range c _ _ match_points htable _ [] htrain_radius
        (fun hnone => (hquery hnone).2) (fun m hm => by cases hm)
    · intro m hm
      cases hm
  refine ⟨key, fundamental_call_ok _ ?_⟩
  have hk : (self._match cv c descriptors1 descriptors2 match_points
      match_type norm_type).1.keypoints1 = self.keypoints1
      ∧ (self._match cv c descriptors1 descriptors2 match_points
      match_type norm_type).1.keypoints2 = self.keypoints2 := by
    unfold FeatureMatcher._match
    split_ifs <;> exact ⟨rfl, rfl⟩
  rw [hk.1, hk.2]
  exact key

/-- C6 at a concrete input: two queries matched without a table; both stored
correspondences have their indices in range and the keypoint lookups succeed. -/
theorem _match_indices_in_range_witness :
    (two_by_two._match (answering neighbours_two_queries []) spec_constants
        [[0], [6]] [[3], [5]] none 0 2).1.matches_ = [⟨0, 0, 0, 3⟩, ⟨1, 1, 0, 1⟩]
      ∧ ((∀ m ∈ (two_by_two._match (answering neighbours_two_queries []) spec_constants
          [[0], [6]] [[3], [5]] none 0 2).1.matches_,
        index_in_range two_by_two.keypoints1 m.queryIdx
          ∧ index_in_range two_by_two.keypoints2 m.trainIdx)
      ∧ ∃ call, (two_by_two._match (answering neighbours_two_queries []) spec_constants
          [[0], [6]] [[3], [5]] none 0 2).1.fundamental_call = Except.ok call) :=
  ⟨by decide!,
    _match_indices_in_range (answering neighbours_two_queries []) spec_constants two_by_two
      [[0], [6]] [[3], [5]] none 0 2
      (by simp [all_neighbours, answering, neighbours_two_queries, index_in_range, two_by_two])
      (by simp [all_neighbours, answering, neighbours_two_queries, index_in_range, two_by_two])
      (fun _ => by
        simp [all_neighbours, answering, neighbours_two_queries, index_in_range, two_by_two])
      (fun table h => by cases h)⟩

/-- C6 fails as stated: the nearest-neighbour search returns indices within the two
keypoints of each image, the re-indexing table maps the second query to the position 7,
and `_match` returns normally having stored a correspondence with query index 7; the
keypoint lookup of `calculate_fundamental_matrix` then throws. -/
theorem _match_stores_table_entry_out_of_range :
    all_neighbours (fun m => index_in_range two_by_two.keypoints1 m.queryIdx
        ∧ index_in_range two_by_two.keypoints2 m.trainIdx) neighbours_two_queries
      ∧ (two_by_two._match (answering neighbours_two_queries []) spec_constants
        [[0], [6]] [[3], [5]] (some [⟨0⟩, ⟨7⟩]) 0 2).2 = Outcome.returned
      ∧ (two_by_two._match (answering neighbours_two_queries []) spec_constants
        [[0], [6]] [[3], [5]] (some [⟨0⟩, ⟨7⟩]) 0 2).1.matches_
        = [⟨0, 0, 0, 3⟩, ⟨7, 1, 0, 1⟩]
      ∧ ¬ index_in_range two_by_two.keypoints1 7
      ∧ (two_by_two._match (answering neighbours_two_queries []) spec_constants
        [[0], [6]] [[3], [5]] (some [⟨0⟩, ⟨7⟩]) 0 2).1.fundamental_call
        = Except.error Failure.out_of_range :=
  ⟨by simp [all_neighbours, neighbours_two_queries, index_in_range, two_by_two],
    by decide!, by decide!, by simp [index_in_range, two_by_two], by decide!⟩

/-- Called with the number 2 as match type, which is neither of the two modes, `_match`
takes the default branch of its switch: it returns normally and leaves zero
correspondences. -/
theorem _match_returns_empty_on_other_match_type :
    (two_by_two._match (answering neighbours_two_queries []) spec_constants
        [[0], [6]] [[3], [5]] none 2 2).2 = Outcome.returned
      ∧ (two_by_two._match (answering neighbours_two_queries []) spec_constants
        [[0], [6]] [[3], [5]] none 2 2).1.matches_ = []
      ∧ (2 : Int) ≠ spec_constants.MATCH_TYPE_NORMAL
      ∧ (2 : Int) ≠ spec_constants.MATCH_TYPE_RADIUS := by
  decide!

theorem inliers_nil_status (matches_ : List DMatch) : inliers matches_ [] = [] := by
  simp [inliers]

theorem inliers_cons (m : DMatch) (matches_ : List DMatch) (s : Nat) (status : List Nat) :
    inliers (m :: matches_) (s :: status)
      = if s = 1 then m :: inliers matches_ status else inliers matches_ status := by
  by_cases h : s = 1 <;> simp [inliers, List.filter_cons, h]

theorem inliers_sublist : ∀ (matches_ : List DMatch) (status : List Nat),
    List.Sublist (inliers matches_ status) matches_ := by
  intro matches_
  induction matches_ with
  | nil => intro status; simp [inliers]
  | cons m rest ih =>
    intro status
    cases status with
    | nil => simp [inliers]
    | cons s status =>
      rw [inliers_cons]
      split_ifs
      · exact (ih status).cons₂ m
      · exact (ih status).cons m

theorem best_matches_loop_eq (matches_ : List DMatch) :
    ∀ (status : List Nat) (i : Nat) (best_matches : List DMatch),
      status.length + i ≤ matches_.length →
      best_matches_loop matches_ status i best_matches
        = Except.ok (best_matches ++ inliers (matches_.drop i) status) := by
  intro status
  induction status with
  | nil =>
    intro i best_matches _
    simp [best_matches_loop, inliers_nil_status]
  | cons s rest ih =>
    intro i best_matches hlen
    simp only [List.length_cons] at hlen
    have hi : i < matches_.length := by omega
    rw [List.drop_eq_getElem_cons hi, inliers_cons, best_matches_loop]
    split_ifs with hs
    · rw [List.getElem?_eq_getElem hi]
      simp only
      rw [ih (i + 1) (best_matches ++ [matches_[i]]) (by omega)]
      simp
    · exact ih (i + 1) best_matches (by omega)

/-- C8: when the keypoint lookups succeed and the robust solver returns a status vector no
longer than the correspondence list, `calculate_fundamental_matrix` returns the solver's
matrix and replaces `matches` by exactly the correspondences whose status flag equals 1, in
their original order; the new list is a sub-sequence of the old one and no longer. -/
theorem calculate_fundamental_matrix_prunes (cv : OpenCV) (self : FeatureMatcher)
    (call : FundamentalCall) (hcall : self.fundamental_call = Except.ok call)
    (hlen : (cv.findFundamentalMat call).2.length ≤ self.matches_.length) :
    self.calculate_fundamental_matrix cv
        = Except.ok ((cv.findFundamentalMat call).1,
          { self with matches_ := inliers self.matches_ (cv.findFundamentalMat call).2 })
      ∧ List.Sublist (inliers self.matches_ (cv.findFundamentalMat call).2) self.matches_
      ∧ (inliers self.matches_ (cv.findFundamentalMat call).2).length
        ≤ self.matches_.length := by
  refine ⟨?_, inliers_sublist _ _, (inliers_sublist _ _).length_le⟩
  unfold FeatureMatcher.calculate_fundamental_matrix
  rw [hcall]
  simp only
  rw [best_matches_loop_eq self.matches_ _ 0 [] (by omega)]
  simp

/-- C8 at a concrete input: of two correspondences the solver flags the second only. -/
theorem calculate_fundamental_matrix_prunes_witness :
    two_by_two_matched.calculate_fundamental_matrix (answering [] [0, 1])
        = Except.ok (0, { two_by_two_matched with matches_ := [⟨1, 1, 0, 1⟩] })
      ∧ List.Sublist [⟨1, 1, 0, 1⟩] two_by_two_matched.matches_ :=
  ⟨by decide!,
    (calculate_fundamental_matrix_prunes (answering [] [0, 1]) two_by_two_matched
      ⟨[⟨0, 0⟩, ⟨6, 0⟩], [⟨3, 0⟩, ⟨5, 0⟩], 0.006 * 6, 0.99⟩ (by decide!)
      (by decide)).2.1⟩

theorem inliers_all_one : ∀ (matches_ : List DMatch),
    inliers matches_ (List.replicate matches_.length 1) = matches_ := by
  intro matches_
  induction matches_ with
  | nil => simp [inliers]
  | cons m rest ih =>
    rw [List.length_cons, List.replicate_succ, inliers_cons, if_pos rfl, ih]

/-- C9: the pruning is idempotent. When the keypoint lookups succeed and the solver's status
vector has the length of the correspondence list and every flag is 1,
`calculate_fundamental_matrix` leaves the feature matcher, and so its correspondence list,
exactly as it was. -/
theorem calculate_fundamental_matrix_all_inliers (cv : OpenCV) (self : FeatureMatcher)
    (call : FundamentalCall) (hcall : self.fundamental_call = Except.ok call)
    (hstatus : (cv.findFundamentalMat call).2 = List.replicate self.matches_.length 1) :
    self.calculate_fundamental_matrix cv = Except.ok ((cv.findFundamentalMat call).1, self) := by
  unfold FeatureMatcher.calculate_fundamental_matrix
  rw [hcall]
  simp only
  rw [best_matches_loop_eq self.matches_ _ 0 [] (by rw [hstatus]; simp), hstatus]
  simp [inliers_all_one]

/-- C9 at a concrete input: two correspondences, both flagged 1. -/
theorem calculate_fundamental_matrix_all_inliers_witness :
    two_by_two_matched.fundamental_call
        = Except.ok ⟨[⟨0, 0⟩, ⟨6, 0⟩], [⟨3, 0⟩, ⟨5, 0⟩], 0.006 * 6, 0.99⟩
      ∧ two_by_two_matched.calculate_fundamental_matrix (answering [] [1, 1])
        = Except.ok (0, two_by_two_matched) :=
  ⟨by decide!,
    calculate_fundamental_matrix_all_inliers (answering [] [1, 1]) two_by_two_matched
      ⟨[⟨0, 0⟩, ⟨6, 0⟩], [⟨3, 0⟩, ⟨5, 0⟩], 0.006 * 6, 0.99⟩ (by decide!) (by decide)⟩

/-! ### calculate_fundamental_matrix: the arguments of the robust solver -/

theorem foldl_max_spec : ∀ (vs : List ℚ) (v : ℚ),
    vs.foldl max v ∈ v :: vs ∧ ∀ w ∈ v :: vs, w ≤ vs.foldl max v := by
  intro vs
  induction vs with
  | nil => intro v; simp
  | cons a rest ih =>
    intro v
    obtain ⟨hmem, hle⟩ := ih (max v a)
    rw [List.foldl_cons]
    constructor
    · rcases List.mem_cons.mp hmem with h | h
      · rw [h]
        rcases max_choice v a with hv | ha
        · rw [hv]; simp
        · rw [ha]; simp
      · simp [h]
    · intro w hw
      rcases List.mem_cons.mp hw with h | h
      · rw [h]
        exact le_trans (le_max_left v a) (hle _ (List.mem_cons_self _ _))
      · rcases List.mem_cons.mp h with h | h
        · rw [h]
          exact le_trans (le_max_right v a) (hle _ (List.mem_cons_self _ _))
        · exact hle w (List.mem_cons_of_mem _ h)

theorem minMaxIdx_max (pts : List Point2f) (h : pts ≠ []) :
    (minMaxIdx pts).2 ∈ coordinates pts ∧ ∀ w ∈ coordinates pts, w ≤ (minMaxIdx pts).2 := by
  unfold minMaxIdx
  cases hc : coordinates pts with
  | nil =>
    cases pts with
    | nil => exact absurd rfl h
    | cons p rest => simp [coordinates] at hc
  | cons v vs => exact foldl_max_spec vs v

theorem collect_match_points_length (keypoints1 keypoints2 : List KeyPoint) :
    ∀ (matches_ : List DMatch) (r : List Point2f × List Point2f),
      collect_match_points keypoints1 keypoints2 matches_ = Except.ok r →
      r.1.length = matches_.length ∧ r.2.length = matches_.length := by
  intro matches_
  induction matches_ with
  | nil =>
    intro r h
    simp only [collect_match_points] at h
    cases h
    exact ⟨rfl, rfl⟩
  | cons i rest ih =>
    intro r h
    rw [collect_match_points] at h
    split at h
    · split at h
      · rename_i l1 l2 hrest
        cases h
        obtain ⟨h1, h2⟩ := ih _ hrest
        simp [h1, h2]
      · cases h
    · cases h

/-- C10, as the code has it: for a non-empty correspondence list whose keypoint lookups
succeed, the points handed to the robust solver are the matched points of the two images,
the confidence is 0.99, and the inlier distance threshold is 0.006 times the greatest of the
x and y coordinates of the matched points of image 1. The coordinates of image 2 do not
enter the threshold, and the coordinates are compared as signed values. -/
theorem fundamental_call_threshold (self : FeatureMatcher) (call : FundamentalCall)
    (hne : self.matches_ ≠ []) (hcall : self.fundamental_call = Except.ok call) :
    collect_match_points self.keypoints1 self.keypoints2 self.matches_
        = Except.ok (call.points1, call.points2)
      ∧ call.param2 = 0.99
      ∧ ∃ v ∈ coordinates call.points1,
        call.param1 = 0.006 * v ∧ ∀ w ∈ coordinates call.points1, w ≤ v := by
  unfold FeatureMatcher.fundamental_call at hcall
  split at hcall
  · cases hcall
  · rename_i match_points1 match_points2 hcollect
    cases hcall
    have hlen := (collect_match_points_length _ _ _ _ hcollect).1
    have hpts : match_points1 ≠ [] := by
      intro h
      rw [h] at hlen
      exact hne (List.length_eq_zero.mp hlen.symm)
    obtain ⟨hmem, hle⟩ := minMaxIdx_max match_points1 hpts
    exact ⟨hcollect, rfl, (minMaxIdx match_points1).2, hmem, rfl, hle⟩

/-- C10 at a concrete input: one correspondence between `(1, 1)` and `(100, 100)`. -/
theorem fundamental_call_threshold_witness :
    far_apart.matches_ ≠ []
      ∧ far_apart.fundamental_call = Except.ok ⟨[⟨1, 1⟩], [⟨100, 100⟩], 0.006, 0.99⟩
      ∧ ∃ v ∈ coordinates [(⟨1, 1⟩ : Point2f)],
        (0.006 : ℚ) = 0.006 * v ∧ ∀ w ∈ coordinates [(⟨1, 1⟩ : Point2f)], w ≤ v :=
  ⟨by decide, by decide!,
    (fundamental_call_threshold far_apart ⟨[⟨1, 1⟩], [⟨100, 100⟩], 0.006, 0.99⟩
      (by decide) (by decide!)).2.2⟩

/-- C10 fails as stated: for one correspondence between `(1, 1)` in image 1 and
`(100, 100)` in image 2 the greatest coordinate magnitude of the correspondence set is 100,
so the claimed threshold is 0.6, while the threshold handed to the solver is 0.006. -/
theorem fundamental_call_ignores_second_image :
    far_apart.fundamental_call = Except.ok ⟨[⟨1, 1⟩], [⟨100, 100⟩], 0.006, 0.99⟩
      ∧ spec_epipolar_distance ⟨[⟨1, 1⟩], [⟨100, 100⟩], 0.006, 0.99⟩ = 0.6
      ∧ (0.006 : ℚ) ≠ 0.6 := by
  decide!

/-! ### calculate_essential_matrix -/

/-- C12: for every fundamental matrix `F`, `calculate_essential_matrix` returns
`transpose(K) * F * K` with `K` the guessed camera matrix of image 1, entry `(i, j)` being
the sum of `K(k, i) * F(k, l) * K(l, j)` over `k` and `l`; replacing image 2 by any other
image does not change the result. -/
theorem calculate_essential_matrix_eq (self : FeatureMatcher) (fundamental_matrix : Matx33d) :
    self.calculate_essential_matrix fundamental_matrix
        = self.image1.guess_camera_matrix.transpose * fundamental_matrix
          * self.image1.guess_camera_matrix
      ∧ (∀ i j, self.calculate_essential_matrix fundamental_matrix i j
        = ∑ l, ∑ k, self.image1.guess_camera_matrix k i * fundamental_matrix k l
          * self.image1.guess_camera_matrix l j)
      ∧ ∀ image2 : Image,
        ({ self with image2 := image2 }).calculate_essential_matrix fundamental_matrix
          = self.calculate_essential_matrix fundamental_matrix := by
  refine ⟨rfl, ?_, fun _ => rfl⟩
  intro i j
  simp only [FeatureMatcher.calculate_essential_matrix, Matrix.mul_apply,
    Matrix.transpose_apply, Finset.sum_mul]

/-! ### calculate_possible_camera_matrices -/

theorem rotation_pose_matrix (rotation : Matx33d) (translation : Fin 3 → ℚ) :
    (CameraMatrix.new (pose_matrix rotation translation)).rotation = rotation := by
  ext i j
  fin_cases i <;> fin_cases j <;> rfl

theorem translation_pose_matrix (rotation : Matx33d) (translation : Fin 3 → ℚ) (i : Fin 3) :
    (CameraMatrix.new (pose_matrix rotation translation)).matrix i 3 = translation i := by
  fin_cases i <;> rfl

theorem possible_camera_matrices_eq (svd : Matx33d → SVD) (essential_matrix : Matx33d) :
    (FeatureMatcher.calculate_possible_camera_matrices svd essential_matrix).1
      = [CameraMatrix.new (pose_matrix ((svd essential_matrix).u * W * (svd essential_matrix).vt)
          (fun i => (svd essential_matrix).u i 2)),
        CameraMatrix.new (pose_matrix ((svd essential_matrix).u * W * (svd essential_matrix).vt)
          (fun i => -(svd essential_matrix).u i 2)),
        CameraMatrix.new (pose_matrix ((svd essential_matrix).u * Wt * (svd essential_matrix).vt)
          (fun i => (svd essential_matrix).u i 2)),
        CameraMatrix.new (pose_matrix ((svd essential_matrix).u * Wt * (svd essential_matrix).vt)
          (fun i => -(svd essential_matrix).u i 2))] :=
  rfl

/-- C13: for every essential matrix, whatever the singular values its SVD reports,
`calculate_possible_camera_matrices` returns exactly four candidates, in the order
`[R1|t1]`, `[R1|t2]`, `[R2|t1]`, `[R2|t2]`, where `R1 = U*W*Vt`, `R2 = U*Wt*Vt`,
`W = [[0,-1,0],[1,0,0],[0,0,1]]`, `Wt` is the transpose of `W`, `t1` is the third column of
`U` and `t2 = -t1`; each candidate is new, with no points and the error 0. -/
theorem calculate_possible_camera_matrices_four (svd : Matx33d → SVD)
    (essential_matrix : Matx33d) :
    (FeatureMatcher.calculate_possible_camera_matrices svd essential_matrix).1
        = [CameraMatrix.new (pose_matrix ((svd essential_matrix).u * W * (svd essential_matrix).vt)
            (fun i => (svd essential_matrix).u i 2)),
          CameraMatrix.new (pose_matrix ((svd essential_matrix).u * W * (svd essential_matrix).vt)
            (fun i => -(svd essential_matrix).u i 2)),
          CameraMatrix.new (pose_matrix ((svd essential_matrix).u * Wt * (svd essential_matrix).vt)
            (fun i => (svd essential_matrix).u i 2)),
          CameraMatrix.new (pose_matrix ((svd essential_matrix).u * Wt * (svd essential_matrix).vt)
            (fun i => -(svd essential_matrix).u i 2))]
      ∧ (FeatureMatcher.calculate_possible_camera_matrices svd essential_matrix).1.length = 4
      ∧ W = !![0, -1, 0; 1, 0, 0; 0, 0, 1]
      ∧ Wt = W.transpose
      ∧ ∀ (rotation : Matx33d) (translation : Fin 3 → ℚ),
        (CameraMatrix.new (pose_matrix rotation translation)).rotation = rotation
          ∧ ∀ i, (CameraMatrix.new (pose_matrix rotation translation)).matrix i 3
            = translation i := by
  refine ⟨possible_camera_matrices_eq svd essential_matrix, rfl, rfl, ?_,
    fun rotation translation =>
    ⟨rotation_pose_matrix rotation translation, translation_pose_matrix rotation translation⟩⟩
  ext i j
  fin_cases i <;> fin_cases j <;> rfl

/-! ### calculate_possible_camera_matrices: determinants of the candidate rotations -/

theorem determinant_eq_det (m : Matx33d) : determinant m = m.det := by
  rw [Matrix.det_fin_three]
  unfold determinant
  ring

theorem determinant_W : determinant W = 1 := by
  simp [determinant, W]

theorem determinant_Wt : determinant Wt = 1 := by
  simp [determinant, Wt]

theorem determinant_orthogonal (u : Matx33d) (h : u * u.transpose = 1) :
    determinant u = 1 ∨ determinant u = -1 := by
  have hdet : u.det * u.det = 1 := by
    have := congrArg Matrix.det h
    rwa [Matrix.det_mul, Matrix.det_transpose, Matrix.det_one] at this
  rw [determinant_eq_det]
  have hfac : (u.det - 1) * (u.det + 1) = 0 := by ring_nf; linarith
  rcases mul_eq_zero.mp hfac with h1 | h1
  · exact Or.inl (by linarith)
  · exact Or.inr (by linarith)

theorem determinant_product (u w vt : Matx33d) (hw : determinant w = 1) :
    determinant (u * w * vt) = determinant u * determinant vt := by
  rw [determinant_eq_det] at hw
  rw [determinant_eq_det, determinant_eq_det, determinant_eq_det, Matrix.det_mul,
    Matrix.det_mul, hw, mul_one]

theorem rotation_is_coherent_of_unit (cm : CameraMatrix)
    (h : determinant cm.rotation = 1 ∨ determinant cm.rotation = -1) :
    cm.rotation_is_coherent = false := by
  have hone : fabsf 1 = some 1 := by decide!
  have hneg : fabsf (-1) = some 1 := by decide!
  unfold CameraMatrix.rotation_is_coherent
  rcases h with h | h <;> rw [h] <;> simp only [hone, hneg] <;> norm_num

/-- C14: when the factors `U` and `Vt` of the SVD are orthogonal, both candidate rotations
`R1 = U*W*Vt` and `R2 = U*Wt*Vt` have determinant `det(U) * det(Vt)`, which is exactly 1 or
-1, and every one of the four candidates `calculate_possible_camera_matrices` builds has a
rotation block of determinant 1 or -1 and is not skipped by the coherence check. -/
theorem calculate_possible_camera_matrices_unit_determinant (svd : Matx33d → SVD)
    (essential_matrix : Matx33d)
    (hu : (svd essential_matrix).u * (svd essential_matrix).u.transpose = 1)
    (hvt : (svd essential_matrix).vt * (svd essential_matrix).vt.transpose = 1) :
    determinant ((svd essential_matrix).u * W * (svd essential_matrix).vt)
        = determinant (svd essential_matrix).u * determinant (svd essential_matrix).vt
      ∧ determinant ((svd essential_matrix).u * Wt * (svd essential_matrix).vt)
        = determinant (svd essential_matrix).u * determinant (svd essential_matrix).vt
      ∧ (determinant (svd essential_matrix).u * determinant (svd essential_matrix).vt = 1
        ∨ determinant (svd essential_matrix).u * determinant (svd essential_matrix).vt = -1)
      ∧ ∀ cm ∈ (FeatureMatcher.calculate_possible_camera_matrices svd essential_matrix).1,
        (determinant cm.rotation = 1 ∨ determinant cm.rotation = -1)
          ∧ cm.rotation_is_coherent = false := by
  have h1 := determinant_product (svd essential_matrix).u W (svd essential_matrix).vt
    determinant_W
  have h2 := determinant_product (svd essential_matrix).u Wt (svd essential_matrix).vt
    determinant_Wt
  have hprod : determinant (svd essential_matrix).u * determinant (svd essential_matrix).vt = 1
      ∨ determinant (svd essential_matrix).u * determinant (svd essential_matrix).vt = -1 := by
    rcases determinant_orthogonal _ hu with a | a <;>
      rcases determinant_orthogonal _ hvt with b | b <;> rw [a, b] <;> norm_num
  refine ⟨h1, h2, hprod, ?_⟩
  intro cm hcm
  rw [possible_camera_matrices_eq svd essential_matrix] at hcm
  have hdet : determinant cm.rotation = 1 ∨ determinant cm.rotation = -1 := by
    simp only [List.mem_cons, List.mem_singleton, List.not_mem_nil, or_false] at hcm
    rcases hcm with h | h | h | h <;> rw [h, rotation_pose_matrix]
    · rw [h1]; exact hprod
    · rw [h1]; exact hprod
    · rw [h2]; exact hprod
    · rw [h2]; exact hprod
  exact ⟨hdet, rotation_is_coherent_of_unit cm hdet⟩

/-- C14 at a concrete input: the SVD factors `U = W` and `Vt = I`, both orthogonal. -/
theorem calculate_possible_camera_matrices_unit_determinant_witness :
    W * W.transpose = 1
      ∧ determinant (W * W * (1 : Matx33d)) = determinant W * determinant (1 : Matx33d)
      ∧ ∀ cm ∈ (FeatureMatcher.calculate_possible_camera_matrices
          (svd_answering W ![1, 1, 0] 1) 0).1,
        (determinant cm.rotation = 1 ∨ determinant cm.rotation = -1)
          ∧ cm.rotation_is_coherent = false :=
  ⟨by decide!,
    (calculate_possible_camera_matrices_unit_determinant (svd_answering W ![1, 1, 0] 1) 0
      (by decide!) (by decide!)).1,
    (calculate_possible_camera_matrices_unit_determinant (svd_answering W ![1, 1, 0] 1) 0
      (by decide!) (by decide!)).2.2.2⟩

/-! ### calculate_possible_camera_matrices: the warning -/

theorem singular_values_ratio_eq (w0 w1 : ℚ) (h : w1 ≠ 0) :
    (if |w0 / w1| > 1.0 then 1.0 / |w0 / w1| else |w0 / w1|)
      = min |w0| |w1| / max |w0| |w1| := by
  have hb : 0 < |w1| := abs_pos.mpr h
  rw [abs_div]
  by_cases hgt : |w0| / |w1| > 1.0
  · rw [if_pos hgt]
    have hlt : |w1| < |w0| := by
      have := (lt_div_iff₀ hb).mp (by simpa using hgt)
      linarith
    rw [min_eq_right hlt.le, max_eq_left hlt.le]
    field_simp
    norm_num
  · rw [if_neg hgt]
    have hle : |w0| ≤ |w1| := by
      have := (div_le_iff₀ hb).mp (by simpa using not_lt.mp hgt)
      linarith
    rw [min_eq_left hle, max_eq_right hle]

theorem singular_values_too_far_apart_iff (w0 w1 : ℚ) (h : w1 ≠ 0)
    (hexact : fabsf (w0 / w1) = some |w0 / w1|) :
    singular_values_too_far_apart w0 w1 = true ↔ min |w0| |w1| / max |w0| |w1| < 0.7 := by
  unfold singular_values_too_far_apart
  rw [if_neg h, hexact]
  simp only [decide_eq_true_eq]
  rw [singular_values_ratio_eq w0 w1 h]

/-- C15 at the failing input: for the singular values (1.0, 0.70000001) the ratio
`min(|s0|, |s1|) / max(|s0|, |s1|)` is 0.70000001, which is not below 0.7, and
`calculate_possible_camera_matrices` writes "singular values are too far apart" all the
same: `fabsf` makes the quotient 1/0.70000001 the `float` 11983726/8388608, whose
reciprocal is below 0.7. The singular values (1.0, 1.0) write nothing and (1.0, 0.3) write
the warning, as the claim says. -/
theorem calculate_possible_camera_matrices_warns_within_range :
    (FeatureMatcher.calculate_possible_camera_matrices
        (svd_answering 1 ![1.0, 0.70000001, 0] 1) 0).2 = ["singular values are too far apart"]
      ∧ ¬ min |(1.0 : ℚ)| |(0.70000001 : ℚ)| / max |(1.0 : ℚ)| |(0.70000001 : ℚ)| < 0.7
      ∧ fabsf (1.0 / 0.70000001) = some (11983726 / 8388608)
      ∧ (1.0 : ℚ) / (11983726 / 8388608) < 0.7
      ∧ (FeatureMatcher.calculate_possible_camera_matrices
        (svd_answering 1 ![1.0, 1.0, 0] 1) 0).2 = []
      ∧ (FeatureMatcher.calculate_possible_camera_matrices
        (svd_answering 1 ![1.0, 0.3, 0] 1) 0).2 = ["singular values are too far apart"] := by
  decide!

/-! ### run: the number of correspondences is never checked -/

theorem calculate_fundamental_matrix_eq (cv : OpenCV) (self : FeatureMatcher)
    (call : FundamentalCall) (hcall : self.fundamental_call = Except.ok call)
    (hlen : (cv.findFundamentalMat call).2.length ≤ self.matches_.length) :
    self.calculate_fundamental_matrix cv
      = Except.ok ((cv.findFundamentalMat call).1,
        { self with matches_ := inliers self.matches_ (cv.findFundamentalMat call).2 }) := by
  unfold FeatureMatcher.calculate_fundamental_matrix
  rw [hcall]
  simp only
  rw [best_matches_loop_eq self.matches_ _ 0 [] (by omega)]
  simp

/-- C11, as the code has it: `calculate_fundamental_matrix` does not look at the number of
correspondences. Whenever matching returned normally, the keypoint lookups succeed and the
status vector is no longer than the correspondence list, it returns the solver's matrix and
the pruned list, however few correspondences there are, and `run` goes on through
`calculate_essential_matrix` and `calculate_possible_camera_matrices` to
`find_best_camera_matrix`, whose choice it returns. -/
theorem run_goes_on_for_any_count (cv : OpenCV) (c : Constants) (d : MatchDefaults)
    (svd : Matx33d → SVD) (self matched : FeatureMatcher) (call : FundamentalCall)
    (hmatch : self.match_ cv c d = (matched, Outcome.returned))
    (hcall : matched.fundamental_call = Except.ok call)
    (hlen : (cv.findFundamentalMat call).2.length ≤ matched.matches_.length) :
    matched.calculate_fundamental_matrix cv
        = Except.ok ((cv.findFundamentalMat call).1,
          { matched with matches_ := inliers matched.matches_ (cv.findFundamentalMat call).2 })
      ∧ ∀ (camera_matrices : List CameraMatrix) (best : Nat) (best_camera_matrix : CameraMatrix),
        ({ matched with
            matches_ := inliers matched.matches_ (cv.findFundamentalMat call).2 }
          ).find_best_camera_matrix cv c
            (FeatureMatcher.calculate_possible_camera_matrices svd
              (matched.calculate_essential_matrix (cv.findFundamentalMat call).1)).1
          = Except.ok (camera_matrices, some best) →
        camera_matrices[best]? = some best_camera_matrix →
        self.run cv c d svd
          = Except.ok
            ({ matched with
                matches_ := inliers matched.matches_ (cv.findFundamentalMat call).2 },
              (FeatureMatcher.calculate_possible_camera_matrices svd
                (matched.calculate_essential_matrix (cv.findFundamentalMat call).1)).2,
              best_camera_matrix) := by
  have hfund := calculate_fundamental_matrix_eq cv matched call hcall hlen
  refine ⟨hfund, ?_⟩
  intro camera_matrices best best_camera_matrix hbest hget
  unfold FeatureMatcher.run
  rw [hmatch]
  simp only
  rw [hfund]
  simp only
  have hess : ∀ m : List DMatch, ({ matched with matches_ := m }).calculate_essential_matrix
      (cv.findFundamentalMat call).1
      = matched.calculate_essential_matrix (cv.findFundamentalMat call).1 := fun _ => rfl
  rw [hess, hbest]
  simp only
  rw [hget]

/-- C11 at a concrete input: one correspondence, which the solver flags as an outlier; the
pruned list is empty and `run` returns the first of the four candidates. -/
theorem run_goes_on_for_any_count_witness :
    one_match.match_ (answering [[⟨0, 0, 0, 0⟩]] [0]) spec_constants spec_defaults
        = (one_match, Outcome.returned)
      ∧ inliers one_match.matches_ ((answering [[⟨0, 0, 0, 0⟩]] [0]).findFundamentalMat
          ⟨[⟨0, 0⟩], [⟨1, 0⟩], 0, 0.99⟩).2 = []
      ∧ one_match.run (answering [[⟨0, 0, 0, 0⟩]] [0]) spec_constants spec_defaults
          (svd_answering 1 ![0, 0, 0] 1)
        = Except.ok
          ({ one_match with
              matches_ := inliers one_match.matches_
                ((answering [[⟨0, 0, 0, 0⟩]] [0]).findFundamentalMat
                  ⟨[⟨0, 0⟩], [⟨1, 0⟩], 0, 0.99⟩).2 },
            (FeatureMatcher.calculate_possible_camera_matrices (svd_answering 1 ![0, 0, 0] 1)
              (one_match.calculate_essential_matrix
                ((answering [[⟨0, 0, 0, 0⟩]] [0]).findFundamentalMat
                  ⟨[⟨0, 0⟩], [⟨1, 0⟩], 0, 0.99⟩).1)).2,
            CameraMatrix.new (pose_matrix W ![0, 0, 1])) :=
  ⟨by decide!, by decide!,
    (run_goes_on_for_any_count (answering [[⟨0, 0, 0, 0⟩]] [0]) spec_constants spec_defaults
      (svd_answering 1 ![0, 0, 0] 1) one_match one_match ⟨[⟨0, 0⟩], [⟨1, 0⟩], 0, 0.99⟩
      (by decide!) (by decide!) (by decide)).2
      (FeatureMatcher.calculate_possible_camera_matrices (svd_answering 1 ![0, 0, 0] 1) 0).1
      0 (CameraMatrix.new (pose_matrix W ![0, 0, 1])) (by decide!) (by decide!)⟩

/-- C11 fails as stated: with a single correspondence, flagged as an outlier by the solver,
fewer than 8 correspondences remain before the solve and after the pruning, yet
`calculate_fundamental_matrix` returns normally and `run` goes on to choose and return the
first of the four candidates. -/
theorem run_goes_on_with_one_correspondence :
    one_match.matches_.length < 8
      ∧ one_match.calculate_fundamental_matrix (answering [[⟨0, 0, 0, 0⟩]] [0])
        = Except.ok (0, { one_match with matches_ := [] })
      ∧ ({ one_match with matches_ := [] } : FeatureMatcher).matches_.length < 8
      ∧ one_match.run (answering [[⟨0, 0, 0, 0⟩]] [0]) spec_constants spec_defaults
          (svd_answering 1 ![0, 0, 0] 1)
        = Except.ok ({ one_match with matches_ := [] }, [],
          CameraMatrix.new (pose_matrix W ![0, 0, 1])) := by
  decide!

/-! ### find_best_camera_matrix: when no candidate is returned -/

theorem find_best_step_skipped (cv : OpenCV) (c : Constants) (self : FeatureMatcher)
    (i : Nat) (state : List CameraMatrix × Option Nat)
    (h : ∀ cm, state.1[i]? = some cm → cm.rotation_is_coherent = true) :
    self.find_best_step cv c state i = Except.ok state := by
  unfold FeatureMatcher.find_best_step
  split
  · rfl
  · rename_i cm hcm
    rw [if_pos (h cm hcm)]

theorem find_best_loop_skipped (cv : OpenCV) (c : Constants) (self : FeatureMatcher) :
    ∀ (positions : List Nat) (state : List CameraMatrix × Option Nat),
      (∀ i ∈ positions, ∀ cm, state.1[i]? = some cm → cm.rotation_is_coherent = true) →
      self.find_best_loop cv c positions state = Except.ok state := by
  intro positions
  induction positions with
  | nil => intro state _; rfl
  | cons i rest ih =>
    intro state h
    rw [FeatureMatcher.find_best_loop,
      find_best_step_skipped cv c self i state (h i (List.mem_cons_self _ _))]
    exact ih state (fun j hj => h j (List.mem_cons_of_mem _ hj))

theorem find_best_step_some (cv : OpenCV) (c : Constants) (self : FeatureMatcher)
    (i : Nat) (state state' : List CameraMatrix × Option Nat)
    (h : self.find_best_step cv c state i = Except.ok state')
    (hbest : state.2 ≠ none ∨ ∃ cm, state.1[i]? = some cm ∧ cm.rotation_is_coherent = false) :
    state'.2 ≠ none := by
  unfold FeatureMatcher.find_best_step at h
  split at h
  · rename_i hnone
    cases h
    rcases hbest with hb | ⟨cm, hcm, _⟩
    · exact hb
    · rw [hnone] at hcm; cases hcm
  · rename_i cm hcm
    split_ifs at h with hskip
    · cases h
      rcases hbest with hb | ⟨cm', hcm', hcoh⟩
      · exact hb
      · rw [hcm] at hcm'
        cases hcm'
        rw [hskip] at hcoh
        cases hcoh
    · split at h
      · cases h
      · simp only at h
        split at h
        · cases h; simp
        · split_ifs at h <;> cases h <;> simp

theorem find_best_loop_some (cv : OpenCV) (c : Constants) (self : FeatureMatcher) :
    ∀ (positions : List Nat) (state state' : List CameraMatrix × Option Nat),
      self.find_best_loop cv c positions state = Except.ok state' →
      state.2 ≠ none → state'.2 ≠ none := by
  intro positions
  induction positions with
  | nil =>
    intro state state' h hb
    simp only [FeatureMatcher.find_best_loop] at h
    cases h
    exact hb
  | cons i rest ih =>
    intro state state' h hb
    rw [FeatureMatcher.find_best_loop] at h
    split at h
    · cases h
    · rename_i mid hmid
      exact ih mid state' h (find_best_step_some cv c self i state mid hmid (Or.inl hb))

theorem find_best_loop_none (cv : OpenCV) (c : Constants) (self : FeatureMatcher) :
    ∀ (positions : List Nat) (state state' : List CameraMatrix × Option Nat),
      self.find_best_loop cv c positions state = Except.ok state' → state'.2 = none →
      ∀ i ∈ positions, ∀ cm, state.1[i]? = some cm → cm.rotation_is_coherent = true := by
  intro positions
  induction positions with
  | nil => intro state state' _ _ i hi; cases hi
  | cons p rest ih =>
    intro state state' h hnone
    have hall : ∀ cm, state.1[p]? = some cm → cm.rotation_is_coherent = true := by
      intro cm hcm
      by_contra hcoh
      rw [FeatureMatcher.find_best_loop] at h
      split at h
      · cases h
      · rename_i mid hmid
        have hmid' := find_best_step_some cv c self p state mid hmid
          (Or.inr ⟨cm, hcm, by simpa using hcoh⟩)
        exact find_best_loop_some cv c self rest mid state' h hmid' hnone
    rw [FeatureMatcher.find_best_loop, find_best_step_skipped cv c self p state hall] at h
    intro i hi cm hcm
    rcases List.mem_cons.mp hi with hip | hir
    · subst hip; exact hall cm hcm
    · exact ih state state' h hnone i hir cm hcm

/-- The call of `find_best_camera_matrix` returns `NULL` if and only if its check skips every
candidate of the list, and in that case the candidates are left exactly as they were, so
that no point cloud is populated. -/
theorem find_best_camera_matrix_null_iff (cv : OpenCV) (c : Constants)
    (self : FeatureMatcher) (camera_matrices : List CameraMatrix) :
    ((∃ result, self.find_best_camera_matrix cv c camera_matrices = Except.ok (result, none))
        ↔ ∀ cm ∈ camera_matrices, cm.rotation_is_coherent = true)
      ∧ ((∀ cm ∈ camera_matrices, cm.rotation_is_coherent = true)
        ↔ self.find_best_camera_matrix cv c camera_matrices
          = Except.ok (camera_matrices, none)) := by
  have hskip : (∀ cm ∈ camera_matrices, cm.rotation_is_coherent = true) →
      self.find_best_camera_matrix cv c camera_matrices
        = Except.ok (camera_matrices, none) := by
    intro hall
    unfold FeatureMatcher.find_best_camera_matrix
    exact find_best_loop_skipped cv c self _ _
      (fun i _ cm hcm => hall cm (List.getElem?_mem hcm))
  have hnone : ∀ result, self.find_best_camera_matrix cv c camera_matrices
      = Except.ok (result, none) → ∀ cm ∈ camera_matrices, cm.rotation_is_coherent = true := by
    intro result h cm hcm
    unfold FeatureMatcher.find_best_camera_matrix at h
    obtain ⟨i, hi, hget⟩ := List.getElem_of_mem hcm
    exact find_best_loop_none cv c self _ _ _ h rfl i (List.mem_range.mpr hi) cm
      (by simp only; rw [List.getElem?_eq_getElem hi, hget])
  exact ⟨⟨fun ⟨result, h⟩ => hnone result h, fun hall => ⟨_, hskip hall⟩⟩,
    ⟨hskip, fun h => hnone _ h⟩⟩

/-- C16: for a list in which no candidate is rotation-coherent, but in which the check of
`find_best_camera_matrix` does not skip some candidate, the equivalence of the claim fails:
the call does not return `NULL` (it returns a pose or fails inside `triangulate_points`),
although no candidate is rotation-coherent. -/
theorem find_best_camera_matrix_not_null_without_coherent (cv : OpenCV) (c : Constants)
    (self : FeatureMatcher) (camera_matrices : List CameraMatrix)
    (hnone : ∀ cm ∈ camera_matrices, ¬ coherent_by_determinant cm)
    (hpassed : ∃ cm ∈ camera_matrices, cm.rotation_is_coherent = false) :
    ¬ ((∃ result, self.find_best_camera_matrix cv c camera_matrices
          = Except.ok (result, none))
        ↔ ∀ cm ∈ camera_matrices, ¬ coherent_by_determinant cm) := by
  intro hiff
  obtain ⟨cm, hmem, hcm⟩ := hpassed
  have hall := (find_best_camera_matrix_null_iff cv c self camera_matrices).1.mp
    (hiff.mpr hnone)
  rw [hall cm hmem] at hcm
  exact Bool.noConfusion hcm

/-- C16 at the failing input: the only candidate has a rotation block of determinant 1/2 and
is not rotation-coherent, and the call returns it with a cloud of one point. -/
theorem find_best_camera_matrix_not_null_without_coherent_witness :
    (∀ cm ∈ [candidate_h], ¬ coherent_by_determinant cm)
      ∧ candidate_h.rotation_is_coherent = false
      ∧ (one_match.find_best_camera_matrix (answering [] []) spec_constants
        [candidate_h]).map (fun r => (r.1.map fun cm => cm.point_cloud.points.length, r.2))
        = Except.ok ([1], some 0)
      ∧ ¬ ((∃ result, one_match.find_best_camera_matrix (answering [] []) spec_constants
            [candidate_h] = Except.ok (result, none))
          ↔ ∀ cm ∈ [candidate_h], ¬ coherent_by_determinant cm) :=
  ⟨by decide!, by decide!, by decide!,
    find_best_camera_matrix_not_null_without_coherent (answering [] []) spec_constants
      one_match [candidate_h] (by decide!) ⟨candidate_h, by simp, by decide!⟩⟩

/-! ### find_best_camera_matrix: which candidates are triangulated -/

theorem find_best_step_frame (cv : OpenCV) (c : Constants) (self : FeatureMatcher)
    (i : Nat) (state state' : List CameraMatrix × Option Nat)
    (h : self.find_best_step cv c state i = Except.ok state') :
    (∀ j, j ≠ i → state'.1[j]? = state.1[j]?)
      ∧ ∀ cm, state.1[i]? = some cm →
        ∃ cm', state'.1[i]? = some cm' ∧ triangulated_iff_passed cv c self cm cm' := by
  unfold FeatureMatcher.find_best_step at h
  split at h
  · rename_i hnone
    cases h
    exact ⟨fun _ _ => rfl, fun cm hcm => by rw [hnone] at hcm; cases hcm⟩
  · rename_i cm hcm
    split_ifs at h with hskip
    · cases h
      refine ⟨fun _ _ => rfl, fun cm' hcm' => ?_⟩
      rw [hcm] at hcm'
      cases hcm'
      exact ⟨cm, hcm, Or.inl ⟨hskip, rfl⟩⟩
    · split at h
      · cases h
      · rename_i error cloud htri
        have hlt : i < state.1.length := by
          rcases Nat.lt_or_ge i state.1.length with hl | hl
          · exact hl
          · rw [List.getElem?_eq_none hl] at hcm; cases hcm
        have hset : state'.1 = state.1.set i ⟨cm.matrix, error, cloud⟩ := by
          simp only at h
          split at h
          · cases h; rfl
          · split_ifs at h <;> cases h <;> rfl
        rw [hset]
        refine ⟨fun j hj => List.getElem?_set_ne (Ne.symm hj), fun cm' hcm' => ?_⟩
        rw [hcm] at hcm'
        cases hcm'
        refine ⟨⟨cm.matrix, error, cloud⟩, by simp [List.getElem?_set, hlt], Or.inr ⟨?_, ?_⟩⟩
        · simpa using hskip
        · exact ⟨error, cloud, htri, rfl⟩

theorem find_best_loop_frame (cv : OpenCV) (c : Constants) (self : FeatureMatcher)
    (camera_matrices : List CameraMatrix) :
    ∀ (m i : Nat) (state state' : List CameraMatrix × Option Nat),
      self.find_best_loop cv c (List.range' i m) state = Except.ok state' →
      (∀ j, j < i → ∀ cm, camera_matrices[j]? = some cm →
        ∃ cm', state.1[j]? = some cm' ∧ triangulated_iff_passed cv c self cm cm') →
      (∀ j, i ≤ j → state.1[j]? = camera_matrices[j]?) →
      (∀ j, j < i + m → ∀ cm, camera_matrices[j]? = some cm →
        ∃ cm', state'.1[j]? = some cm' ∧ triangulated_iff_passed cv c self cm cm')
      ∧ ∀ j, i + m ≤ j → state'.1[j]? = camera_matrices[j]? := by
  intro m
  induction m with
  | zero =>
    intro i state state' h hdone htodo
    simp only [List.range'_zero, FeatureMatcher.find_best_loop] at h
    cases h
    exact ⟨fun j hj => hdone j (by omega), fun j hj => htodo j (by omega)⟩
  | succ m ih =>
    intro i state state' h hdone htodo
    rw [List.range'_succ, FeatureMatcher.find_best_loop] at h
    split at h
    · cases h
    · rename_i mid hmid
      obtain ⟨hother, hat⟩ := find_best_step_frame cv c self i state mid hmid
      have := ih (i + 1) mid state' h
        (fun j hj cm hcm => by
          by_cases hji : j = i
          · subst hji
            exact hat cm (by rw [htodo j (le_refl j)]; exact hcm)
          · rw [hother j hji]
            exact hdone j (by omega) cm hcm)
        (fun j hj => by rw [hother j (by omega)]; exact htodo j (by omega))
      rw [show i + (m + 1) = i + 1 + m by omega]
      exact this

/-- C17: when `find_best_camera_matrix` returns, the list of candidates has kept its length,
and each candidate has been given the cloud and the scalar of `triangulate_points` if and
only if the coherence check did not skip it: a skipped candidate is exactly as it was
before the call, and every other candidate, selected or not, holds the result of
`triangulate_points` on its matrix and its cloud. -/
theorem find_best_camera_matrix_triangulates_passed (cv : OpenCV) (c : Constants)
    (self : FeatureMatcher) (camera_matrices result : List CameraMatrix) (best : Option Nat)
    (h : self.find_best_camera_matrix cv c camera_matrices = Except.ok (result, best)) :
    result.length = camera_matrices.length
      ∧ ∀ (i : Nat) (cm : CameraMatrix), camera_matrices[i]? = some cm →
        ∃ cm', result[i]? = some cm' ∧ triangulated_iff_passed cv c self cm cm' := by
  unfold FeatureMatcher.find_best_camera_matrix at h
  have hlen := find_best_loop_length cv c self _ _ _ h
  rw [List.range_eq_range'] at h
  have hframe := find_best_loop_frame cv c self camera_matrices camera_matrices.length 0
    (camera_matrices, none) (result, best) h (fun j hj => by omega) (fun j _ => rfl)
  refine ⟨hlen, fun i cm hcm => hframe.1 i ?_ cm hcm⟩
  rcases Nat.lt_or_ge i camera_matrices.length with hl | hl
  · omega
  · rw [List.getElem?_eq_none hl] at hcm; cases hcm

/-- C17 at a concrete input: the first candidate is skipped and keeps its empty cloud, the
other two are triangulated, and the third is the one returned. -/
theorem find_best_camera_matrix_triangulates_passed_witness :
    one_match.find_best_camera_matrix (answering [] []) spec_constants
        [candidate_s, candidate_a, candidate_b]
        = Except.ok ([candidate_s, triangulated_a, triangulated_b], some 2)
      ∧ candidate_s.rotation_is_coherent = true
      ∧ ([candidate_s, triangulated_a, triangulated_b].length
          = [candidate_s, candidate_a, candidate_b].length
        ∧ ∀ (i : Nat) (cm : CameraMatrix),
          [candidate_s, candidate_a, candidate_b][i]? = some cm →
          ∃ cm', [candidate_s, triangulated_a, triangulated_b][i]? = some cm'
            ∧ triangulated_iff_passed (answering [] []) spec_constants one_match cm cm') :=
  ⟨by decide!, by decide!,
    find_best_camera_matrix_triangulates_passed (answering [] []) spec_constants one_match
      [candidate_s, candidate_a, candidate_b] [candidate_s, triangulated_a, triangulated_b]
      (some 2) (by decide!)⟩

/-! ### triangulate_points: the points added to the cloud -/

theorem triangulate_match_keypoint (cv : OpenCV) (c : Constants) (self : FeatureMatcher)
    (p1 p2 : Matx34d) (m : DMatch) (cloud_point : CloudPoint)
    (h : self.triangulate_match cv c p1 p2 m = Except.ok cloud_point) :
    vector_at self.keypoints1 m.queryIdx = some cloud_point.keypoint := by
  unfold FeatureMatcher.triangulate_match at h
  simp only at h
  split at h
  · rename_i keypoint1 keypoint2 h1 h2
    cases h
    exact h1
  · cases h

theorem triangulate_loop_appends (cv : OpenCV) (c : Constants) (self : FeatureMatcher)
    (p1 p2 : Matx34d) :
    ∀ (matches_ : List DMatch) (point_cloud result : PointCloud),
      self.triangulate_loop cv c p1 p2 matches_ point_cloud = Except.ok result →
      ∃ added : List CloudPoint, result.points = point_cloud.points ++ added
        ∧ List.Forall₂ (fun m cloud_point =>
            self.triangulate_match cv c p1 p2 m = Except.ok cloud_point) matches_ added := by
  intro matches_
  induction matches_ with
  | nil =>
    intro point_cloud result h
    simp only [FeatureMatcher.triangulate_loop] at h
    cases h
    exact ⟨[], by simp, List.Forall₂.nil⟩
  | cons m rest ih =>
    intro point_cloud result h
    rw [FeatureMatcher.triangulate_loop] at h
    split at h
    · cases h
    · rename_i cloud_point hm
      obtain ⟨added, hpoints, hall⟩ := ih _ result h
      exact ⟨cloud_point :: added, by rw [hpoints]; simp, List.Forall₂.cons hm hall⟩

/-- C18, as the code has it: when `triangulate_points` returns, the cloud holds the points
it held before followed by exactly one new `CloudPoint` per correspondence, in the order of
the correspondences; the new point of a correspondence is the one the loop body computes for
it and carries the image-1 keypoint at its query index. The size of the cloud is its size
before the call plus `matches.size()`, which is `matches.size()` when the cloud passed in was
empty. -/
theorem triangulate_points_appends (cv : OpenCV) (c : Constants) (self : FeatureMatcher)
    (p1 p2 : Matx34d) (point_cloud : PointCloud) (r : ℚ × PointCloud)
    (h : self.triangulate_points cv c p1 p2 point_cloud = Except.ok r) :
    (∃ added : List CloudPoint, r.2.points = point_cloud.points ++ added
        ∧ List.Forall₂ (fun m cloud_point =>
            self.triangulate_match cv c p1 p2 m = Except.ok cloud_point
              ∧ vector_at self.keypoints1 m.queryIdx = some cloud_point.keypoint)
          self.matches_ added)
      ∧ r.2.points.length = point_cloud.points.length + self.matches_.length
      ∧ (point_cloud.points = [] → r.2.points.length = self.matches_.length) := by
  have hloop : self.triangulate_loop cv c p1 p2 self.matches_ point_cloud = Except.ok r.2 := by
    unfold FeatureMatcher.triangulate_points at h
    split_ifs at h
    split at h
    · cases h
    · rename_i cloud hcloud
      cases h
      exact hcloud
  obtain ⟨added, hpoints, hall⟩ := triangulate_loop_appends cv c self p1 p2 _ _ _ hloop
  have hlen : r.2.points.length = point_cloud.points.length + self.matches_.length := by
    rw [hpoints, List.length_append, hall.length_eq]
  refine ⟨⟨added, hpoints, ?_⟩, hlen, fun hempty => by rw [hlen, hempty]; simp⟩
  exact hall.imp (fun m cp hm => ⟨hm, triangulate_match_keypoint cv c self p1 p2 m cp hm⟩)

/-- C18 at a concrete input: one correspondence and an empty cloud give a cloud of one
point, which carries the keypoint at `(0, 0)` of image 1. -/
theorem triangulate_points_appends_witness :
    one_match.triangulate_points (answering [] []) spec_constants P0 candidate_a.matrix ⟨[]⟩
        = Except.ok (triangulated_a.reprojection_error, triangulated_a.point_cloud)
      ∧ triangulated_a.point_cloud.points.length = one_match.matches_.length
      ∧ triangulated_a.point_cloud.points.length = 0 + one_match.matches_.length :=
  ⟨by decide!, by decide!,
    (triangulate_points_appends (answering [] []) spec_constants one_match P0
      candidate_a.matrix ⟨[]⟩ (triangulated_a.reprojection_error, triangulated_a.point_cloud)
      (by decide!)).2.1⟩

/-- C18 fails as stated: called on a cloud that already holds one point, with one
correspondence, `triangulate_points` leaves a cloud of two points, which is not
`matches.size()` and exceeds the number of correspondences. -/
theorem triangulate_points_grows_a_filled_cloud :
    (one_match.triangulate_points (answering [] []) spec_constants P0 candidate_a.matrix
        triangulated_b.point_cloud).map (fun r => r.2.points.length) = Except.ok 2
      ∧ one_match.matches_.length = 1
      ∧ triangulated_b.point_cloud.points.length = 1 := by
  decide!

/-! ### triangulate_one_point: termination and the number of solves -/

theorem _triangulate_one_point_eq (cv : OpenCV) (p1 : Point3d) (c1 : Matx34d) (p2 : Point3d)
    (c2 : Matx34d) (weight1 weight2 : ℚ) :
    FeatureMatcher._triangulate_one_point cv p1 c1 p2 c2 weight1 weight2
      = homogeneous (cv.solve (system_matrix p1 c1 p2 c2 weight1 weight2)
        (system_vector p1 c1 p2 c2 weight1 weight2)) := by
  unfold FeatureMatcher._triangulate_one_point homogeneous system_matrix system_vector
  norm_num

theorem apply34_eq_mulVec (c : Matx34d) (V : Fin 4 → ℚ) : apply34 c V = c.mulVec V := by
  ext i
  simp [apply34, Matrix.mulVec, Matrix.dotProduct, Fin.sum_univ_four]

theorem system_satisfied (p1 : Point3d) (c1 : Matx34d) (p2 : Point3d) (c2 : Matx34d)
    (X : Fin 3 → ℚ) (weight1 weight2 : ℚ)
    (hd1 : apply34 c1 (homogeneous X) 2 ≠ 0) (hd2 : apply34 c2 (homogeneous X) 2 ≠ 0)
    (h1x : p1.x = (normalized_projection c1 X).x) (h1y : p1.y = (normalized_projection c1 X).y)
    (h2x : p2.x = (normalized_projection c2 X).x) (h2y : p2.y = (normalized_projection c2 X).y)
    (hw1 : weight1 ≠ 0) (hw2 : weight2 ≠ 0) :
    (system_matrix p1 c1 p2 c2 weight1 weight2).mulVec X
      = system_vector p1 c1 p2 c2 weight1 weight2 := by
  simp only [normalized_projection] at h1x h1y h2x h2y
  simp only [apply34, homogeneous, Matrix.cons_val_zero, Matrix.cons_val_one,
    Matrix.head_cons, Matrix.cons_val_two, Matrix.tail_cons, Matrix.cons_val_three]
    at hd1 hd2 h1x h1y h2x h2y
  have k1x := (eq_div_iff hd1).mp h1x
  have k1y := (eq_div_iff hd1).mp h1y
  have k2x := (eq_div_iff hd2).mp h2x
  have k2y := (eq_div_iff hd2).mp h2y
  ext i
  fin_cases i
  · simp only [system_matrix, system_vector, Matrix.mulVec, Matrix.dotProduct,
      Fin.sum_univ_three, Fin.zero_eta, Fin.isValue, Matrix.of_apply, Matrix.cons_val',
      Matrix.cons_val_zero, Matrix.empty_val', Matrix.cons_val_fin_one, Matrix.cons_val_one,
      Matrix.head_cons, Matrix.cons_val_two, Matrix.tail_cons]
    field_simp
    linear_combination k1x
  · simp only [system_matrix, system_vector, Matrix.mulVec, Matrix.dotProduct,
      Fin.sum_univ_three, Fin.mk_one, Fin.isValue, Matrix.of_apply, Matrix.cons_val',
      Matrix.cons_val_zero, Matrix.empty_val', Matrix.cons_val_fin_one, Matrix.cons_val_one,
      Matrix.head_cons, Matrix.cons_val_two, Matrix.tail_cons]
    field_simp
    linear_combination k1y
  · simp only [system_matrix, system_vector, Matrix.mulVec, Matrix.dotProduct,
      Fin.sum_univ_three, Fin.reduceFinMk, Fin.isValue, Matrix.of_apply, Matrix.cons_val',
      Matrix.cons_val_zero, Matrix.empty_val', Matrix.cons_val_fin_one, Matrix.cons_val_one,
      Matrix.head_cons, Matrix.cons_val_two, Matrix.tail_cons]
    field_simp
    linear_combination k2x
  · simp only [system_matrix, system_vector, Matrix.mulVec, Matrix.dotProduct,
      Fin.sum_univ_three, Fin.reduceFinMk, Fin.isValue, Matrix.of_apply, Matrix.cons_val',
      Matrix.cons_val_zero, Matrix.empty_val', Matrix.cons_val_fin_one, Matrix.cons_val_one,
      Matrix.head_cons, Matrix.cons_val_two, Matrix.tail_cons, Matrix.cons_val_three]
    field_simp
    linear_combination k2y

theorem camera_rows_parallel (p : Point3d) (c : Matx34d) (X Y : Fin 3 → ℚ) (weight : ℚ)
    (hd : apply34 c (homogeneous X) 2 ≠ 0)
    (hx : p.x = (normalized_projection c X).x) (hy : p.y = (normalized_projection c X).y)
    (hw : weight ≠ 0)
    (rx : (p.x * c 2 0 - c 0 0) / weight * Y 0 + (p.x * c 2 1 - c 0 1) / weight * Y 1
      + (p.x * c 2 2 - c 0 2) / weight * Y 2 = 0)
    (ry : (p.y * c 2 0 - c 1 0) / weight * Y 0 + (p.y * c 2 1 - c 1 1) / weight * Y 1
      + (p.y * c 2 2 - c 1 2) / weight * Y 2 = 0) :
    c.mulVec ![Y 0, Y 1, Y 2, 0]
      = ((c 2 0 * Y 0 + c 2 1 * Y 1 + c 2 2 * Y 2) / apply34 c (homogeneous X) 2)
        • c.mulVec (homogeneous X) := by
  simp only [normalized_projection] at hx hy
  have kx := (eq_div_iff hd).mp hx
  have ky := (eq_div_iff hd).mp hy
  have ex : p.x * (c 2 0 * Y 0 + c 2 1 * Y 1 + c 2 2 * Y 2)
      - (c 0 0 * Y 0 + c 0 1 * Y 1 + c 0 2 * Y 2) = 0 := by
    field_simp at rx
    linear_combination rx
  have ey : p.y * (c 2 0 * Y 0 + c 2 1 * Y 1 + c 2 2 * Y 2)
      - (c 1 0 * Y 0 + c 1 1 * Y 1 + c 1 2 * Y 2) = 0 := by
    field_simp at ry
    linear_combination ry
  rw [← apply34_eq_mulVec, ← apply34_eq_mulVec]
  generalize hdepth : apply34 c (homogeneous X) 2 = depth at hd kx ky
  ext i
  fin_cases i
  · simp only [apply34, Pi.smul_apply, smul_eq_mul, Fin.zero_eta, Fin.isValue,
      Matrix.cons_val_zero, Matrix.cons_val_one, Matrix.head_cons, Matrix.cons_val_two,
      Matrix.tail_cons, Matrix.cons_val_three] at kx ⊢
    field_simp
    linear_combination (-depth) * ex
      + (c 2 0 * Y 0 + c 2 1 * Y 1 + c 2 2 * Y 2) * kx
  · simp only [apply34, Pi.smul_apply, smul_eq_mul, Fin.mk_one, Fin.isValue,
      Matrix.cons_val_zero, Matrix.cons_val_one, Matrix.head_cons, Matrix.cons_val_two,
      Matrix.tail_cons, Matrix.cons_val_three] at ky ⊢
    field_simp
    linear_combination (-depth) * ey
      + (c 2 0 * Y 0 + c 2 1 * Y 1 + c 2 2 * Y 2) * ky
  · simp only [Pi.smul_apply, smul_eq_mul, Fin.reduceFinMk, hdepth]
    simp only [apply34, Fin.isValue, Matrix.cons_val_zero, Matrix.cons_val_one,
      Matrix.head_cons, Matrix.cons_val_two, Matrix.tail_cons, Matrix.cons_val_three]
    field_simp

theorem camera_kernel_offset (p : Point3d) (c : Matx34d) (X Y : Fin 3 → ℚ) (weight : ℚ)
    (C : Fin 4 → ℚ) (hC : camera_centre c C)
    (hd : apply34 c (homogeneous X) 2 ≠ 0)
    (hx : p.x = (normalized_projection c X).x) (hy : p.y = (normalized_projection c X).y)
    (hw : weight ≠ 0)
    (rx : (p.x * c 2 0 - c 0 0) / weight * Y 0 + (p.x * c 2 1 - c 0 1) / weight * Y 1
      + (p.x * c 2 2 - c 0 2) / weight * Y 2 = 0)
    (ry : (p.y * c 2 0 - c 1 0) / weight * Y 0 + (p.y * c 2 1 - c 1 1) / weight * Y 1
      + (p.y * c 2 2 - c 1 2) / weight * Y 2 = 0) :
    ∃ μ ν : ℚ, ∀ i, (![Y 0, Y 1, Y 2, 0] : Fin 4 → ℚ) i = μ * homogeneous X i + ν * C i := by
  have hpar := camera_rows_parallel p c X Y weight hd hx hy hw rx ry
  generalize (c 2 0 * Y 0 + c 2 1 * Y 1 + c 2 2 * Y 2) / apply34 c (homogeneous X) 2 = μ
    at hpar
  have hker : c.mulVec (![Y 0, Y 1, Y 2, 0] - μ • homogeneous X) = 0 := by
    rw [Matrix.mulVec_sub, Matrix.mulVec_smul, hpar, sub_self]
  obtain ⟨ν, hν⟩ := hC.2 _ hker
  refine ⟨μ, ν, fun i => ?_⟩
  have := congrFun hν i
  simp only [Pi.sub_apply, Pi.smul_apply, smul_eq_mul] at this
  linarith

theorem system_kernel_trivial (p1 : Point3d) (c1 : Matx34d) (p2 : Point3d) (c2 : Matx34d)
    (X : Fin 3 → ℚ) (weight1 weight2 : ℚ) (C1 C2 : Fin 4 → ℚ)
    (hC1 : camera_centre c1 C1) (hC2 : camera_centre c2 C2)
    (hdistinct : ∀ a b : ℚ, a • C1 + b • C2 = 0 → a = 0 ∧ b = 0)
    (hbaseline : ∀ a b : ℚ, homogeneous X ≠ a • C1 + b • C2)
    (hd1 : apply34 c1 (homogeneous X) 2 ≠ 0) (hd2 : apply34 c2 (homogeneous X) 2 ≠ 0)
    (h1x : p1.x = (normalized_projection c1 X).x) (h1y : p1.y = (normalized_projection c1 X).y)
    (h2x : p2.x = (normalized_projection c2 X).x) (h2y : p2.y = (normalized_projection c2 X).y)
    (hw1 : weight1 ≠ 0) (hw2 : weight2 ≠ 0) :
    ∀ Y : Fin 3 → ℚ, (system_matrix p1 c1 p2 c2 weight1 weight2).mulVec Y = 0 → Y = 0 := by
  intro Y hY
  have r0 := congrFun hY 0
  have r1 := congrFun hY 1
  have r2 := congrFun hY 2
  have r3 := congrFun hY 3
  simp only [system_matrix, Matrix.mulVec, Matrix.dotProduct, Fin.sum_univ_three,
    Fin.isValue, Matrix.of_apply, Matrix.cons_val', Matrix.cons_val_zero, Matrix.empty_val',
    Matrix.cons_val_fin_one, Matrix.cons_val_one, Matrix.head_cons, Matrix.cons_val_two,
    Matrix.tail_cons, Matrix.cons_val_three, Pi.zero_apply] at r0 r1 r2 r3
  obtain ⟨μ1, ν1, e1⟩ := camera_kernel_offset p1 c1 X Y weight1 C1 hC1 hd1 h1x h1y hw1 r0 r1
  obtain ⟨μ2, ν2, e2⟩ := camera_kernel_offset p2 c2 X Y weight2 C2 hC2 hd2 h2x h2y hw2 r2 r3
  have hμ : μ1 = μ2 := by
    by_contra hne
    have hsub : μ1 - μ2 ≠ 0 := sub_ne_zero.mpr hne
    apply hbaseline (-ν1 / (μ1 - μ2)) (ν2 / (μ1 - μ2))
    funext i
    have h1 := e1 i
    have h2 := e2 i
    have hscaled : (μ1 - μ2) * homogeneous X i = ν2 * C2 i - ν1 * C1 i := by
      linear_combination h2 - h1
    simp only [Pi.add_apply, Pi.smul_apply, smul_eq_mul]
    apply mul_left_cancel₀ hsub
    rw [hscaled]
    field_simp
    ring
  subst hμ
  have hν : ν1 = 0 ∧ -ν2 = 0 := by
    apply hdistinct
    funext i
    have h1 := e1 i
    have h2 := e2 i
    simp only [Pi.add_apply, Pi.smul_apply, smul_eq_mul, Pi.zero_apply]
    linear_combination h2 - h1
  have hμ0 : μ1 = 0 := by
    have h3 := e1 3
    simp [homogeneous, hν.1] at h3
    exact h3.symm ▸ rfl
  funext i
  fin_cases i
  · have h := e1 0
    simpa [hμ0, hν.1] using h
  · have h := e1 1
    simpa [hμ0, hν.1] using h
  · have h := e1 2
    simpa [hμ0, hν.1] using h

theorem _triangulate_one_point_exact (cv : OpenCV) (p1 : Point3d) (c1 : Matx34d)
    (p2 : Point3d) (c2 : Matx34d) (X : Fin 3 → ℚ) (C1 C2 : Fin 4 → ℚ)
    (hcv : solves_exactly cv) (h : NoiseFree p1 c1 p2 c2 X C1 C2)
    (weight1 weight2 : ℚ) (hw1 : weight1 ≠ 0) (hw2 : weight2 ≠ 0) :
    FeatureMatcher._triangulate_one_point cv p1 c1 p2 c2 weight1 weight2 = homogeneous X := by
  rw [_triangulate_one_point_eq,
    hcv _ _ X
      (system_satisfied p1 c1 p2 c2 X weight1 weight2 h.depth1 h.depth2 h.x1 h.y1 h.x2 h.y2
        hw1 hw2)
      (system_kernel_trivial p1 c1 p2 c2 X weight1 weight2 C1 C2 h.centre1 h.centre2
        h.distinct h.off_baseline h.depth1 h.depth2 h.x1 h.y1 h.x2 h.y2 hw1 hw2)]

theorem row2_times_eq (c : Matx34d) (V : Fin 4 → ℚ) : row2_times c V = apply34 c V 2 := rfl

theorem reweight_loop_exact (cv : OpenCV) (c : Constants) (p1 : Point3d) (c1 : Matx34d)
    (p2 : Point3d) (c2 : Matx34d) (X : Fin 3 → ℚ) (C1 C2 : Fin 4 → ℚ)
    (hcv : solves_exactly cv) (h : NoiseFree p1 c1 p2 c2 X C1 C2) :
    ∀ (n : Nat) (weight1 weight2 : ℚ),
      reweight_loop cv c p1 c1 p2 c2 n weight1 weight2 (homogeneous X) = homogeneous X := by
  intro n
  induction n with
  | zero => intro weight1 weight2; rfl
  | succ n ih =>
    intro weight1 weight2
    rw [reweight_loop]
    split_ifs
    · rfl
    · rw [_triangulate_one_point_exact cv p1 c1 p2 c2 X C1 C2 hcv h _ _
        (by rw [row2_times_eq]; exact h.depth1) (by rw [row2_times_eq]; exact h.depth2)]
      exact ih _ _

theorem triangulate_one_point_exact (cv : OpenCV) (c : Constants) (p1 : Point3d)
    (c1 : Matx34d) (p2 : Point3d) (c2 : Matx34d) (X : Fin 3 → ℚ) (C1 C2 : Fin 4 → ℚ)
    (hcv : solves_exactly cv) (h : NoiseFree p1 c1 p2 c2 X C1 C2) :
    FeatureMatcher.triangulate_one_point cv c p1 c1 p2 c2 = homogeneous X := by
  unfold FeatureMatcher.triangulate_one_point
  rw [_triangulate_one_point_exact cv p1 c1 p2 c2 X C1 C2 hcv h _ _ (by norm_num)
    (by norm_num)]
  exact reweight_loop_exact cv c p1 c1 p2 c2 X C1 C2 hcv h _ _ _

theorem inv_apply33 (m : Matx33d) (v : Point3d) (h : determinant m ≠ 0) :
    apply33 (inv m) (apply33 m v) = v := by
  obtain ⟨x, y, z⟩ := v
  simp only [apply33, inv, Matrix.of_apply, Matrix.cons_val', Matrix.cons_val_zero,
    Matrix.empty_val', Matrix.cons_val_fin_one, Matrix.cons_val_one, Matrix.head_cons,
    Matrix.cons_val_two, Matrix.tail_cons, Point3d.mk.injEq]
  have hdet : determinant m = m 0 0 * (m 1 1 * m 2 2 - m 1 2 * m 2 1)
      - m 0 1 * (m 1 0 * m 2 2 - m 1 2 * m 2 0) + m 0 2 * (m 1 0 * m 2 1 - m 1 1 * m 2 0) := rfl
  generalize determinant m = d at h hdet ⊢
  refine ⟨?_, ?_, ?_⟩
  · field_simp
    rw [hdet]
    ring
  · field_simp
    rw [hdet]
    ring
  · simp only [Matrix.vecHead]
    field_simp
    rw [hdet]
    ring

theorem apply34_mul (K : Matx33d) (P : Matx34d) (V : Fin 4 → ℚ) (i : Fin 3) :
    apply34 (K * P) V i
      = K i 0 * apply34 P V 0 + K i 1 * apply34 P V 1 + K i 2 * apply34 P V 2 := by
  simp only [apply34, Matrix.mul_apply, Fin.sum_univ_three]
  ring

theorem reprojection_exact (K : Matx33d) (P : Matx34d) (X : Fin 3 → ℚ) (kx ky : ℚ)
    (hd : apply34 P (homogeneous X) 2 ≠ 0)
    (hpix : apply33 K (normalized_projection P X) = ⟨kx, ky, 1⟩) :
    apply34 (K * P) (homogeneous X) 0 / apply34 (K * P) (homogeneous X) 2 = kx
      ∧ apply34 (K * P) (homogeneous X) 1 / apply34 (K * P) (homogeneous X) 2 = ky := by
  simp only [apply33, normalized_projection, Point3d.mk.injEq] at hpix
  obtain ⟨hx, hy, hz⟩ := hpix
  rw [apply34_mul, apply34_mul, apply34_mul]
  generalize apply34 P (homogeneous X) 0 = a0 at hx hy hz ⊢
  generalize apply34 P (homogeneous X) 1 = a1 at hx hy hz ⊢
  generalize apply34 P (homogeneous X) 2 = depth at hd hx hy hz ⊢
  have hx' : K 0 0 * a0 + K 0 1 * a1 + K 0 2 * depth = kx * depth := by
    field_simp at hx
    linear_combination hx
  have hy' : K 1 0 * a0 + K 1 1 * a1 + K 1 2 * depth = ky * depth := by
    field_simp at hy
    linear_combination hy
  have hz' : K 2 0 * a0 + K 2 1 * a1 + K 2 2 * depth = depth := by
    field_simp at hz
    linear_combination hz
  rw [hx', hy', hz']
  exact ⟨mul_div_cancel_right₀ kx hd, mul_div_cancel_right₀ ky hd⟩

theorem triangulate_match_exact (cv : OpenCV) (c : Constants) (self : FeatureMatcher)
    (pose1 pose2 : Matx34d) (m : DMatch) (keypoint1 keypoint2 : KeyPoint) (X : Fin 3 → ℚ)
    (C1 C2 : Fin 4 → ℚ) (hcv : solves_exactly cv) (hnorm : cv.norm ⟨0, 0⟩ = 0)
    (h : NoiseFree (normalized_projection pose1 X) pose1 (normalized_projection pose2 X) pose2
      X C1 C2)
    (hk1 : vector_at self.keypoints1 m.queryIdx = some keypoint1)
    (hk2 : vector_at self.keypoints2 m.trainIdx = some keypoint2)
    (hK1 : determinant self.image1.guess_camera_matrix ≠ 0)
    (hK2 : determinant self.image2.guess_camera_matrix ≠ 0)
    (hpix1 : apply33 self.image1.guess_camera_matrix (normalized_projection pose1 X)
      = ⟨keypoint1.pt.x, keypoint1.pt.y, 1⟩)
    (hpix2 : apply33 self.image2.guess_camera_matrix (normalized_projection pose2 X)
      = ⟨keypoint2.pt.x, keypoint2.pt.y, 1⟩) :
    self.triangulate_match cv c pose1 pose2 m
      = Except.ok ⟨⟨X 0, X 1, X 2⟩, keypoint1, 0⟩ := by
  have hun1 : apply33 (inv self.image1.guess_camera_matrix)
      ⟨keypoint1.pt.x, keypoint1.pt.y, 1.0⟩ = normalized_projection pose1 X := by
    rw [show (1.0 : ℚ) = 1 by norm_num, ← hpix1, inv_apply33 _ _ hK1]
  have hun2 : apply33 (inv self.image2.guess_camera_matrix)
      ⟨keypoint2.pt.x, keypoint2.pt.y, 1.0⟩ = normalized_projection pose2 X := by
    rw [show (1.0 : ℚ) = 1 by norm_num, ← hpix2, inv_apply33 _ _ hK2]
  obtain ⟨hrx, hry⟩ := reprojection_exact self.image1.guess_camera_matrix pose1 X
    keypoint1.pt.x keypoint1.pt.y h.depth1 hpix1
  unfold FeatureMatcher.triangulate_match
  simp only [hk1, hk2, hun1, hun2,
    triangulate_one_point_exact cv c _ pose1 _ pose2 X C1 C2 hcv h, hrx, hry, sub_self, hnorm]
  simp [homogeneous]

theorem least_squares_exact (A : Matx43d) (B : Fin 4 → ℚ) (X : Fin 3 → ℚ)
    (hAX : A.mulVec X = B) (hker : ∀ Y : Fin 3 → ℚ, A.mulVec Y = 0 → Y = 0) :
    least_squares A B = X := by
  have hM : (Matrix.of fun i j => A 0 i * A 0 j + A 1 i * A 1 j + A 2 i * A 2 j
      + A 3 i * A 3 j : Matx33d) = A.transpose * A := by
    ext i j
    simp [Matrix.mul_apply, Fin.sum_univ_four]
  have hdet : determinant (A.transpose * A) ≠ 0 := by
    intro h0
    rw [determinant_eq_det] at h0
    obtain ⟨v, hv, hMv⟩ := Matrix.exists_mulVec_eq_zero_iff.mpr h0
    have hk : v ∈ LinearMap.ker (A.transpose * A).mulVecLin := by
      rw [LinearMap.mem_ker, Matrix.mulVecLin_apply]
      exact hMv
    rw [Matrix.ker_mulVecLin_transpose_mul_self, LinearMap.mem_ker,
      Matrix.mulVecLin_apply] at hk
    exact hv (hker v hk)
  have hB : ∀ k, B k = A k 0 * X 0 + A k 1 * X 1 + A k 2 * X 2 := by
    intro k
    rw [← hAX]
    simp [Matrix.mulVec, Matrix.dotProduct, Fin.sum_univ_three]
  have hrhs : (⟨A 0 0 * B 0 + A 1 0 * B 1 + A 2 0 * B 2 + A 3 0 * B 3,
      A 0 1 * B 0 + A 1 1 * B 1 + A 2 1 * B 2 + A 3 1 * B 3,
      A 0 2 * B 0 + A 1 2 * B 1 + A 2 2 * B 2 + A 3 2 * B 3⟩ : Point3d)
      = apply33 (A.transpose * A) ⟨X 0, X 1, X 2⟩ := by
    simp only [apply33, Matrix.mul_apply, Matrix.transpose_apply, Fin.sum_univ_four, hB,
      Point3d.mk.injEq]
    refine ⟨?_, ?_, ?_⟩ <;> ring
  unfold least_squares
  simp only
  rw [hM, hrhs, inv_apply33 _ _ hdet]
  ext i
  fin_cases i <;> rfl

theorem answering_solves_exactly (nearest_neighbours : List (List DMatch))
    (status : List Nat) : solves_exactly (answering nearest_neighbours status) :=
  fun A B X hAX hker => least_squares_exact A B X hAX hker

/-- C19: let `C1` and `C2` be the distinct centres of the camera matrices `c1` and `c2`, let
the 3-D point `X` lie off the line through them with non-zero projective depth in both
cameras, and let `p1` and `p2` have the coordinates of its exact normalized projections.
Then `X` satisfies the system `A * X = B` of `_triangulate_one_point` for every pair of
non-zero weights; with a solver that returns the solution of a system that has exactly one,
`triangulate_one_point` returns `(X, 1)`; and in the loop body of `triangulate_points`, for
keypoints that are the pixels of these projections under invertible intrinsics and a norm
that is 0 on the zero vector, the cloud point is `X` with the image-1 keypoint and the
reprojection error 0. -/
theorem triangulation_round_trip (cv : OpenCV) (c : Constants) (p1 : Point3d) (c1 : Matx34d)
    (p2 : Point3d) (c2 : Matx34d) (X : Fin 3 → ℚ) (C1 C2 : Fin 4 → ℚ)
    (hcv : solves_exactly cv) (h : NoiseFree p1 c1 p2 c2 X C1 C2) :
    (∀ weight1 weight2 : ℚ, weight1 ≠ 0 → weight2 ≠ 0 →
        (system_matrix p1 c1 p2 c2 weight1 weight2).mulVec X
          = system_vector p1 c1 p2 c2 weight1 weight2)
      ∧ FeatureMatcher.triangulate_one_point cv c p1 c1 p2 c2 = ![X 0, X 1, X 2, 1]
      ∧ ∀ (self : FeatureMatcher) (m : DMatch) (keypoint1 keypoint2 : KeyPoint),
        cv.norm ⟨0, 0⟩ = 0 →
        vector_at self.keypoints1 m.queryIdx = some keypoint1 →
        vector_at self.keypoints2 m.trainIdx = some keypoint2 →
        determinant self.image1.guess_camera_matrix ≠ 0 →
        determinant self.image2.guess_camera_matrix ≠ 0 →
        apply33 self.image1.guess_camera_matrix (normalized_projection c1 X)
          = ⟨keypoint1.pt.x, keypoint1.pt.y, 1⟩ →
        apply33 self.image2.guess_camera_matrix (normalized_projection c2 X)
          = ⟨keypoint2.pt.x, keypoint2.pt.y, 1⟩ →
        self.triangulate_match cv c c1 c2 m = Except.ok ⟨⟨X 0, X 1, X 2⟩, keypoint1, 0⟩ := by
  refine ⟨fun weight1 weight2 hw1 hw2 =>
      system_satisfied p1 c1 p2 c2 X weight1 weight2 h.depth1 h.depth2 h.x1 h.y1 h.x2 h.y2
        hw1 hw2,
    triangulate_one_point_exact cv c p1 c1 p2 c2 X C1 C2 hcv h, ?_⟩
  intro self m keypoint1 keypoint2 hnorm hk1 hk2 hK1 hK2 hpix1 hpix2
  exact triangulate_match_exact cv c self c1 c2 m keypoint1 keypoint2 X C1 C2 hcv hnorm
    ⟨h.centre1, h.centre2, h.distinct, h.off_baseline, h.depth1, h.depth2, rfl, rfl, rfl, rfl⟩
    hk1 hk2 hK1 hK2 hpix1 hpix2

theorem camera_centre_P0 : camera_centre P0 ![0, 0, 0, 1] := by
  refine ⟨by decide!, fun V hV => ⟨V 3, ?_⟩⟩
  have h0 := congrFun hV 0
  have h1 := congrFun hV 1
  have h2 := congrFun hV 2
  simp [P0, Matrix.mulVec, Matrix.dotProduct, Fin.sum_univ_four] at h0 h1 h2
  funext i
  fin_cases i <;> simp [h0, h1, h2]

theorem camera_centre_candidate_b : camera_centre candidate_b.matrix ![1, 0, 0, 1] := by
  refine ⟨by decide!, fun V hV => ⟨V 3, ?_⟩⟩
  have h0 := congrFun hV 0
  have h1 := congrFun hV 1
  have h2 := congrFun hV 2
  simp [candidate_b, Matrix.mulVec, Matrix.dotProduct, Fin.sum_univ_four] at h0 h1 h2
  funext i
  fin_cases i
  · simp
    linarith
  · simp [h1]
  · simp [h2]
  · simp

theorem noise_free_example :
    NoiseFree ⟨0, 0, 1⟩ P0 ⟨-1 / 2, 0, 1⟩ candidate_b.matrix ![0, 0, 2]
      ![0, 0, 0, 1] ![1, 0, 0, 1] where
  centre1 := camera_centre_P0
  centre2 := camera_centre_candidate_b
  distinct := by
    intro a b hab
    have h0 := congrFun hab 0
    have h3 := congrFun hab 3
    simp at h0 h3
    exact ⟨by rw [h0] at h3; simpa using h3, h0⟩
  off_baseline := by
    intro a b hab
    have h2 := congrFun hab 2
    simp [homogeneous] at h2
  depth1 := by decide!
  depth2 := by decide!
  x1 := by decide!
  y1 := by decide!
  x2 := by decide!
  y2 := by decide!

/-- C19 at a concrete input: the point `(0, 0, 2)` seen through `[I | 0]` and
`[I | (-1, 0, 0)]`, with projections `(0, 0)` and `(-1/2, 0)`, is recovered exactly, with
reprojection error 0. -/
theorem triangulation_round_trip_witness :
    FeatureMatcher.triangulate_one_point (answering [] []) spec_constants ⟨0, 0, 1⟩ P0
        ⟨-1 / 2, 0, 1⟩ candidate_b.matrix = ![0, 0, 2, 1]
      ∧ round_trip_views.triangulate_match (answering [] []) spec_constants P0
        candidate_b.matrix ⟨0, 0, 0, 0⟩ = Except.ok ⟨⟨0, 0, 2⟩, keypoint_at 0 0, 0⟩ :=
  ⟨(triangulation_round_trip (answering [] []) spec_constants ⟨0, 0, 1⟩ P0 ⟨-1 / 2, 0, 1⟩
      candidate_b.matrix ![0, 0, 2] ![0, 0, 0, 1] ![1, 0, 0, 1]
      (answering_solves_exactly [] []) noise_free_example).2.1,
    (triangulation_round_trip (answering [] []) spec_constants ⟨0, 0, 1⟩ P0 ⟨-1 / 2, 0, 1⟩
      candidate_b.matrix ![0, 0, 2] ![0, 0, 0, 1] ![1, 0, 0, 1]
      (answering_solves_exactly [] []) noise_free_example).2.2 round_trip_views ⟨0, 0, 0, 0⟩
      (keypoint_at 0 0) (keypoint_at (-1 / 2) 0) (by decide!) (by decide!) (by decide!)
      (by decide!) (by decide!) (by decide!) (by decide!)⟩

/-! ### find_best_camera_matrix: only the first candidate passes the check -/

theorem find_best_step_first (cv : OpenCV) (c : Constants) (self : FeatureMatcher)
    (cm : CameraMatrix) (rest : List CameraMatrix) (error : ℚ) (cloud : PointCloud)
    (hpass : cm.rotation_is_coherent = false)
    (htri : self.triangulate_points cv c P0 cm.matrix cm.point_cloud
      = Except.ok (error, cloud)) :
    self.find_best_step cv c (cm :: rest, none) 0
      = Except.ok (⟨cm.matrix, error, cloud⟩ :: rest, some 0) := by
  unfold FeatureMatcher.find_best_step
  simp only [List.getElem?_cons_zero, hpass, Bool.false_eq_true, if_false, htri,
    Option.getD_none, List.set_cons_zero]
  have hgt : ∀ x : Option ℚ, double_gt x x = false := by
    intro x
    cases x <;> simp [double_gt]
  simp [hgt]

/-- C22, as the code has it: when the first candidate of a list passes the coherence check
and every other candidate is skipped, `find_best_camera_matrix` triangulates the first
candidate and returns it: the returned pose holds the cloud and the scalar that
`triangulate_points` returns for it, and the other candidates are left as they were. -/
theorem find_best_camera_matrix_first_only (cv : OpenCV) (c : Constants)
    (self : FeatureMatcher) (cm : CameraMatrix) (rest : List CameraMatrix) (error : ℚ)
    (cloud : PointCloud) (hpass : cm.rotation_is_coherent = false)
    (hrest : ∀ r ∈ rest, r.rotation_is_coherent = true)
    (htri : self.triangulate_points cv c P0 cm.matrix cm.point_cloud
      = Except.ok (error, cloud)) :
    self.find_best_camera_matrix cv c (cm :: rest)
      = Except.ok (⟨cm.matrix, error, cloud⟩ :: rest, some 0) := by
  unfold FeatureMatcher.find_best_camera_matrix
  rw [List.length_cons, List.range_succ_eq_map, FeatureMatcher.find_best_loop,
    find_best_step_first cv c self cm rest error cloud hpass htri]
  apply find_best_loop_skipped
  intro i hi r hr
  obtain ⟨j, _, hj⟩ := List.mem_map.mp hi
  subst hj
  simp only [List.getElem?_cons_succ] at hr
  exact hrest r (List.getElem?_mem hr)

/-- C22 at a concrete input: four candidates of which only the first passes the check. -/
theorem find_best_camera_matrix_first_only_witness :
    candidate_a.rotation_is_coherent = false
      ∧ one_match.find_best_camera_matrix (answering [] []) spec_constants
        [candidate_a, candidate_s, candidate_s, candidate_s]
        = Except.ok ([⟨candidate_a.matrix, 1 / 2, triangulated_a.point_cloud⟩, candidate_s,
          candidate_s, candidate_s], some 0) :=
  ⟨by decide!,
    find_best_camera_matrix_first_only (answering [] []) spec_constants one_match candidate_a
      [candidate_s, candidate_s, candidate_s] (1 / 2) triangulated_a.point_cloud (by decide!)
      (by decide!) (by decide!)⟩

/-- C22 fails as stated: of four candidates only the first passes the check; it is returned,
and it has been triangulated: its cloud holds one point and its reprojection error is 1/2,
not an empty cloud and the error 0. -/
theorem find_best_camera_matrix_first_is_triangulated :
    one_match.find_best_camera_matrix (answering [] []) spec_constants
        [candidate_a, candidate_s, candidate_s, candidate_s]
        = Except.ok ([triangulated_a, candidate_s, candidate_s, candidate_s], some 0)
      ∧ candidate_a.rotation_is_coherent = false
      ∧ candidate_s.rotation_is_coherent = true
      ∧ triangulated_a.point_cloud.points.length = 1
      ∧ triangulated_a.reprojection_error = 1 / 2 := by
  decide!

/-! ### Boxes::img_get -/

/-- C23: `img_read` returns the position of the image it appended, and `img_get` returns
`NULL` for every index that is not smaller than the number of images; but for every index
smaller than the number of images `img_get` returns the first image of the list, whatever
the index, because the iterator is never advanced. -/
theorem img_get_returns_first {α : Type} (new_image : String → α) (images : List α)
    (filename : String) (index : Nat) (hsize : images.length < 2 ^ 32)
    (hindex : index < images.length) :
    (img_read new_image images filename).1 = images.length
      ∧ (img_read new_image images filename).2[images.length]?
        = some (new_image filename)
      ∧ img_get images index = images.head?
      ∧ ∀ beyond, images.length ≤ beyond → img_get images beyond = none := by
  refine ⟨?_, ?_, ?_, ?_⟩
  · simp only [img_read, List.length_append, List.length_singleton,
      Nat.add_sub_cancel]
    exact Nat.mod_eq_of_lt hsize
  · simp [img_read]
  · unfold img_get
    rw [if_neg (by omega)]
    cases images with
    | nil => simp at hindex
    | cons a rest => simp
  · intro beyond hbeyond
    unfold img_get
    rw [if_pos hbeyond]

/-- C23 at the failing input: two files are read and the second read returns the index 1;
`img_get(1)` is the image of the first file, while the image at position 1 is that of the
second. -/
theorem img_get_returns_first_witness :
    (img_read id (img_read id [] "a.jpg").2 "b.jpg").1 = 1
      ∧ (img_read id (img_read id [] "a.jpg").2 "b.jpg").2[1]? = some "b.jpg"
      ∧ img_get (img_read id (img_read id [] "a.jpg").2 "b.jpg").2 1
        = some "a.jpg"
      ∧ img_get ["a.jpg", "b.jpg"] 1 = ["a.jpg", "b.jpg"].head? :=
  ⟨by decide, by decide, by decide,
    (img_get_returns_first id ["a.jpg", "b.jpg"] "c.jpg" 1 (by decide) (by decide)).2.2.1⟩

/-! ### _match and the assertions of triangulate_points -/

theorem match_loop_length_le (c : Constants) (match_points : Option (List MatchPoint)) :
    ∀ (nearest_neighbours : List (List DMatch)) (matches_ : List DMatch),
      (match_loop c match_points nearest_neighbours matches_).1.length
        ≤ matches_.length + nearest_neighbours.length := by
  intro nearest_neighbours
  induction nearest_neighbours with
  | nil => intro matches_; simp [match_loop]
  | cons n rest ih =>
    intro matches_
    rw [match_loop]
    cases select_neighbour c n with
    | none =>
      have := ih matches_
      simp only [List.length_cons]
      omega
    | some match1 =>
      cases h3 : reindex match_points match1 with
      | none =>
        simp only [h3, List.length_cons]
        omega
      | some m =>
        have := ih (matches_ ++ [m])
        simp only [h3, List.length_append, List.length_singleton, List.length_cons, List.length_nil] at this ⊢
        omega

/-- C24 at the failing input: in the nearest-two mode without a table, three queries are all
matched to the same keypoint of an image that has two keypoints; `_match` returns normally
with three correspondences, more than the two keypoints of image 2, and
`triangulate_points` called on them fails its second assertion. -/
theorem _match_exceeds_second_image :
    three_to_two._match (answering neighbours_three_queries []) spec_constants
        [[1], [2], [3]] [[0], [100]] none 0 2
        = ({ three_to_two with matches_ := [⟨0, 0, 0, 1⟩, ⟨1, 0, 0, 2⟩, ⟨2, 0, 0, 3⟩] },
          Outcome.returned)
      ∧ three_to_two.keypoints1.length = 3
      ∧ three_to_two.keypoints2.length = 2
      ∧ ({ three_to_two with
          matches_ := [⟨0, 0, 0, 1⟩, ⟨1, 0, 0, 2⟩, ⟨2, 0, 0, 3⟩] } : FeatureMatcher
        ).triangulate_points (answering neighbours_three_queries []) spec_constants P0
          candidate_a.matrix ⟨[]⟩ = Except.error Failure.assertion_failed := by
  decide!

/-! ### Image::get_keypoints -/

theorem lookup_append_absent (map : List (String × Option (List KeyPoint))) (key : String)
    (value : Option (List KeyPoint)) (h : map.lookup key = none) :
    (map ++ [(key, value)]).lookup key = some value := by
  induction map with
  | nil => simp [List.lookup]
  | cons e rest ih =>
    obtain ⟨k, v⟩ := e
    by_cases hk : key = k
    · subst hk
      simp [List.lookup] at h
    · have hb : (key == k) = false := by simpa using hk
      simp only [List.lookup, hb] at h
      simp only [List.cons_append, List.lookup, hb]
      exact ih h

theorem lookup_append_other (map : List (String × Option (List KeyPoint))) (key other : String)
    (value : Option (List KeyPoint)) (h : other ≠ key) :
    (map ++ [(key, value)]).lookup other = map.lookup other := by
  have hb : (other == key) = false := by simpa using h
  induction map with
  | nil => simp [List.lookup, hb]
  | cons e rest ih =>
    obtain ⟨k, v⟩ := e
    cases hk : other == k <;> simp [List.lookup, hk, ih]

theorem lookup_replace_present (map : List (String × Option (List KeyPoint))) (key : String)
    (value old : Option (List KeyPoint)) (h : map.lookup key = some old) :
    (map.map fun entry => if entry.1 = key then (entry.1, value) else entry).lookup key
      = some value := by
  induction map with
  | nil => simp [List.lookup] at h
  | cons e rest ih =>
    obtain ⟨k, v⟩ := e
    by_cases hk : key = k
    · subst hk
      simp only [List.map_cons, if_true]
      simp [List.lookup]
    · have hb : (key == k) = false := by simpa using hk
      have hne : ¬ (k, v).1 = key := fun hh => hk hh.symm
      simp only [List.lookup, hb] at h
      simp only [List.map_cons]
      rw [if_neg hne]
      simp only [List.lookup, hb]
      exact ih h

theorem lookup_replace_other (map : List (String × Option (List KeyPoint))) (key other : String)
    (value : Option (List KeyPoint)) (h : other ≠ key) :
    (map.map fun entry => if entry.1 = key then (entry.1, value) else entry).lookup other
      = map.lookup other := by
  induction map with
  | nil => simp
  | cons e rest ih =>
    obtain ⟨k, v⟩ := e
    by_cases hk : k = key
    · subst hk
      have hb : (other == k) = false := by simpa using h
      simp only [List.map_cons, if_true]
      simp only [List.lookup, hb]
      exact ih
    · have hne : ¬ (k, v).1 = key := hk
      simp only [List.map_cons]
      rw [if_neg hne]
      cases hb : other == k
      · simp only [List.lookup, hb]
        exact ih
      · simp only [List.lookup, hb]

theorem lookup_map_assign (map : List (String × Option (List KeyPoint))) (key : String)
    (value : Option (List KeyPoint)) : (map_assign map key value).lookup key = some value := by
  unfold map_assign
  cases h : map.lookup key with
  | none => exact lookup_append_absent map key value h
  | some old => exact lookup_replace_present map key value old h

theorem lookup_map_assign_other (map : List (String × Option (List KeyPoint)))
    (key other : String) (value : Option (List KeyPoint)) (h : other ≠ key) :
    (map_assign map key value).lookup other = map.lookup other := by
  unfold map_assign
  cases map.lookup key with
  | none => exact lookup_append_other map key other value h
  | some old => exact lookup_replace_other map key other value h

theorem lookup_map_index_other (map : List (String × Option (List KeyPoint)))
    (key other : String) (h : other ≠ key) :
    (map_index map key).2.lookup other = map.lookup other := by
  unfold map_index
  cases map.lookup key with
  | none => exact lookup_append_other map key other none h
  | some old => rfl

theorem get_keypoints_cached (cv : Detectors) (self : KeypointCache) (detector_type : String)
    (keypoints : List KeyPoint)
    (h : self.keypoints.lookup detector_type = some (some keypoints)) :
    self.get_keypoints cv detector_type = Except.ok (keypoints, self, []) := by
  simp [KeypointCache.get_keypoints, map_index, h]

theorem get_keypoints_stores (cv : Detectors) (self next : KeypointCache)
    (detector_type : String) (keypoints : List KeyPoint) (computed : List String)
    (h : self.get_keypoints cv detector_type = Except.ok (keypoints, next, computed)) :
    next.keypoints.lookup detector_type = some (some keypoints)
      ∧ (computed = [] ∨ computed = [detector_type])
      ∧ ∀ other, other ≠ detector_type →
        next.keypoints.lookup other = self.keypoints.lookup other := by
  unfold KeypointCache.get_keypoints at h
  cases hl : self.keypoints.lookup detector_type with
  | some value =>
    cases value with
    | some k =>
      simp only [map_index, hl, Except.ok.injEq, Prod.mk.injEq] at h
      obtain ⟨hk, hn, hc⟩ := h
      subst hk hn hc
      exact ⟨hl, Or.inl rfl, fun _ _ => rfl⟩
    | none =>
      simp only [map_index, hl] at h
      cases hc : ({ self with keypoints := self.keypoints } : KeypointCache).compute_keypoints
        cv detector_type with
      | error f => simp [hc] at h
      | ok k =>
        simp only [hc, Except.ok.injEq, Prod.mk.injEq] at h
        obtain ⟨hk, hn, hcs⟩ := h
        subst hk hn hcs
        exact ⟨lookup_map_assign _ _ _, Or.inr rfl,
          fun other ho => lookup_map_assign_other _ _ _ _ ho⟩
  | none =>
    simp only [map_index, hl] at h
    cases hc : ({ self with keypoints := self.keypoints ++ [(detector_type, none)] } :
      KeypointCache).compute_keypoints cv detector_type with
    | error f => simp [hc] at h
    | ok k =>
      simp only [hc, Except.ok.injEq, Prod.mk.injEq] at h
      obtain ⟨hk, hn, hcs⟩ := h
      subst hk hn hcs
      refine ⟨lookup_map_assign _ _ _, Or.inr rfl, fun other ho => ?_⟩
      simp only
      rw [lookup_map_assign_other _ _ _ _ ho, lookup_append_other _ _ _ _ ho]

theorem get_keypoints_each_cached (cv : Detectors) (detector_type : String)
    (keypoints : List KeyPoint) :
    ∀ (later : List String) (self last : KeypointCache) (computed : List String),
      self.keypoints.lookup detector_type = some (some keypoints) →
      get_keypoints_each cv self later = Except.ok (last, computed) →
      last.keypoints.lookup detector_type = some (some keypoints)
        ∧ detector_type ∉ computed := by
  intro later
  induction later with
  | nil =>
    intro self last computed hl h
    simp only [get_keypoints_each, Except.ok.injEq, Prod.mk.injEq] at h
    obtain ⟨h1, h2⟩ := h
    subst h1 h2
    exact ⟨hl, by simp⟩
  | cons d rest ih =>
    intro self last computed hl h
    rw [get_keypoints_each] at h
    cases hg : self.get_keypoints cv d with
    | error f => simp [hg] at h
    | ok r =>
      obtain ⟨k, next, calls⟩ := r
      simp only [hg] at h
      cases he : get_keypoints_each cv next rest with
      | error f => simp [he] at h
      | ok r2 =>
        obtain ⟨last2, calls2⟩ := r2
        simp only [he, Except.ok.injEq, Prod.mk.injEq] at h
        obtain ⟨h1, h2⟩ := h
        subst h1 h2
        by_cases hd : d = detector_type
        · subst hd
          rw [get_keypoints_cached cv self d keypoints hl] at hg
          simp only [Except.ok.injEq, Prod.mk.injEq] at hg
          obtain ⟨_, hn, hc⟩ := hg
          subst hn hc
          have := ih self last2 calls2 hl he
          exact ⟨this.1, by simpa using this.2⟩
        · obtain ⟨_, hcalls, hframe⟩ := get_keypoints_stores cv self next d k calls hg
          have hne : detector_type ≠ d := fun hh => hd hh.symm
          have hl2 : next.keypoints.lookup detector_type = some (some keypoints) := by
            rw [hframe detector_type hne]
            exact hl
          have := ih next last2 calls2 hl2 he
          refine ⟨this.1, ?_⟩
          rcases hcalls with hc | hc <;> subst hc <;> simp [this.2, hne]

theorem get_keypoints_each_once (cv : Detectors) :
    ∀ (types : List String) (self last : KeypointCache) (computed : List String),
      get_keypoints_each cv self types = Except.ok (last, computed) →
      ∀ detector_type, computed.count detector_type ≤ 1 := by
  intro types
  induction types with
  | nil =>
    intro self last computed h detector_type
    simp only [get_keypoints_each, Except.ok.injEq, Prod.mk.injEq] at h
    obtain ⟨_, h2⟩ := h
    subst h2
    simp
  | cons d rest ih =>
    intro self last computed h detector_type
    rw [get_keypoints_each] at h
    cases hg : self.get_keypoints cv d with
    | error f => simp [hg] at h
    | ok r =>
      obtain ⟨k, next, calls⟩ := r
      simp only [hg] at h
      cases he : get_keypoints_each cv next rest with
      | error f => simp [he] at h
      | ok r2 =>
        obtain ⟨last2, calls2⟩ := r2
        simp only [he, Except.ok.injEq, Prod.mk.injEq] at h
        obtain ⟨h1, h2⟩ := h
        subst h1 h2
        obtain ⟨hstored, hcalls, _⟩ := get_keypoints_stores cv self next d k calls hg
        have hrest := ih next last2 calls2 he detector_type
        rw [List.count_append]
        rcases hcalls with hc | hc
        · subst hc
          simpa using hrest
        · subst hc
          by_cases hd : d = detector_type
          · subst hd
            have hnot := (get_keypoints_each_cached cv d k rest next last2 calls2 hstored he).2
            rw [List.count_eq_zero_of_not_mem hnot]
            simp
          · have : List.count detector_type [d] = 0 := by
              apply List.count_eq_zero_of_not_mem
              simpa using fun hh => hd hh.symm
            omega

/-- C21: once a call of `get_keypoints` for a detector type has returned, every later call
for that type on the same image, whatever calls for any types lie between, returns the same
sequence without calling `compute_keypoints` and leaves the image as it is; the call does
not alter the entries of other detector types; and over any sequence of calls
`compute_keypoints` runs at most once for each detector type. -/
theorem get_keypoints_computes_once (cv : Detectors) (self next : KeypointCache)
    (detector_type : String) (keypoints : List KeyPoint) (computed : List String)
    (h : self.get_keypoints cv detector_type = Except.ok (keypoints, next, computed)) :
    (∀ between last computed_between,
        get_keypoints_each cv next between = Except.ok (last, computed_between) →
        detector_type ∉ computed_between
          ∧ last.get_keypoints cv detector_type = Except.ok (keypoints, last, []))
      ∧ (∀ other, other ≠ detector_type →
        next.keypoints.lookup other = self.keypoints.lookup other)
      ∧ ∀ types last computed_all,
        get_keypoints_each cv self types = Except.ok (last, computed_all) →
        ∀ any_type, computed_all.count any_type ≤ 1 := by
  obtain ⟨hstored, _, hframe⟩ :=
    get_keypoints_stores cv self next detector_type keypoints computed h
  refine ⟨fun between last computed_between he => ?_, hframe,
    fun types last computed_all he => get_keypoints_each_once cv types self last computed_all he⟩
  obtain ⟨hl, hnot⟩ := get_keypoints_each_cached cv detector_type keypoints between next last
    computed_between hstored he
  exact ⟨hnot, get_keypoints_cached cv last detector_type keypoints hl⟩

/-- C21 at a concrete input: on a fresh image the first call for FAST computes the keypoints;
after a call for ORB the second call for FAST returns them from the cache. -/
theorem get_keypoints_computes_once_witness :
    fresh_image.get_keypoints two_detectors "FAST"
        = Except.ok ([keypoint_at 0 0],
          { fresh_image with keypoints := [("FAST", some [keypoint_at 0 0])] }, ["FAST"])
      ∧ get_keypoints_each two_detectors
          { fresh_image with keypoints := [("FAST", some [keypoint_at 0 0])] } ["ORB"]
        = Except.ok ({ fresh_image with keypoints :=
            [("FAST", some [keypoint_at 0 0]), ("ORB", some [keypoint_at 1 1])] }, ["ORB"])
      ∧ ({ fresh_image with keypoints :=
            [("FAST", some [keypoint_at 0 0]), ("ORB", some [keypoint_at 1 1])] }
          : KeypointCache).get_keypoints two_detectors "FAST"
        = Except.ok ([keypoint_at 0 0], { fresh_image with keypoints :=
            [("FAST", some [keypoint_at 0 0]), ("ORB", some [keypoint_at 1 1])] }, []) :=
  ⟨by decide!, by decide!,
    ((get_keypoints_computes_once two_detectors fresh_image
      { fresh_image with keypoints := [("FAST", some [keypoint_at 0 0])] } "FAST"
      [keypoint_at 0 0] ["FAST"] (by decide!)).1 ["ORB"]
      { fresh_image with keypoints :=
        [("FAST", some [keypoint_at 0 0]), ("ORB", some [keypoint_at 1 1])] } ["ORB"]
      (by decide!)).2⟩

/-! ### Image::decode_jfif_data -/

theorem header_at_lt (header : List Nat) (hbytes : ∀ byte ∈ header, byte < 256) (index : Nat)
    (value : Nat) (h : header_at header index = Except.ok value) : value < 256 := by
  unfold header_at at h
  split_ifs at h
  simp only [Except.ok.injEq] at h
  subst h
  rw [List.getD_eq_getElem?_getD]
  cases hg : header[index]? with
  | none => simp
  | some b => exact hbytes b (List.getElem?_mem hg)

theorem blocks_loop_terminates (find_distance : List Nat → Option Nat) (header : List Nat)
    (hbytes : ∀ byte ∈ header, byte < 256) :
    ∀ rounds pos block_length distance, 2 ≤ block_length → block_length ≤ 65537 →
      2048 ≤ pos + 2 * rounds →
      blocks_loop find_distance header (rounds + 1) pos block_length distance ≠ none := by
  intro rounds
  induction rounds with
  | zero =>
    intro pos block_length distance h2 h3 hp
    rw [blocks_loop, if_neg (by omega)]
    simp
  | succ r ih =>
    intro pos block_length distance h2 h3 hp
    rw [blocks_loop]
    dsimp only
    split
    · split
      · simp
      · split
        · simp
        · split
          · simp
          · split
            · rename_i hpos hnot _ _ _ _ _ _ _ _ high low hhigh hlow
              have hh := header_at_lt header hbytes _ _ hhigh
              have hl := header_at_lt header hbytes _ _ hlow
              rw [Nat.shiftLeft_eq]
              apply ih <;> omega
            · simp
            · simp
    · simp

theorem blocks_loop_first_round (find_distance : List Nat → Option Nat) (header : List Nat)
    (hbytes : ∀ byte ∈ header, byte < 256) (rounds pos block_length distance : Nat)
    (h3 : block_length ≤ 65537) (hp : 2048 ≤ pos + 2 * rounds) :
    blocks_loop find_distance header (rounds + 1 + 1) pos block_length distance ≠ none := by
  rw [blocks_loop]
  dsimp only
  split
  · split
    · simp
    · split
      · simp
      · split
        · simp
        · split
          · rename_i hpos hnot _ _ _ _ _ _ _ _ high low hhigh hlow
            have hh := header_at_lt header hbytes _ _ hhigh
            have hl := header_at_lt header hbytes _ _ hlow
            rw [Nat.shiftLeft_eq]
            apply blocks_loop_terminates find_distance header hbytes <;> omega
          · simp
          · simp
  · simp

theorem decode_jfif_data_terminates (find_distance : List Nat → Option Nat)
    (distance_file : Option Int) (file : Option (List Nat)) (distance : Nat)
    (hbytes : ∀ header, file = some header → ∀ byte ∈ header, byte < 256) :
    decode_jfif_data find_distance distance_file file 2048 distance ≠ none := by
  unfold decode_jfif_data
  split
  · simp
  · split
    · simp
    · rename_i header
      have hb := hbytes header rfl
      dsimp only
      split
      · simp
      · simp
      · split
        · simp
        · simp
        · split
          · rename_i _ _ _ _ _ _ high low hhigh hlow
            have hh := header_at_lt header hb _ _ hhigh
            have hl := header_at_lt header hb _ _ hlow
            rw [Nat.shiftLeft_eq]
            exact blocks_loop_first_round find_distance header hb 2046 (0 + 4) _ distance
              (by omega) (by omega)
          · simp
          · simp

/-- C25 at two failing inputs. In the first the header holds the magic number and a JFIF block
of the length 2043, so the loop moves `pos` to 2047, which passes the check against the size
of the header, and then reads `header[2048]`. In the second a comment block of the length
4004 starts at the position 20, and the copy of the comment reads `header[2048]`. -/
theorem decode_jfif_data_reads_past_header :
    header_long_block.length = 2048
      ∧ (∀ byte ∈ header_long_block, byte < 256)
      ∧ decode_jfif_data (fun _ => none) none (some header_long_block) 2048 0
        = some (Except.error Failure.undefined_behaviour)
      ∧ header_long_comment.length = 2048
      ∧ (∀ byte ∈ header_long_comment, byte < 256)
      ∧ decode_jfif_data (fun _ => none) none (some header_long_comment) 2048 0
        = some (Except.error Failure.undefined_behaviour) := by
  decide!

end Boxes
